import Mathlib

/-!
# Profanity: capability canonicalisation, capability cache and message handlers

A shallow embedding of `src/xmpp/capabilities.c` and `src/xmpp/message.c`.

* C pointers that may be `NULL` are `Option` values.
* A function whose C code can dereference `NULL` (or hand `NULL` to `strcmp`,
  `g_str_hash`) returns `Option`: `none` is that undefined behaviour.
* There is no heap. Where the code keeps a pointer into an object and releases the
  object, the pointer carries what can still be read through it, and a read of released
  memory is undefined behaviour, `none`, as well.
* Calls that a handler makes into the session / UI layer (`sv_ev_*`, `ui_*`,
  `chat_session_remove`, `xmpp_send`) are recorded, in order, as a list of `Event`s.
* Functions of the repository that live outside the two embedded files
  (`jid_create`, `form_create`, `muc_active`, ...) are fields of `Env`.
* C strings are Lean `String`s; `strcmp` compares them character by character
  (for valid UTF-8 the order of the code points is the order of the bytes).
-/

namespace Profanity

/-! ## C strings and glib helpers -/

/-- The loop of `strcmp` over the characters of two strings: negative, zero or
positive as the first string is smaller than, equal to or greater than the second. -/
def strcmp_chars : List Char → List Char → Int
  | [], [] => 0
  | [], _ :: _ => -1
  | _ :: _, [] => 1
  | a :: as, b :: bs =>
    if a.toNat < b.toNat then -1
    else if b.toNat < a.toNat then 1
    else strcmp_chars as bs

/-- `strcmp` on two non-NULL strings. -/
def strcmp_str (s1 s2 : String) : Int := strcmp_chars s1.data s2.data

/-- `strcmp` on `char *` arguments: a `NULL` argument is undefined behaviour. -/
def strcmp : Option String → Option String → Option Int
  | some s1, some s2 => some (strcmp_str s1 s2)
  | _, _ => none

/-- `g_strcmp0`: like `strcmp`, but `NULL` is handled and sorts before every string. -/
def g_strcmp0 : Option String → Option String → Int
  | none, none => 0
  | none, some _ => -1
  | some _, none => 1
  | some s1, some s2 => strcmp_str s1 s2

/-- `g_slist_insert_sorted (list, data, func)`: walk the list while `func (data, elem) > 0`
and link `data` in front of the first element for which it is not. The compare function
may be undefined on some arguments (`none`), which makes the whole call undefined. -/
def g_slist_insert_sorted {α : Type} (func : α → α → Option Int) : List α → α → Option (List α)
  | [], data => some [data]
  | x :: rest, data =>
    match func data x with
    | none => none
    | some cmp =>
      if cmp > 0 then
        match g_slist_insert_sorted func rest data with
        | none => none
        | some l => some (x :: l)
      else some (data :: x :: rest)

/-- `g_string_append (s, val)`: with `val == NULL` the precondition check of glib
returns the string unchanged. -/
def g_string_append (s : String) (val : Option String) : String :=
  match val with
  | none => s
  | some v => s ++ v

/-- A `GHashTable` with string keys (`g_str_hash`, `g_str_equal`): the entries, at most
one per key. -/
structure GHashTable (V : Type) where
  entries : List (String × V)

/-- `g_hash_table_new_full`: the empty table. -/
def g_hash_table_new {V : Type} : GHashTable V := ⟨[]⟩

/-- `g_hash_table_lookup`: the value stored under the key, `NULL` if there is none. -/
def g_hash_table_lookup {V : Type} (t : GHashTable V) (key : String) : Option V :=
  match t.entries.find? (fun e => e.1 == key) with
  | none => none
  | some e => some e.2

/-- `g_hash_table_insert`: store the value under the key, replacing the value of an
entry that already has this key. -/
def g_hash_table_insert {V : Type} (t : GHashTable V) (key : String) (value : V) : GHashTable V :=
  ⟨(key, value) :: t.entries.filter (fun e => !(e.1 == key))⟩

/-! ## Stanzas (libstrophe) -/

/-- An `xmpp_stanza_t`: a text node or a tag with attributes and children. -/
inductive Stanza where
  | text (data : String) : Stanza
  | tag (name : String) (attributes : List (String × String)) (children : List Stanza) : Stanza

/-- `xmpp_stanza_get_name`: `NULL` for a text node. -/
def xmpp_stanza_get_name : Stanza → Option String
  | .text _ => none
  | .tag name _ _ => some name

/-- `xmpp_stanza_get_attribute`: `NULL` for a text node or a missing attribute. -/
def xmpp_stanza_get_attribute : Stanza → String → Option String
  | .text _, _ => none
  | .tag _ attributes _, name => attributes.lookup name

/-- `xmpp_stanza_get_ns`: the `xmlns` attribute. -/
def xmpp_stanza_get_ns (stanza : Stanza) : Option String :=
  xmpp_stanza_get_attribute stanza "xmlns"

/-- `xmpp_stanza_get_type`: the `type` attribute. -/
def xmpp_stanza_get_type (stanza : Stanza) : Option String :=
  xmpp_stanza_get_attribute stanza "type"

/-- `xmpp_stanza_get_id`: the `id` attribute. -/
def xmpp_stanza_get_id (stanza : Stanza) : Option String :=
  xmpp_stanza_get_attribute stanza "id"

/-- `xmpp_stanza_get_children` followed by `xmpp_stanza_get_next`: the children in
document order. -/
def xmpp_stanza_get_children : Stanza → List Stanza
  | .text _ => []
  | .tag _ _ children => children

/-- `xmpp_stanza_get_child_by_name`: the first child tag with the name. -/
def xmpp_stanza_get_child_by_name (stanza : Stanza) (name : String) : Option Stanza :=
  (xmpp_stanza_get_children stanza).find? (fun c => xmpp_stanza_get_name c == some name)

/-- `xmpp_stanza_get_child_by_ns`: the first child whose namespace is `ns`. -/
def xmpp_stanza_get_child_by_ns (stanza : Stanza) (ns : String) : Option Stanza :=
  (xmpp_stanza_get_children stanza).find? (fun c => xmpp_stanza_get_ns c == some ns)

/-- The text of the direct text children of a tag, concatenated. -/
def stanza_text_of_children : List Stanza → String
  | [] => ""
  | .text data :: rest => data ++ stanza_text_of_children rest
  | .tag _ _ _ :: rest => stanza_text_of_children rest

/-- `xmpp_stanza_get_text`: the data of a text node; for a tag the concatenated text of
its text children, `NULL` when that text is empty. -/
def xmpp_stanza_get_text : Stanza → Option String
  | .text data => some data
  | .tag _ _ children =>
    let text := stanza_text_of_children children
    if text.length = 0 then none else some text

/-! ## Addresses, data forms and the collaborators of the two files -/

/-- Modelled from the spec: the `Jid` record of `jid.h`, which is not part of the embedded
sources. The spec gives an address three logical parts, the base address, an optional
resource suffix and the full combined address; `str` is the string it was made from. -/
structure Jid where
  str : String
  barejid : String
  resourcepart : Option String
  fulljid : Option String
deriving DecidableEq

/-- Modelled from the spec: a field of an extended data form (`form.h` is not part of the
embedded sources): a field identifier `var` and an ordered list of string values. -/
structure FormField where
  var : Option String
  values : List String
deriving DecidableEq

/-- Modelled from the spec: an extended data form, its fields in document order. -/
structure DataForm where
  fields : List FormField
deriving DecidableEq

/-- A `GTimeVal` delay stamp. -/
structure GTimeVal where
  tv_sec : Int
  tv_usec : Int
deriving DecidableEq

/-- The functions and settings of the repository that `capabilities.c` and `message.c`
call but that are defined in other files. -/
structure Env where
  /-- `form_create` of `form.c`: parse an `x` element into a form (`NULL` when it fails). -/
  form_create : Stanza → Option DataForm
  /-- `p_sha1_hash` of `common.c`. -/
  p_sha1_hash : String → String
  /-- `jid_create` of `jid.c`: parse an address, `NULL` when there is none. -/
  jid_create : Option String → Option Jid
  /-- `jid_is_valid_room_form` of `jid.c`. -/
  jid_is_valid_room_form : Jid → Bool
  /-- `jabber_get_fulljid` of `connection.c`: the full address of the local account. -/
  jabber_get_fulljid : Option String
  /-- `muc_active` of `muc.c`: is the room joined. -/
  muc_active : String → Bool
  /-- `stanza_get_delay` of `stanza.c`: the delay stamp of a stanza, if it has one. -/
  stanza_get_delay : Stanza → Option GTimeVal
  /-- `stanza_contains_chat_state` of `stanza.c`. -/
  stanza_contains_chat_state : Stanza → Bool
  /-- `stanza_get_error_message` of `stanza.c`, which never returns `NULL`. -/
  stanza_get_error_message : Stanza → String
  /-- Whether the build defines `HAVE_LIBGPGME`. -/
  have_libgpgme : Bool
  /-- `p_gpg_decrypt` of `pgp/gpg.c`: the plaintext, `NULL` when decryption fails. -/
  p_gpg_decrypt : String → Option String → Option String
  /-- `prefs_get_boolean (PREF_RECEIPTS_SEND)`. -/
  prefs_receipts_send : Bool
  /-- `create_unique_id` of `common.c`. -/
  create_unique_id : String → String

/-- `STANZA_NAME_IDENTITY` (`stanza.h`); `caps_create` spells it out. -/
def STANZA_NAME_IDENTITY : String := "identity"
/-- `STANZA_NAME_FEATURE` (`stanza.h`); `caps_create` spells it out. -/
def STANZA_NAME_FEATURE : String := "feature"
/-- Modelled from the spec: `STANZA_NAME_X` of `stanza.h`, the name of an extended-form
element. -/
def STANZA_NAME_X : String := "x"
/-- Modelled from the spec: `STANZA_NS_DATA` of `stanza.h`, the data-forms namespace. -/
def STANZA_NS_DATA : String := "jabber:x:data"

/-- Modelled from the spec: `form_get_form_type_field` of `form.c`, the declared form-type:
the (first) value of the distinguished field whose `var` is `FORM_TYPE`. -/
def form_get_form_type_field (form : DataForm) : Option String :=
  match form.fields.find? (fun f => f.var == some "FORM_TYPE") with
  | none => none
  | some f => f.values.head?

/-- Modelled from the spec: `form_get_non_form_type_fields_sorted` of `form.c`, every
non-`FORM_TYPE` field of the form, sorted by field identifier. -/
def form_get_non_form_type_fields_sorted (form : DataForm) : List FormField :=
  (form.fields.filter (fun f => !(f.var == some "FORM_TYPE"))).insertionSort
    (fun a b => g_strcmp0 a.var b.var ≤ 0)

/-- Modelled from the spec: `form_get_field_values_sorted` of `form.c`, the values of the
field sorted lexicographically. -/
def form_get_field_values_sorted (field : FormField) : List String :=
  field.values.insertionSort (fun a b => strcmp_str a b ≤ 0)

/-! ## `capabilities.c`: the canonical string -/

/-- The string built for one `identity` child (lines 123-141). -/
def caps_identity_str (child : Stanza) : String :=
  let category := xmpp_stanza_get_attribute child "category"
  let type := xmpp_stanza_get_attribute child "type"
  let lang := xmpp_stanza_get_attribute child "xml:lang"
  let name := xmpp_stanza_get_attribute child "name"
  -- `g_string_new (NULL)` is the empty string
  let identity_str := match category with
    | none => ""
    | some c => c
  let identity_str := identity_str ++ "/"
  let identity_str := match type with
    | some t => identity_str ++ t
    | none => identity_str
  let identity_str := identity_str ++ "/"
  let identity_str := match lang with
    | some l => identity_str ++ l
    | none => identity_str
  let identity_str := identity_str ++ "/"
  let identity_str := match name with
    | some n => identity_str ++ n
    | none => identity_str
  identity_str ++ "<"

/-- The local lists and the table of `caps_create_sha1_str`. -/
structure CapsLists where
  identities : List (Option String)
  features : List (Option String)
  form_names : List (Option String)
  forms : GHashTable DataForm

/-- One pass of the first `while` loop of `caps_create_sha1_str` (lines 122-154). -/
def caps_scan_child (env : Env) (st : CapsLists) (child : Stanza) : Option CapsLists :=
  if g_strcmp0 (xmpp_stanza_get_name child) (some STANZA_NAME_IDENTITY) = 0 then
    match g_slist_insert_sorted strcmp st.identities (some (caps_identity_str child)) with
    | none => none
    | some l => some { st with identities := l }
  else if g_strcmp0 (xmpp_stanza_get_name child) (some STANZA_NAME_FEATURE) = 0 then
    let feature_str := xmpp_stanza_get_attribute child "var"
    match g_slist_insert_sorted strcmp st.features feature_str with
    | none => none
    | some l => some { st with features := l }
  else if g_strcmp0 (xmpp_stanza_get_name child) (some STANZA_NAME_X) = 0 then
    if g_strcmp0 (xmpp_stanza_get_ns child) (some STANZA_NS_DATA) = 0 then
      match env.form_create child with
      | none => none -- `form_get_form_type_field` reads `form->fields`
      | some form =>
        let form_type := form_get_form_type_field form
        match g_slist_insert_sorted strcmp st.form_names form_type with
        | none => none
        | some names =>
          match form_type with
          | none => none -- `g_hash_table_insert` hashes the key with `g_str_hash`
          | some key =>
            some { st with form_names := names, forms := g_hash_table_insert st.forms key form }
    else some st
  else some st

/-- The first `while` loop of `caps_create_sha1_str` (lines 120-156). -/
def caps_scan (env : Env) : List Stanza → CapsLists → Option CapsLists
  | [], st => some st
  | child :: rest, st =>
    match caps_scan_child env st child with
    | none => none
    | some st1 => caps_scan env rest st1

/-- The loop over `identities` (lines 160-164). -/
def caps_append_identities (s : String) : List (Option String) → String
  | [] => s
  | curr :: rest => caps_append_identities (g_string_append s curr) rest

/-- The loop over `features` (lines 166-171). -/
def caps_append_features (s : String) : List (Option String) → String
  | [] => s
  | curr :: rest => caps_append_features (g_string_append (g_string_append s curr) (some "<")) rest

/-- The loop over the sorted values of a field (lines 188-193). -/
def caps_append_values (s : String) : List String → String
  | [] => s
  | curr_value :: rest =>
    caps_append_values (g_string_append (g_string_append s (some curr_value)) (some "<")) rest

/-- The loop over the sorted fields of a form (lines 181-196). -/
def caps_append_fields (s : String) : List FormField → String
  | [] => s
  | field :: rest =>
    let s1 := g_string_append (g_string_append s field.var) (some "<")
    caps_append_fields (caps_append_values s1 (form_get_field_values_sorted field)) rest

/-- The loop over `form_names` (lines 173-200). -/
def caps_append_forms (forms : GHashTable DataForm) (s : String) :
    List (Option String) → Option String
  | [] => some s
  | curr :: rest =>
    match curr with
    | none => none -- `g_hash_table_lookup` hashes the key
    | some key =>
      match g_hash_table_lookup forms key with
      | none => none -- `form_get_form_type_field` reads `form->fields`
      | some form =>
        let form_type := form_get_form_type_field form
        let s1 := g_string_append (g_string_append s form_type) (some "<")
        caps_append_forms forms
          (caps_append_fields s1 (form_get_non_form_type_fields_sorted form)) rest

/-- The string `s->str` that `caps_create_sha1_str` hands to `p_sha1_hash` (line 203). -/
def caps_sha1_input (env : Env) (query : Stanza) : Option String :=
  match caps_scan env (xmpp_stanza_get_children query) ⟨[], [], [], g_hash_table_new⟩ with
  | none => none
  | some st =>
    let s := ""
    let s := caps_append_identities s st.identities
    let s := caps_append_features s st.features
    caps_append_forms st.forms s st.form_names

/-- `caps_create_sha1_str`: the hash of the canonical string. -/
def caps_create_sha1_str (env : Env) (query : Stanza) : Option String :=
  match caps_sha1_input env query with
  | none => none
  | some s => some (env.p_sha1_hash s)

/-! ## `capabilities.c`: the cache -/

/-- The `Capabilities` record, with the fields that `caps_create` fills and
`_caps_destroy` releases. -/
structure Capabilities where
  category : Option String
  type : Option String
  name : Option String
  software : Option String
  software_version : Option String
  os : Option String
  os_version : Option String
  features : List String
deriving DecidableEq

/-- The two static tables of `capabilities.c`. -/
structure CapsCache where
  capabilities : GHashTable Capabilities
  jid_lookup : GHashTable String

/-- `caps_init`: two empty tables. -/
def caps_init : CapsCache := ⟨g_hash_table_new, g_hash_table_new⟩

/-- `caps_add`. -/
def caps_add (cache : CapsCache) (ver : String) (caps : Capabilities) : CapsCache :=
  { cache with capabilities := g_hash_table_insert cache.capabilities ver caps }

/-- `caps_map`. -/
def caps_map (cache : CapsCache) (jid : String) (ver : String) : CapsCache :=
  { cache with jid_lookup := g_hash_table_insert cache.jid_lookup jid ver }

/-- `caps_contains`. -/
def caps_contains (cache : CapsCache) (caps_ver : String) : Bool :=
  (g_hash_table_lookup cache.capabilities caps_ver).isSome

/-- `_caps_get`. -/
def _caps_get (cache : CapsCache) (caps_str : String) : Option Capabilities :=
  g_hash_table_lookup cache.capabilities caps_str

/-- `_caps_lookup`: resolve the peer to its fingerprint, then the fingerprint to its
record; `NULL` when either step finds nothing. -/
def _caps_lookup (cache : CapsCache) (jid : String) : Option Capabilities :=
  let ver := g_hash_table_lookup cache.jid_lookup jid
  match ver with
  | some ver =>
    let caps := g_hash_table_lookup cache.capabilities ver
    match caps with
    | some caps => some caps
    | none => none
  | none => none

/-! ## `message.c`: names and namespaces of `stanza.h` -/

/-- Modelled from the spec: `STANZA_NS_CARBONS` of `stanza.h`, the carbon-copy namespace. -/
def STANZA_NS_CARBONS : String := "urn:xmpp:carbons:2"
/-- Modelled from the spec: `STANZA_NS_FORWARD` of `stanza.h`, the namespace of a
forwarded message. -/
def STANZA_NS_FORWARD : String := "urn:xmpp:forward:0"
/-- Modelled from the spec: `STANZA_NS_CONFERENCE` of `stanza.h`, the legacy-conference
namespace of a direct invite. -/
def STANZA_NS_CONFERENCE : String := "jabber:x:conference"
/-- Modelled from the spec: `STANZA_NS_MUC_USER` of `stanza.h`, the muc#user namespace. -/
def STANZA_NS_MUC_USER : String := "http://jabber.org/protocol/muc#user"
/-- Modelled from the spec: `STANZA_NS_CAPTCHA` of `stanza.h`, the captcha namespace. -/
def STANZA_NS_CAPTCHA : String := "urn:xmpp:captcha"
/-- Modelled from the spec: `STANZA_NS_RECEIPTS` of `stanza.h`, the receipts namespace. -/
def STANZA_NS_RECEIPTS : String := "urn:xmpp:receipts"
/-- Modelled from the spec: `STANZA_NS_ENCRYPTED` of `stanza.h`, the namespace of an
end-to-end-encrypted payload. -/
def STANZA_NS_ENCRYPTED : String := "jabber:x:encrypted"
/-- Modelled from the spec: `STANZA_NAME_MESSAGE` of `stanza.h`. -/
def STANZA_NAME_MESSAGE : String := "message"
/-- Modelled from the spec: `STANZA_NAME_BODY` of `stanza.h`. -/
def STANZA_NAME_BODY : String := "body"
/-- Modelled from the spec: `STANZA_NAME_SUBJECT` of `stanza.h`. -/
def STANZA_NAME_SUBJECT : String := "subject"
/-- Modelled from the spec: `STANZA_NAME_GONE` of `stanza.h`. -/
def STANZA_NAME_GONE : String := "gone"
/-- Modelled from the spec: `STANZA_NAME_COMPOSING` of `stanza.h`. -/
def STANZA_NAME_COMPOSING : String := "composing"
/-- Modelled from the spec: `STANZA_NAME_PAUSED` of `stanza.h`. -/
def STANZA_NAME_PAUSED : String := "paused"
/-- Modelled from the spec: `STANZA_NAME_INACTIVE` of `stanza.h`. -/
def STANZA_NAME_INACTIVE : String := "inactive"
/-- Modelled from the spec: `STANZA_ATTR_TO` of `stanza.h`. -/
def STANZA_ATTR_TO : String := "to"
/-- Modelled from the spec: `STANZA_ATTR_FROM` of `stanza.h`. -/
def STANZA_ATTR_FROM : String := "from"
/-- Modelled from the spec: `STANZA_ATTR_ID` of `stanza.h`. -/
def STANZA_ATTR_ID : String := "id"

/-! ## `message.c`: the handlers -/

/-- A call out of `message.c` into the session layer, the UI or the connection. -/
inductive Event where
  | sv_ev_incoming_message (barejid : String) (resource : Option String) (message : String)
  | sv_ev_delayed_message (barejid : String) (message : String) (tv_stamp : GTimeVal)
  | sv_ev_incoming_private_message (fulljid : Option String) (message : String)
  | sv_ev_delayed_private_message (fulljid : Option String) (message : String)
      (tv_stamp : GTimeVal)
  | sv_ev_carbon (barejid : String) (message : String)
  | sv_ev_gone (barejid : String) (resource : Option String)
  | sv_ev_typing (barejid : String) (resource : Option String)
  | sv_ev_paused (barejid : String) (resource : Option String)
  | sv_ev_inactive (barejid : String) (resource : Option String)
  | sv_ev_activity (barejid : String) (resource : Option String) (send_states : Bool)
  | sv_ev_room_subject (room : String) (nick : Option String) (subject : Option String)
  | sv_ev_room_broadcast (room_jid : Option String) (message : String)
  | sv_ev_room_history (room : String) (nick : Option String) (tv_stamp : GTimeVal)
      (message : String)
  | sv_ev_room_message (room : String) (nick : Option String) (message : String)
  | sv_ev_room_invite (mediated : Bool) (invitor : String) (room : Option String)
      (reason : Option String) (password : Option String)
  | sv_ev_message_receipt (barejid : String) (id : String)
  | ui_handle_error (err_msg : String)
  | ui_handle_recipient_error (recipient : String) (err_msg : String)
  | chat_session_remove (barejid : String)
  | xmpp_send (stanza : Stanza)

/-- What a handler did: the calls it made, in order, and the `int` it returned. -/
structure Outcome where
  events : List Event
  result : Int

/-- `xmpp_stanza_set_attribute`: set or replace an attribute of a tag. -/
def xmpp_stanza_set_attribute : Stanza → String → String → Stanza
  | .text data, _, _ => .text data
  | .tag name attributes children, key, value =>
    .tag name (attributes.filter (fun a => !(a.1 == key)) ++ [(key, value)]) children

/-- `xmpp_stanza_add_child`: append a child to a tag. -/
def xmpp_stanza_add_child : Stanza → Stanza → Stanza
  | .text data, _ => .text data
  | .tag name attributes children, child => .tag name attributes (children ++ [child])

/-- `_message_send_receipt`: send a message to `fulljid` with a `received` child in the
receipts namespace that carries `message_id`. `xmpp_stanza_set_attribute` copies its value
with `xmpp_strdup`, so a `NULL` `fulljid` is undefined. -/
def _message_send_receipt (env : Env) (fulljid : Option String) (message_id : String) :
    Option (List Event) :=
  let message := Stanza.tag STANZA_NAME_MESSAGE [] []
  let id := env.create_unique_id "receipt"
  let message := xmpp_stanza_set_attribute message STANZA_ATTR_ID id
  match fulljid with
  | none => none
  | some fulljid =>
    let message := xmpp_stanza_set_attribute message STANZA_ATTR_TO fulljid
    let receipt := Stanza.tag "received" [] []
    let receipt := xmpp_stanza_set_attribute receipt "xmlns" STANZA_NS_RECEIPTS
    let receipt := xmpp_stanza_set_attribute receipt STANZA_ATTR_ID message_id
    let message := xmpp_stanza_add_child message receipt
    some [Event.xmpp_send message]

/-- `_receipt_request_handler` (lines 588-614). -/
def _receipt_request_handler (env : Env) (stanza : Stanza) : Option (List Event) :=
  if !env.prefs_receipts_send then some [] else
  match xmpp_stanza_get_id stanza with
  | none => some []
  | some id =>
    match xmpp_stanza_get_child_by_ns stanza STANZA_NS_RECEIPTS with
    | none => some []
    | some receipts =>
      if g_strcmp0 (xmpp_stanza_get_name receipts) (some "request") ≠ 0 then some [] else
      let from_ := xmpp_stanza_get_attribute stanza STANZA_ATTR_FROM
      match env.jid_create from_ with
      | none => none -- `jid->fulljid`
      | some jid => _message_send_receipt env jid.fulljid id

/-- `_private_chat_handler` (lines 616-639). -/
def _private_chat_handler (env : Env) (stanza : Stanza) (fulljid : Option String) :
    List Event :=
  match xmpp_stanza_get_child_by_name stanza STANZA_NAME_BODY with
  | none => []
  | some body =>
    match xmpp_stanza_get_text body with
    | none => []
    | some message =>
      match env.stanza_get_delay stanza with
      | some tv_stamp => [Event.sv_ev_delayed_private_message fulljid message tv_stamp]
      | none => [Event.sv_ev_incoming_private_message fulljid message]

/-- The carbon branch of `_chat_handler` (lines 655-690), entered with the carbons child
once its name is `received` or `sent`. -/
def chat_handler_carbon (env : Env) (carbons : Stanza) : Option Outcome :=
  let forwarded := xmpp_stanza_get_child_by_ns carbons STANZA_NS_FORWARD
  match forwarded with
  | none => none -- `xmpp_stanza_get_child_by_name` reads `forwarded->children`
  | some forwarded =>
    match xmpp_stanza_get_child_by_name forwarded STANZA_NAME_MESSAGE with
    | none => none -- `xmpp_stanza_get_attribute` reads `message->type`
    | some message =>
      let to_ := xmpp_stanza_get_attribute message STANZA_ATTR_TO
      let from_ := xmpp_stanza_get_attribute message STANZA_ATTR_FROM
      -- happens when receive a carbon of a self sent message
      let to_ := match to_ with
        | none => from_
        | some t => some t
      let jid_from := env.jid_create from_
      let jid_to := env.jid_create to_
      let my_jid := env.jid_create env.jabber_get_fulljid
      match xmpp_stanza_get_child_by_name message STANZA_NAME_BODY with
      | none => some ⟨[], 1⟩
      | some body =>
        match xmpp_stanza_get_text body with
        | none => some ⟨[], 1⟩
        | some message =>
          match my_jid, jid_to with
          | some my_jid, some jid_to =>
            -- if we are the recipient, treat as standard incoming message
            if g_strcmp0 (some my_jid.barejid) (some jid_to.barejid) = 0 then
              match jid_from with
              | none => none
              | some jid_from =>
                some ⟨[Event.sv_ev_incoming_message jid_from.barejid jid_from.resourcepart
                  message], 1⟩
            -- else treat as a sent message
            else some ⟨[Event.sv_ev_carbon jid_to.barejid message], 1⟩
          | _, _ => none -- `my_jid->barejid`, `jid_to->barejid`

/-- The body dispatch of a direct chat message in `_chat_handler` (lines 715-746). -/
def chat_handler_body (env : Env) (stanza : Stanza) (jid : Jid) (delayed : Option GTimeVal) :
    Option (List Event) :=
  match xmpp_stanza_get_child_by_name stanza STANZA_NAME_BODY with
  | none => some []
  | some body =>
    match xmpp_stanza_get_text body with
    | none => some []
    | some message =>
      let incoming :=
        match delayed with
        | some tv_stamp => [Event.sv_ev_delayed_message jid.barejid message tv_stamp]
        | none =>
          if env.have_libgpgme then
            match xmpp_stanza_get_child_by_ns stanza STANZA_NS_ENCRYPTED with
            | some x =>
              let enc_message := xmpp_stanza_get_text x
              match env.p_gpg_decrypt jid.barejid enc_message with
              | some decrypted =>
                [Event.sv_ev_incoming_message jid.barejid jid.resourcepart decrypted]
              | none => [Event.sv_ev_incoming_message jid.barejid jid.resourcepart message]
            | none => [Event.sv_ev_incoming_message jid.barejid jid.resourcepart message]
          else [Event.sv_ev_incoming_message jid.barejid jid.resourcepart message]
      match _receipt_request_handler env stanza with
      | none => none
      | some sent => some (incoming ++ sent)

/-- The chat-state part of `_chat_handler` (lines 748-767). -/
def chat_handler_states (env : Env) (stanza : Stanza) (jid : Jid) (delayed : Option GTimeVal) :
    List Event :=
  if delayed.isNone && jid.resourcepart.isSome then
    let gone := (xmpp_stanza_get_child_by_name stanza STANZA_NAME_GONE).isSome
    let typing := (xmpp_stanza_get_child_by_name stanza STANZA_NAME_COMPOSING).isSome
    let paused := (xmpp_stanza_get_child_by_name stanza STANZA_NAME_PAUSED).isSome
    let inactive := (xmpp_stanza_get_child_by_name stanza STANZA_NAME_INACTIVE).isSome
    if gone then [Event.sv_ev_gone jid.barejid jid.resourcepart]
    else if typing then [Event.sv_ev_typing jid.barejid jid.resourcepart]
    else if paused then [Event.sv_ev_paused jid.barejid jid.resourcepart]
    else if inactive then [Event.sv_ev_inactive jid.barejid jid.resourcepart]
    else if env.stanza_contains_chat_state stanza then
      [Event.sv_ev_activity jid.barejid jid.resourcepart true]
    else [Event.sv_ev_activity jid.barejid jid.resourcepart false]
  else []

/-- The part of `_chat_handler` after the carbon check (lines 694-770). -/
def chat_handler_direct (env : Env) (stanza : Stanza) : Option Outcome :=
  -- ignore handled namespaces
  let conf := xmpp_stanza_get_child_by_ns stanza STANZA_NS_CONFERENCE
  let mucuser := xmpp_stanza_get_child_by_ns stanza STANZA_NS_MUC_USER
  let captcha := xmpp_stanza_get_child_by_ns stanza STANZA_NS_CAPTCHA
  if conf.isSome || mucuser.isSome || captcha.isSome then some ⟨[], 1⟩ else
  let from_ := xmpp_stanza_get_attribute stanza STANZA_ATTR_FROM
  match env.jid_create from_ with
  | none => none -- `muc_active (jid->barejid)`
  | some jid =>
    -- private message from chat room use full jid (room/nick)
    if env.muc_active jid.barejid then
      some ⟨_private_chat_handler env stanza jid.fulljid, 1⟩
    else
      -- standard chat message, use jid without resource
      let delayed := env.stanza_get_delay stanza
      match chat_handler_body env stanza jid delayed with
      | none => none
      | some evs => some ⟨evs ++ chat_handler_states env stanza jid delayed, 1⟩

/-- `_chat_handler` (lines 641-771). -/
def _chat_handler (env : Env) (stanza : Stanza) : Option Outcome :=
  -- ignore if type not chat or absent
  let type := xmpp_stanza_get_type stanza
  if !(g_strcmp0 type (some "chat") = 0 || type.isNone) then some ⟨[], 1⟩ else
  -- check if carbon message
  match xmpp_stanza_get_child_by_ns stanza STANZA_NS_CARBONS with
  | some carbons =>
    let name := xmpp_stanza_get_name carbons
    if g_strcmp0 name (some "received") = 0 || g_strcmp0 name (some "sent") = 0 then
      chat_handler_carbon env carbons
    else chat_handler_direct env stanza
  | none => chat_handler_direct env stanza

/-- `_groupchat_handler` (lines 457-537). -/
def _groupchat_handler (env : Env) (stanza : Stanza) : Option Outcome :=
  let room_jid := xmpp_stanza_get_attribute stanza STANZA_ATTR_FROM
  let jid := env.jid_create room_jid
  -- handle room subject
  match xmpp_stanza_get_child_by_name stanza STANZA_NAME_SUBJECT with
  | some subject =>
    let message := xmpp_stanza_get_text subject
    match jid with
    | none => none -- `jid->barejid`
    | some jid => some ⟨[Event.sv_ev_room_subject jid.barejid jid.resourcepart message], 1⟩
  | none =>
    match jid with
    | none => none -- `jid->resourcepart`
    | some jid =>
      -- handle room broadcasts
      if jid.resourcepart.isNone then
        match xmpp_stanza_get_child_by_name stanza STANZA_NAME_BODY with
        | none => some ⟨[], 1⟩
        | some body =>
          match xmpp_stanza_get_text body with
          | none => some ⟨[], 1⟩
          | some message => some ⟨[Event.sv_ev_room_broadcast room_jid message], 1⟩
      else if !env.jid_is_valid_room_form jid then some ⟨[], 1⟩
      -- room not active in profanity
      else if !env.muc_active jid.barejid then some ⟨[], 1⟩
      else
        match xmpp_stanza_get_child_by_name stanza STANZA_NAME_BODY with
        | none => some ⟨[], 1⟩
        | some body =>
          match xmpp_stanza_get_text body with
          | none => some ⟨[], 1⟩
          | some message =>
            -- determine if the notifications happened whilst offline
            match env.stanza_get_delay stanza with
            | some tv_stamp =>
              some ⟨[Event.sv_ev_room_history jid.barejid jid.resourcepart tv_stamp message], 1⟩
            | none => some ⟨[Event.sv_ev_room_message jid.barejid jid.resourcepart message], 1⟩

/-! ## Vocabulary of the statements -/

/-- Ascending byte-wise order of strings: `strcmp (a, b) <= 0`. -/
def str_le (a b : String) : Prop := strcmp_str a b ≤ 0

instance str_le_decidable : DecidableRel str_le := fun a b =>
  inferInstanceAs (Decidable (strcmp_str a b ≤ 0))

/-- The concatenation of a list of strings, in list order. -/
def concat_strings : List String → String
  | [] => ""
  | s :: rest => s ++ concat_strings rest

/-- The `identity` children of a query, in document order. -/
def query_identities (query : Stanza) : List Stanza :=
  (xmpp_stanza_get_children query).filter
    (fun c => xmpp_stanza_get_name c == some STANZA_NAME_IDENTITY)

/-- The `feature` children of a query, in document order. -/
def query_features (query : Stanza) : List Stanza :=
  (xmpp_stanza_get_children query).filter
    (fun c => xmpp_stanza_get_name c == some STANZA_NAME_FEATURE)

/-- Is the child an `x` element in the data-forms namespace. -/
def is_data_form (c : Stanza) : Bool :=
  xmpp_stanza_get_name c == some STANZA_NAME_X && xmpp_stanza_get_ns c == some STANZA_NS_DATA

/-- The data-form children of a query, in document order. -/
def query_forms (query : Stanza) : List Stanza :=
  (xmpp_stanza_get_children query).filter is_data_form

/-- The query without its data-form children. -/
def query_without_forms : Stanza → Stanza
  | .text data => .text data
  | .tag name attributes children => .tag name attributes (children.filter (fun c => !is_data_form c))

/-- The `FORM_TYPE` value that a data-form child declares: `form_get_form_type_field`
of `form_create`, `none` when the child does not parse or declares none. -/
def declared_form_type (env : Env) (c : Stanza) : Option String :=
  match env.form_create c with
  | none => none
  | some form => form_get_form_type_field form

/-- The identity string in the words of the spec: category, type, xml:lang and name
separated by slashes and closed by `<`, a missing attribute giving the empty string. -/
def spec_identity_str (c : Stanza) : String :=
  (xmpp_stanza_get_attribute c "category").getD "" ++ "/" ++
  (xmpp_stanza_get_attribute c "type").getD "" ++ "/" ++
  (xmpp_stanza_get_attribute c "xml:lang").getD "" ++ "/" ++
  (xmpp_stanza_get_attribute c "name").getD "" ++ "<"

/-- The serialisation of one value, field or feature string: the string followed by `<`. -/
def lt_terminated (s : String) : String := s ++ "<"

/-- The serialisation of one field in the words of the spec: its `var` followed by `<`,
then its sorted values, each followed by `<`. -/
def spec_field_str (field : FormField) : String :=
  lt_terminated (field.var.getD "") ++
    concat_strings ((form_get_field_values_sorted field).map lt_terminated)

/-- The serialisation of one form in the words of the spec: the `FORM_TYPE` value followed
by `<`, then every other field in ascending order of its `var`. -/
def spec_form_str (form : DataForm) : String :=
  lt_terminated ((form_get_form_type_field form).getD "") ++
    concat_strings ((form_get_non_form_type_fields_sorted form).map spec_field_str)

/-- The form of the first data-form child of the query that declares the `FORM_TYPE`. -/
def form_of_type (env : Env) (forms : List Stanza) (form_type : String) : Option DataForm :=
  match forms.find? (fun c => declared_form_type env c == some form_type) with
  | none => none
  | some c => env.form_create c

/-- The serialisation of the form of the query that declares the `FORM_TYPE`. -/
def spec_form_of_type_str (env : Env) (forms : List Stanza) (form_type : String) : String :=
  match form_of_type env forms form_type with
  | none => ""
  | some form => spec_form_str form

/-! ## A concrete environment -/

/-- Modelled from the spec: `jid_create` of `jid.c`. The base address is the part of the
string before the first `/`, the resource suffix the part after it, and the full combined
address is there when there is a resource; a missing or empty base address gives `NULL`. -/
def jid_create_model : Option String → Option Jid
  | none => none
  | some s =>
    match s.data.span (fun c => c != '/') with
    | ([], _) => none
    | (bare, []) => some ⟨s, String.mk bare, none, none⟩
    | (bare, _ :: resource) => some ⟨s, String.mk bare, some (String.mk resource), some s⟩

/-- Modelled from the spec: `form_create` of `form.c`. The fields of the form are the
`field` children of the element, each with its `var` attribute and the texts of its
`value` children. -/
def form_create_model (x : Stanza) : Option DataForm :=
  some ⟨((xmpp_stanza_get_children x).filter
      (fun c => xmpp_stanza_get_name c == some "field")).map
    (fun f => ⟨xmpp_stanza_get_attribute f "var",
      ((xmpp_stanza_get_children f).filter
        (fun c => xmpp_stanza_get_name c == some "value")).filterMap xmpp_stanza_get_text⟩)⟩

/-- An environment for concrete runs: the local account is `fulljid`, the joined rooms are
`rooms`, a stanza is delayed when it has a `delay` child, and receipts are sent. -/
def model_env (fulljid : Option String) (rooms : List String) : Env where
  form_create := form_create_model
  p_sha1_hash := fun s => s
  jid_create := jid_create_model
  jid_is_valid_room_form := fun jid => jid.resourcepart.isSome
  jabber_get_fulljid := fulljid
  muc_active := fun room => rooms.contains room
  stanza_get_delay := fun stanza =>
    match xmpp_stanza_get_child_by_name stanza "delay" with
    | none => none
    | some _ => some ⟨0, 0⟩
  stanza_contains_chat_state := fun stanza =>
    (xmpp_stanza_get_child_by_name stanza "active").isSome
  stanza_get_error_message := fun _ => "unknown"
  have_libgpgme := false
  p_gpg_decrypt := fun _ _ => none
  prefs_receipts_send := true
  create_unique_id := fun s => s

/-! ## Auxiliary definitions of the proofs -/

/-! ## Devices of the proofs -/

/-- The successive `g_slist_insert_sorted (list, data, strcmp)` calls of the first loop on
one of its lists, for the data of the children in document order. -/
def insert_all_sorted : List (Option String) → List (Option String) → Option (List (Option String))
  | st, [] => some st
  | st, data :: rest =>
    match g_slist_insert_sorted strcmp st data with
    | none => none
    | some st1 => insert_all_sorted st1 rest

/-- The result of `insert_all_sorted` on strings that are all non-NULL. -/
def ordered_insert_all (acc : List String) (l : List String) : List String :=
  l.foldl (fun acc a => List.orderedInsert str_le a acc) acc

/-- The first loop restricted to the data-form children: the list `form_names` and the
table `forms`. -/
def scan_forms (env : Env) :
    List Stanza → List (Option String) × GHashTable DataForm →
      Option (List (Option String) × GHashTable DataForm)
  | [], st => some st
  | c :: rest, st =>
    match env.form_create c with
    | none => none
    | some form =>
      match g_slist_insert_sorted strcmp st.1 (form_get_form_type_field form) with
      | none => none
      | some names =>
        match form_get_form_type_field form with
        | none => none
        | some key => scan_forms env rest (names, g_hash_table_insert st.2 key form)

/-- The lists and the table of the first loop, put together from the three independent
parts of the loop; undefined as soon as one part is. -/
def combine_lists (ids : Option (List (Option String))) (feats : Option (List (Option String)))
    (forms : Option (List (Option String) × GHashTable DataForm)) : Option CapsLists :=
  match ids with
  | none => none
  | some i =>
    match feats with
    | none => none
    | some f =>
      match forms with
      | none => none
      | some nf => some ⟨i, f, nf.1, nf.2⟩

/-- The data that the first loop inserts into `identities`. -/
def identity_data (children : List Stanza) : List (Option String) :=
  (children.filter (fun c => xmpp_stanza_get_name c == some STANZA_NAME_IDENTITY)).map
    (fun c => some (caps_identity_str c))

/-- The data that the first loop inserts into `features`. -/
def feature_data (children : List Stanza) : List (Option String) :=
  (children.filter (fun c => xmpp_stanza_get_name c == some STANZA_NAME_FEATURE)).map
    (fun c => xmpp_stanza_get_attribute c "var")

/-- The table `forms` after the first loop has passed the given data-form children. -/
def table_insert_all (env : Env) : List Stanza → GHashTable DataForm → GHashTable DataForm
  | [], t => t
  | c :: rest, t =>
    match env.form_create c with
    | none => table_insert_all env rest t
    | some form =>
      match form_get_form_type_field form with
      | none => table_insert_all env rest t
      | some key => table_insert_all env rest (g_hash_table_insert t key form)

/-- Data-form children that declare the same `FORM_TYPE` parse to the same form. This holds
in particular when the declared `FORM_TYPE` values are pairwise distinct. -/
def same_type_same_form (env : Env) (forms : List Stanza) : Prop :=
  ∀ c1 ∈ forms, ∀ c2 ∈ forms,
    declared_form_type env c1 = declared_form_type env c2 → env.form_create c1 = env.form_create c2

/-- The `FORM_TYPE` values that the data-form children declare, in document order. -/
def declared_form_types (env : Env) (forms : List Stanza) : List String :=
  forms.filterMap (declared_form_type env)

/-! ## Concrete queries -/

/-- A `field` element of a data form. -/
def field_stanza (var : String) (values : List String) : Stanza :=
  .tag "field" [("var", var)] (values.map (fun v => .tag "value" [] [.text v]))

/-- A data form that declares the `FORM_TYPE` `t` and has the field `a`. -/
def form_t_a : Stanza :=
  .tag "x" [("xmlns", "jabber:x:data")] [field_stanza "FORM_TYPE" ["t"], field_stanza "a" ["1"]]

/-- A data form that declares the `FORM_TYPE` `t` and has the field `b`. -/
def form_t_b : Stanza :=
  .tag "x" [("xmlns", "jabber:x:data")] [field_stanza "FORM_TYPE" ["t"], field_stanza "b" ["2"]]

/-- A data form that declares the `FORM_TYPE` `u` and has the fields `z` and `c`. -/
def form_u : Stanza :=
  .tag "x" [("xmlns", "jabber:x:data")]
    [field_stanza "z" [], field_stanza "FORM_TYPE" ["u"], field_stanza "c" ["y", "x"]]

/-- A `feature` element. -/
def feature_stanza (var : String) : Stanza := .tag "feature" [("var", var)] []

/-- The identity (client, bot, no lang, B). -/
def identity_client_bot : Stanza :=
  .tag "identity" [("category", "client"), ("type", "bot"), ("name", "B")] []

/-- A query with two identities and three features, one of them twice, and no data form. -/
def query_two_identities : Stanza :=
  .tag "query" []
    [feature_stanza "urn:b",
     .tag "identity" [("category", "client"), ("type", "pc"), ("name", "Z")] [],
     feature_stanza "urn:a",
     .tag "identity" [("category", "client"), ("type", "bot"), ("xml:lang", "en"),
       ("name", "A")] [],
     feature_stanza "urn:b"]

/-! ## Vocabulary of C4 -/

/-- The character does not occur in the string. -/
def free_of (ch : Char) (s : String) : Prop := ch ∉ s.data

instance free_of_decidable (ch : Char) (s : String) : Decidable (free_of ch s) :=
  inferInstanceAs (Decidable (ch ∉ s.data))

/-- The content of an identity child: category, type, xml:lang and name, a missing
attribute counting as the empty string. -/
def identity_tuple (c : Stanza) : String × String × String × String :=
  ((xmpp_stanza_get_attribute c "category").getD "",
   (xmpp_stanza_get_attribute c "type").getD "",
   (xmpp_stanza_get_attribute c "xml:lang").getD "",
   (xmpp_stanza_get_attribute c "name").getD "")

/-- No part of the identity contains the terminator `<`, and category, type and xml:lang
do not contain the separator `/`. -/
def delimiter_free (t : String × String × String × String) : Prop :=
  free_of '<' t.1 ∧ free_of '<' t.2.1 ∧ free_of '<' t.2.2.1 ∧ free_of '<' t.2.2.2 ∧
  free_of '/' t.1 ∧ free_of '/' t.2.1 ∧ free_of '/' t.2.2.1

/-- The identity string of a content tuple. -/
def identity_tuple_str (t : String × String × String × String) : String :=
  t.1 ++ "/" ++ t.2.1 ++ "/" ++ t.2.2.1 ++ "/" ++ t.2.2.2 ++ "<"

/-- The `var` values of the feature children of a query, in document order. -/
def query_feature_vars (query : Stanza) : List String :=
  (query_features query).filterMap (fun c => xmpp_stanza_get_attribute c "var")

/-- A string that ends in `<` and has no other `<`. -/
def is_segment (s : String) : Prop := ∃ b : String, s = lt_terminated b ∧ free_of '<' b

/-- The children of `query_two_identities` in another order. -/
def query_two_identities_reordered : Stanza :=
  .tag "query" []
    [.tag "identity" [("category", "client"), ("type", "bot"), ("xml:lang", "en"),
       ("name", "A")] [],
     feature_stanza "urn:a",
     feature_stanza "urn:b",
     .tag "identity" [("category", "client"), ("type", "pc"), ("name", "Z")] [],
     feature_stanza "urn:b"]

/-- A query with the one identity (a, b, c, d). -/
def query_identity_abcd : Stanza :=
  .tag "query" []
    [.tag "identity" [("category", "a"), ("type", "b"), ("xml:lang", "c"), ("name", "d")] []]

/-- A query with the one feature `a/b/c/d`. -/
def query_feature_abcd : Stanza := .tag "query" [] [feature_stanza "a/b/c/d"]

instance delimiter_free_decidable (t : String × String × String × String) :
    Decidable (delimiter_free t) :=
  inferInstanceAs (Decidable
    (free_of '<' t.1 ∧ free_of '<' t.2.1 ∧ free_of '<' t.2.2.1 ∧ free_of '<' t.2.2.2 ∧
     free_of '/' t.1 ∧ free_of '/' t.2.1 ∧ free_of '/' t.2.2.1))

/-! ## Vocabulary and concrete stanzas of the message handlers -/

/-- The calls of the chat-session-and-state block of `_chat_handler` (lines 748-767). -/
def is_chat_state_event : Event → Bool
  | .sv_ev_gone _ _ => true
  | .sv_ev_typing _ _ => true
  | .sv_ev_paused _ _ => true
  | .sv_ev_inactive _ _ => true
  | .sv_ev_activity _ _ _ => true
  | _ => false

/-- The `to` that the carbon branch of `_chat_handler` resolves (line 664): the `to`
attribute of the forwarded message, its `from` when there is no `to`. -/
def carbon_resolved_to (message : Stanza) : Option String :=
  match xmpp_stanza_get_attribute message STANZA_ATTR_TO with
  | none => xmpp_stanza_get_attribute message STANZA_ATTR_FROM
  | some t => some t

/-- A `body` element with the text. -/
def body_stanza (text : String) : Stanza := .tag "body" [] [.text text]

/-- A carbon wrapper `name` (`received` or `sent`) around the forwarded message. -/
def carbon_stanza (name : String) (attributes : List (String × String)) (text : String) :
    Stanza :=
  .tag name [("xmlns", "urn:xmpp:carbons:2")]
    [.tag "forwarded" [("xmlns", "urn:xmpp:forward:0")]
      [.tag "message" attributes [body_stanza text]]]

/-- A chat message that carries a `received` carbon of a message from `b@y/r` to `a@x/res`
and, next to it, an `x` child in the muc#user namespace. -/
def carbon_with_muc_user : Stanza :=
  .tag "message" [("type", "chat"), ("from", "a@x")]
    [carbon_stanza "received" [("from", "b@y/r"), ("to", "a@x/res")] "hi",
     .tag "x" [("xmlns", "http://jabber.org/protocol/muc#user")] []]

/-- A chat message from `room@conf` with a mediated invite (an `x` child in the muc#user
namespace) and a body. -/
def mediated_invite_message : Stanza :=
  .tag "message" [("from", "room@conf")]
    [.tag "x" [("xmlns", "http://jabber.org/protocol/muc#user")]
      [.tag "invite" [("from", "b@y/r")] []],
     body_stanza "join us"]

/-- A chat message from `from_` with a `composing` and a `paused` child. -/
def composing_paused_message (from_ : String) : Stanza :=
  .tag "message" [("type", "chat"), ("from", from_)]
    [.tag "composing" [("xmlns", "http://jabber.org/protocol/chatstates")] [],
     .tag "paused" [("xmlns", "http://jabber.org/protocol/chatstates")] []]

/-- A chat message that wraps a `received` carbon of a message with the attributes. -/
def carbon_message (name : String) (attributes : List (String × String)) (text : String) :
    Stanza :=
  .tag "message" [("type", "chat")] [carbon_stanza name attributes text]

/-- A group-chat message from `room@conf/nick` with a subject and a body. -/
def subject_message : Stanza :=
  .tag "message" [("type", "groupchat"), ("from", "room@conf/nick")]
    [.tag "subject" [] [.text "new topic"], body_stanza "text"]

/-! ## `message.c`: the error handler -/

/-- Modelled from the spec: `STANZA_DATAFORM_SOFTWARE` of `stanza.h`, the reserved
software-info schema name. -/
def STANZA_DATAFORM_SOFTWARE : String := "urn:xmpp:dataforms:softwareinfo"

/-- What the four locals of `caps_create` point at in the loop over the fields of the
software-info form: `NULL`, or `formField->values->data`, a string that the form owns. -/
structure SoftwareInfo where
  software : Option String
  software_version : Option String
  os : Option String
  os_version : Option String
deriving DecidableEq

/-- The loop over `form->fields` in `caps_create` (lines 241-256). A field that has a value
and no `var` hands `NULL` to `strcmp`. -/
def caps_create_fields : List FormField → SoftwareInfo → Option SoftwareInfo
  | [], info => some info
  | formField :: rest, info =>
    match formField.values with
    | [] => caps_create_fields rest info
    | data :: _ =>
      match formField.var with
      | none => none -- `strcmp (NULL, "software")`
      | some var =>
        if strcmp_str var "software" = 0 then
          caps_create_fields rest { info with software := some data }
        else if strcmp_str var "software_version" = 0 then
          caps_create_fields rest { info with software_version := some data }
        else if strcmp_str var "os" = 0 then
          caps_create_fields rest { info with os := some data }
        else if strcmp_str var "os_version" = 0 then
          caps_create_fields rest { info with os_version := some data }
        else caps_create_fields rest info

/-- Modelled from the spec: `form_destroy` of `form.c`, the destructor that
`caps_create_sha1_str` registers for the values of its forms table (line 117): it releases
the form with its fields and their values. The model keeps no heap; `form_destroy` is
applied to the string that a pointer into the form points at and gives what can be read
through the pointer afterwards, which is nothing. -/
def form_destroy (_data : String) : Option String := none

/-- The four locals of `caps_create` when the software-info block is left. A local is
`NULL` (`none`) or a pointer, with what can be read through it: the string (`some data`)
while its owner is allocated, nothing (`none`) once the owner has been released. -/
structure SoftwareLocals where
  software : Option (Option String)
  software_version : Option (Option String)
  os : Option (Option String)
  os_version : Option (Option String)
deriving DecidableEq

/-- The software-info part of `caps_create` (lines 234-260). `form_get_form_type_field`
reads `form->fields`, so a child that `form_create` does not parse is undefined. The block
ends with `form_destroy (form)` (line 259), which releases the strings that the locals
point at; the locals themselves keep their addresses. -/
def caps_create_softwareinfo (env : Env) (query : Stanza) : Option SoftwareLocals :=
  match xmpp_stanza_get_child_by_ns query STANZA_NS_DATA with
  | none => some ⟨none, none, none, none⟩
  | some softwareinfo =>
    match env.form_create softwareinfo with
    | none => none
    | some form =>
      let form_type := form_get_form_type_field form
      let info :=
        if g_strcmp0 form_type (some STANZA_DATAFORM_SOFTWARE) = 0 then
          caps_create_fields form.fields ⟨none, none, none, none⟩
        else some ⟨none, none, none, none⟩
      match info with
      | none => none
      | some info =>
        -- `form_destroy (form)`
        some ⟨info.software.map form_destroy, info.software_version.map form_destroy,
          info.os.map form_destroy, info.os_version.map form_destroy⟩

/-- The loop over the children in `caps_create` (lines 262-269): `strdup` of a missing
`var` is undefined. -/
def caps_create_features : List Stanza → List String → Option (List String)
  | [], features => some features
  | child :: rest, features =>
    if g_strcmp0 (xmpp_stanza_get_name child) (some "feature") = 0 then
      match xmpp_stanza_get_attribute child "var" with
      | none => none -- `strdup (NULL)`
      | some var => caps_create_features rest (features ++ [var])
    else caps_create_features rest features

/-- The copy of one of the four locals into the record (lines 288-307):
`if (software != NULL) new_caps->software = strdup (software); else ... = NULL`. `strdup`
of a pointer into released memory is undefined. -/
def caps_create_strdup : Option (Option String) → Option (Option String)
  | none => some none -- the record field is `NULL`
  | some none => none -- `strdup` reads released memory
  | some (some data) => some (some data)

/-- `caps_create` (lines 215-315). The category, type and name are copied from attributes of
the identity child, which is allocated; the four software values are copied from the locals
of the software-info block, after the form has been released. -/
def caps_create (env : Env) (query : Stanza) : Option Capabilities :=
  let identity := xmpp_stanza_get_child_by_name query "identity"
  let category := match identity with
    | some identity => xmpp_stanza_get_attribute identity "category"
    | none => none
  let type := match identity with
    | some identity => xmpp_stanza_get_attribute identity "type"
    | none => none
  let name := match identity with
    | some identity => xmpp_stanza_get_attribute identity "name"
    | none => none
  match caps_create_softwareinfo env query with
  | none => none
  | some locals =>
    match caps_create_features (xmpp_stanza_get_children query) [] with
    | none => none
    | some features =>
      match caps_create_strdup locals.software with
      | none => none
      | some software =>
        match caps_create_strdup locals.software_version with
        | none => none
        | some software_version =>
          match caps_create_strdup locals.os with
          | none => none
          | some os =>
            match caps_create_strdup locals.os_version with
            | none => none
            | some os_version =>
              some ⟨category, type, name, software, software_version, os, os_version,
                features⟩

/-! ## Vocabulary of the cache and of `caps_create` -/

/-- One call of the cache interface after `caps_init`. -/
inductive CapsOp where
  | add (ver : String) (caps : Capabilities)
  | map (jid : String) (ver : String)

/-- The cache after the call. -/
def caps_apply (cache : CapsCache) : CapsOp → CapsCache
  | .add ver caps => caps_add cache ver caps
  | .map jid ver => caps_map cache jid ver

/-- The cache after a sequence of calls, from left to right. -/
def caps_run (cache : CapsCache) (ops : List CapsOp) : CapsCache :=
  ops.foldl caps_apply cache

/-- Does the peer address have a fingerprint mapping. -/
def caps_mapped (cache : CapsCache) (jid : String) : Bool :=
  (g_hash_table_lookup cache.jid_lookup jid).isSome

/-- The first identity child of the query in document order. -/
def first_identity (query : Stanza) : Option Stanza := (query_identities query).head?

/-- The first child of the query in the data-forms namespace, in document order. -/
def first_data_child (query : Stanza) : Option Stanza :=
  ((xmpp_stanza_get_children query).filter
    (fun c => xmpp_stanza_get_ns c == some STANZA_NS_DATA)).head?

/-- The value that the spec gives a software-info field: the first value of the form field
with the identifier, empty when there is no such field or the field has no value. -/
def spec_field_value (form : DataForm) (var : String) : Option String :=
  match form.fields.find? (fun f => f.var == some var) with
  | none => none
  | some f => f.values.head?

/-- The first value of the last field of the list that has the identifier and a value. -/
def last_valued (var : String) : List FormField → Option String
  | [] => none
  | f :: rest =>
    match last_valued var rest with
    | some data => some data
    | none => if f.var = some var then f.values.head? else none

/-- The first value of the last field of the form that has the identifier and a value. -/
def last_value_of (form : DataForm) (var : String) : Option String :=
  last_valued var form.fields

/-- At most one field of the form has the identifier. -/
def at_most_one_field (form : DataForm) (var : String) : Prop :=
  (form.fields.filter (fun f => f.var == some var)).length ≤ 1

instance at_most_one_field_decidable (form : DataForm) (var : String) :
    Decidable (at_most_one_field form var) :=
  inferInstanceAs (Decidable ((form.fields.filter (fun f => f.var == some var)).length ≤ 1))

/-- A software-info form with the fields. -/
def software_form (fields : List Stanza) : Stanza :=
  .tag "x" [("xmlns", "jabber:x:data"), ("type", "result")]
    (field_stanza "FORM_TYPE" ["urn:xmpp:dataforms:softwareinfo"] :: fields)

/-- A query with two identities, a feature between them, a software-info form, a second
data form and two more features, one of them a repetition. -/
def query_with_software : Stanza :=
  .tag "query" []
    [.tag "identity" [("category", "client"), ("type", "pc"), ("name", "P")] [],
     feature_stanza "urn:b",
     .tag "identity" [("category", "client"), ("type", "bot"), ("name", "Q")] [],
     software_form [field_stanza "os" ["Linux", "BSD"], field_stanza "software" ["Prof"],
       field_stanza "os_version" []],
     form_t_a,
     feature_stanza "urn:a",
     feature_stanza "urn:b"]

/-- A query as `query_with_software` with its two data forms exchanged: the software-info
form is the second child in the data-forms namespace. -/
def query_software_second : Stanza :=
  .tag "query" []
    [.tag "identity" [("category", "client"), ("type", "pc"), ("name", "P")] [],
     feature_stanza "urn:b",
     .tag "identity" [("category", "client"), ("type", "bot"), ("name", "Q")] [],
     form_t_a,
     software_form [field_stanza "os" ["Linux", "BSD"], field_stanza "software" ["Prof"],
       field_stanza "os_version" []],
     feature_stanza "urn:a",
     feature_stanza "urn:b"]

/-- A query whose only child is a software-info form with the one field `software`. -/
def query_software_only : Stanza :=
  .tag "query" [] [software_form [field_stanza "software" ["Prof"]]]

/-- The identifiers of the four software values. -/
def software_vars : List String := ["software", "software_version", "os", "os_version"]

/-- A software-info form with two `os` fields, the first of them without a value. -/
def form_os_twice : DataForm :=
  ⟨[⟨some "FORM_TYPE", ["urn:xmpp:dataforms:softwareinfo"]⟩, ⟨some "os", []⟩,
    ⟨some "os", ["B"]⟩]⟩

/-- A query whose only child is a feature without a `var`. -/
def query_feature_without_var : Stanza := .tag "query" [] [.tag "feature" [] []]

/-- A query whose only child is a data form without a `FORM_TYPE` field. -/
def query_form_without_type : Stanza :=
  .tag "query" [] [.tag "x" [("xmlns", "jabber:x:data")] [field_stanza "a" ["1"]]]

/-- Every field of the form that has a value has an identifier. -/
def valued_fields_have_var (form : DataForm) : Prop :=
  ∀ f ∈ form.fields, f.values ≠ [] → f.var ≠ none

/-- A query whose only child is a software-info form with a field that has a value and no
`var`. -/
def query_field_without_var : Stanza :=
  .tag "query" [] [software_form [.tag "field" [] [.tag "value" [] [.text "1"]]]]

/-! ## `message.c`: the invite, captcha and receipt handlers -/

/-- Modelled from the spec: `STANZA_NAME_INVITE` of `stanza.h`, the invite child of a
mediated invite. -/
def STANZA_NAME_INVITE : String := "invite"
/-- Modelled from the spec: `STANZA_NAME_REASON` of `stanza.h`. -/
def STANZA_NAME_REASON : String := "reason"
/-- Modelled from the spec: `STANZA_NAME_PASSWORD` of `stanza.h`. -/
def STANZA_NAME_PASSWORD : String := "password"
/-- Modelled from the spec: `STANZA_ATTR_JID` of `stanza.h`, the room `jid` of a direct
invite. -/
def STANZA_ATTR_JID : String := "jid"
/-- Modelled from the spec: `STANZA_ATTR_REASON` of `stanza.h`. -/
def STANZA_ATTR_REASON : String := "reason"
/-- Modelled from the spec: `STANZA_ATTR_PASSWORD` of `stanza.h`. -/
def STANZA_ATTR_PASSWORD : String := "password"

/-- `_muc_user_handler` (lines 344-396). `INVITE_MEDIATED` is `mediated := true`.
`xmpp_stanza_get_child_by_name` reads the children of its stanza, so a stanza without a
child in the muc#user namespace is undefined once the `from` check has passed. -/
def _muc_user_handler (env : Env) (stanza : Stanza) : Option Outcome :=
  let xns_muc_user := xmpp_stanza_get_child_by_ns stanza STANZA_NS_MUC_USER
  let room := xmpp_stanza_get_attribute stanza STANZA_ATTR_FROM
  match room with
  | none => some ⟨[], 1⟩
  | some room =>
    -- XEP-0045
    match xns_muc_user with
    | none => none -- `xns_muc_user->children`
    | some xns_muc_user =>
      match xmpp_stanza_get_child_by_name xns_muc_user STANZA_NAME_INVITE with
      | none => some ⟨[], 1⟩
      | some invite =>
        match xmpp_stanza_get_attribute invite STANZA_ATTR_FROM with
        | none => some ⟨[], 1⟩
        | some invitor_jid =>
          match env.jid_create (some invitor_jid) with
          | none => some ⟨[], 1⟩
          | some jidp =>
            let invitor := jidp.barejid
            let reason :=
              match xmpp_stanza_get_child_by_name invite STANZA_NAME_REASON with
              | some reason_st => xmpp_stanza_get_text reason_st
              | none => none
            let password :=
              match xmpp_stanza_get_child_by_name xns_muc_user STANZA_NAME_PASSWORD with
              | some password_st => xmpp_stanza_get_text password_st
              | none => none
            some ⟨[Event.sv_ev_room_invite true invitor (some room) reason password], 1⟩

/-- `_conference_handler` (lines 398-427). `INVITE_DIRECT` is `mediated := false`.
`xmpp_stanza_get_attribute` reads the type of its stanza, so a stanza without a child in
the legacy-conference namespace is undefined once `from` has been parsed. -/
def _conference_handler (env : Env) (stanza : Stanza) : Option Outcome :=
  let xns_conference := xmpp_stanza_get_child_by_ns stanza STANZA_NS_CONFERENCE
  match xmpp_stanza_get_attribute stanza STANZA_ATTR_FROM with
  | none => some ⟨[], 1⟩
  | some from_ =>
    match env.jid_create (some from_) with
    | none => some ⟨[], 1⟩
    | some jidp =>
      -- XEP-0249
      match xns_conference with
      | none => none -- `xns_conference->type`
      | some xns_conference =>
        match xmpp_stanza_get_attribute xns_conference STANZA_ATTR_JID with
        | none => some ⟨[], 1⟩
        | some room =>
          let reason := xmpp_stanza_get_attribute xns_conference STANZA_ATTR_REASON
          let password := xmpp_stanza_get_attribute xns_conference STANZA_ATTR_PASSWORD
          some ⟨[Event.sv_ev_room_invite false jidp.barejid (some room) reason password], 1⟩

/-- `_captcha_handler` (lines 429-455). -/
def _captcha_handler (stanza : Stanza) : Option Outcome :=
  match xmpp_stanza_get_attribute stanza STANZA_ATTR_FROM with
  | none => some ⟨[], 1⟩
  | some from_ =>
    -- XEP-0158
    match xmpp_stanza_get_child_by_name stanza STANZA_NAME_BODY with
    | none => some ⟨[], 1⟩
    | some body =>
      match xmpp_stanza_get_text body with
      | none => some ⟨[], 1⟩
      | some message => some ⟨[Event.sv_ev_room_broadcast (some from_) message], 1⟩

/-- `_receipt_received_handler` (lines 562-586). `xmpp_stanza_get_name` reads the type of
its stanza, so a stanza without a child in the receipts namespace is undefined. -/
def _receipt_received_handler (env : Env) (stanza : Stanza) : Option Outcome :=
  match xmpp_stanza_get_child_by_ns stanza STANZA_NS_RECEIPTS with
  | none => none -- `receipt->type`
  | some receipt =>
    let name := xmpp_stanza_get_name receipt
    if g_strcmp0 name (some "received") ≠ 0 then some ⟨[], 1⟩ else
    match xmpp_stanza_get_attribute receipt STANZA_ATTR_ID with
    | none => some ⟨[], 1⟩
    | some id =>
      match xmpp_stanza_get_attribute stanza STANZA_ATTR_FROM with
      | none => some ⟨[], 1⟩
      | some fulljid =>
        match env.jid_create (some fulljid) with
        | none => none -- `jidp->barejid`
        | some jidp => some ⟨[Event.sv_ev_message_receipt jidp.barejid id], 1⟩

/-! ## Vocabulary of the handler statements -/

/-- Is the event an incoming-message or a delayed-message event. -/
def is_message_event : Event → Bool
  | .sv_ev_incoming_message _ _ _ => true
  | .sv_ev_delayed_message _ _ _ => true
  | _ => false

/-- Is the event a stanza handed to `xmpp_send`. -/
def is_sent : Event → Bool
  | .xmpp_send _ => true
  | _ => false

/-- Is the event the incoming-message or the carbon event of the carbon branch. -/
def is_carbon_outcome : Event → Bool
  | .sv_ev_incoming_message _ _ _ => true
  | .sv_ev_carbon _ _ => true
  | _ => false

/-- The chat-state event in the words of the spec, chosen by the first matching rule of:
gone, composing, paused, inactive, another recognised chat state, none. -/
def chat_state_by_priority (gone composing paused inactive other : Bool) (barejid : String)
    (resource : Option String) : Event :=
  if gone then .sv_ev_gone barejid resource
  else if composing then .sv_ev_typing barejid resource
  else if paused then .sv_ev_paused barejid resource
  else if inactive then .sv_ev_inactive barejid resource
  else if other then .sv_ev_activity barejid resource true
  else .sv_ev_activity barejid resource false

/-- The chat-state event that the spec gives a stanza from the address. -/
def spec_chat_state (env : Env) (stanza : Stanza) (jid : Jid) : Event :=
  chat_state_by_priority
    (xmpp_stanza_get_child_by_name stanza STANZA_NAME_GONE).isSome
    (xmpp_stanza_get_child_by_name stanza STANZA_NAME_COMPOSING).isSome
    (xmpp_stanza_get_child_by_name stanza STANZA_NAME_PAUSED).isSome
    (xmpp_stanza_get_child_by_name stanza STANZA_NAME_INACTIVE).isSome
    (env.stanza_contains_chat_state stanza) jid.barejid jid.resourcepart

/-- The stanza is a direct one-to-one chat stanza for `_chat_handler`: its type is chat or
absent, it has no child in the carbons namespace and none in a claimed namespace, and its
sender parses to an address that is not a joined room. -/
def is_direct_chat (env : Env) (stanza : Stanza) (jid : Jid) : Prop :=
  (xmpp_stanza_get_type stanza = some "chat" ∨ xmpp_stanza_get_type stanza = none) ∧
  xmpp_stanza_get_child_by_ns stanza STANZA_NS_CARBONS = none ∧
  xmpp_stanza_get_child_by_ns stanza STANZA_NS_CONFERENCE = none ∧
  xmpp_stanza_get_child_by_ns stanza STANZA_NS_MUC_USER = none ∧
  xmpp_stanza_get_child_by_ns stanza STANZA_NS_CAPTCHA = none ∧
  env.jid_create (xmpp_stanza_get_attribute stanza STANZA_ATTR_FROM) = some jid ∧
  env.muc_active jid.barejid = false

/-- A mediated invite from the room `room@conf`: inviter `b@y/r`, a reason and a password. -/
def mediated_invite : Stanza :=
  .tag "message" [("from", "room@conf")]
    [.tag "x" [("xmlns", "http://jabber.org/protocol/muc#user")]
      [.tag "invite" [("from", "b@y/r")] [.tag "reason" [] [.text "join us"]],
       .tag "password" [] [.text "pw"]]]

/-- A direct invite from `b@y/r` to the room `room@conf` with a reason. -/
def direct_invite : Stanza :=
  .tag "message" [("from", "b@y/r")]
    [.tag "x" [("xmlns", "jabber:x:conference"), ("jid", "room@conf"), ("reason", "join us")]
      []]

/-- A delivery receipt from `b@y/r` for the message `m1`. -/
def receipt_message : Stanza :=
  .tag "message" [("from", "b@y/r")]
    [.tag "received" [("xmlns", "urn:xmpp:receipts"), ("id", "m1")] []]

/-- A message of the type with a body and no `from` attribute. -/
def message_without_from (type : String) : Stanza :=
  .tag "message" [("type", type)] [body_stanza "hi"]

/-- A chat message `m9` from `b@y/r` that wraps a `sent` carbon and also has a body, a
composing child, a delay stamp and a receipt request of its own. -/
def carbon_with_extras : Stanza :=
  .tag "message" [("type", "chat"), ("id", "m9"), ("from", "b@y/r")]
    [body_stanza "outer",
     .tag "composing" [("xmlns", "http://jabber.org/protocol/chatstates")] [],
     .tag "delay" [("xmlns", "urn:xmpp:delay")] [],
     .tag "request" [("xmlns", "urn:xmpp:receipts")] [],
     carbon_stanza "sent" [("from", "a@x/other"), ("to", "b@y/r")] "inner"]

/-- A group-chat message from `room@conf/nick` with a body. -/
def groupchat_message : Stanza :=
  .tag "message" [("type", "groupchat"), ("from", "room@conf/nick")] [body_stanza "hi"]

/-! ## Vocabulary and concrete stanzas of the last statements -/

/-- The child is neither an identity, a feature nor an `x` element in the data-forms
namespace. -/
def is_ignored_child (c : Stanza) : Bool :=
  !(xmpp_stanza_get_name c == some STANZA_NAME_IDENTITY) &&
  !(xmpp_stanza_get_name c == some STANZA_NAME_FEATURE) && !is_data_form c

/-- A group-chat message from `room@conf/nick` with a body and a delay stamp. -/
def groupchat_history_message : Stanza :=
  .tag "message" [("type", "groupchat"), ("from", "room@conf/nick")]
    [body_stanza "hi", .tag "delay" [("xmlns", "urn:xmpp:delay")] []]

/-- A chat message from `room@conf/nick` with a body, a composing child, a receipt request
and the extra children. -/
def private_message (extra : List Stanza) : Stanza :=
  .tag "message" [("type", "chat"), ("id", "m3"), ("from", "room@conf/nick")]
    ([body_stanza "psst", .tag "composing" [] [],
      .tag "request" [("xmlns", "urn:xmpp:receipts")] []] ++ extra)

/-- A captcha challenge from `room@conf` with a body. -/
def captcha_message : Stanza :=
  .tag "message" [("from", "room@conf")]
    [body_stanza "solve this", .tag "captcha" [("xmlns", "urn:xmpp:captcha")] []]

/-- An `x` element in the legacy-conference namespace, which is no data form. -/
def x_other_namespace : Stanza :=
  .tag "x" [("xmlns", "jabber:x:conference"), ("jid", "room@conf")] []

/-! ## Theorems -/

/-! ## The order of `strcmp` -/

theorem strcmp_chars_eq_zero : ∀ (a b : List Char), strcmp_chars a b = 0 ↔ a = b
  | [], [] => by simp [strcmp_chars]
  | [], _ :: _ => by simp [strcmp_chars]
  | _ :: _, [] => by simp [strcmp_chars]
  | a :: as, b :: bs => by
    have ih := strcmp_chars_eq_zero as bs
    unfold strcmp_chars
    by_cases h1 : a.toNat < b.toNat
    · have hne : a ≠ b := fun h => by subst h; omega
      simp [h1, hne]
    · by_cases h2 : b.toNat < a.toNat
      · have hne : a ≠ b := fun h => by subst h; omega
        simp [h1, h2, hne]
      · have hab : a = b := by
          apply Char.ext
          apply UInt32.ext
          have : a.toNat = b.toNat := by omega
          exact this
        simp [h1, h2, hab, ih]

theorem strcmp_chars_swap : ∀ (a b : List Char), strcmp_chars b a = - strcmp_chars a b
  | [], [] => by simp [strcmp_chars]
  | [], _ :: _ => by simp [strcmp_chars]
  | _ :: _, [] => by simp [strcmp_chars]
  | a :: as, b :: bs => by
    have ih := strcmp_chars_swap as bs
    unfold strcmp_chars
    by_cases h1 : a.toNat < b.toNat
    · have h2 : ¬ b.toNat < a.toNat := by omega
      simp [h1, h2]
    · by_cases h2 : b.toNat < a.toNat
      · simp [h1, h2]
      · simp [h1, h2, ih]

theorem strcmp_chars_trans : ∀ (a b c : List Char),
    strcmp_chars a b ≤ 0 → strcmp_chars b c ≤ 0 → strcmp_chars a c ≤ 0
  | [], _, [] => by intros; simp [strcmp_chars]
  | [], _, _ :: _ => by intros; simp [strcmp_chars]
  | _ :: _, [], _ => by intro h; simp [strcmp_chars] at h
  | _ :: _, _ :: _, [] => by intro _ h; simp [strcmp_chars] at h
  | a :: as, b :: bs, c :: cs => by
    have ih := strcmp_chars_trans as bs cs
    unfold strcmp_chars
    intro hab hbc
    by_cases h1 : a.toNat < b.toNat
    · by_cases h3 : b.toNat < c.toNat
      · have : a.toNat < c.toNat := by omega
        simp [this]
      · by_cases h4 : c.toNat < b.toNat
        · simp [h3, h4] at hbc
        · have : a.toNat < c.toNat := by omega
          simp [this]
    · by_cases h2 : b.toNat < a.toNat
      · simp [h1, h2] at hab
      · simp only [h1, h2, if_false] at hab
        by_cases h3 : b.toNat < c.toNat
        · have : a.toNat < c.toNat := by omega
          simp [this]
        · by_cases h4 : c.toNat < b.toNat
          · simp [h3, h4] at hbc
          · simp only [h3, h4, if_false] at hbc
            have e1 : ¬ a.toNat < c.toNat := by omega
            have e2 : ¬ c.toNat < a.toNat := by omega
            simp only [e1, e2, if_false]
            exact ih hab hbc

theorem strcmp_str_eq_zero (a b : String) : strcmp_str a b = 0 ↔ a = b := by
  unfold strcmp_str
  rw [strcmp_chars_eq_zero]
  constructor
  · intro h; exact String.ext h
  · intro h; rw [h]

theorem g_strcmp0_eq_zero (a : Option String) (b : String) :
    g_strcmp0 a (some b) = 0 ↔ a = some b := by
  cases a with
  | none => simp [g_strcmp0]
  | some a => simp [g_strcmp0, strcmp_str_eq_zero]

instance str_le_total : IsTotal String str_le where
  total a b := by
    unfold str_le strcmp_str
    have := strcmp_chars_swap a.data b.data
    omega

instance str_le_trans : IsTrans String str_le where
  trans a b c := strcmp_chars_trans a.data b.data c.data

instance str_le_antisymm : IsAntisymm String str_le where
  antisymm a b h1 h2 := by
    unfold str_le strcmp_str at h1 h2
    have := strcmp_chars_swap a.data b.data
    apply (strcmp_str_eq_zero a b).mp
    unfold strcmp_str
    omega

/-! ## Sorted insertion -/

theorem g_slist_insert_sorted_some (a : String) : ∀ (l : List String),
    g_slist_insert_sorted strcmp (l.map some) (some a)
      = some ((l.orderedInsert str_le a).map some)
  | [] => by simp [g_slist_insert_sorted]
  | b :: l => by
    have ih := g_slist_insert_sorted_some a l
    simp only [List.map_cons, g_slist_insert_sorted, strcmp, List.orderedInsert]
    by_cases h : strcmp_str a b > 0
    · have hle : ¬ str_le a b := by unfold str_le; omega
      simp [h, hle, ih]
    · have hle : str_le a b := by unfold str_le; omega
      simp [h, hle]

theorem insert_all_sorted_some : ∀ (l acc : List String),
    insert_all_sorted (acc.map some) (l.map some)
      = some ((ordered_insert_all acc l).map some)
  | [], acc => by simp [insert_all_sorted, ordered_insert_all]
  | a :: l, acc => by
    have ih := insert_all_sorted_some l (acc.orderedInsert str_le a)
    simp only [List.map_cons, insert_all_sorted, g_slist_insert_sorted_some, ih]
    simp [ordered_insert_all]

theorem ordered_insert_all_perm : ∀ (l acc : List String),
    (ordered_insert_all acc l).Perm (acc ++ l)
  | [], acc => by simp [ordered_insert_all]
  | a :: l, acc => by
    have ih := ordered_insert_all_perm l (acc.orderedInsert str_le a)
    have h1 : (acc.orderedInsert str_le a).Perm (a :: acc) := List.perm_orderedInsert _ _ _
    have h2 : (List.orderedInsert str_le a acc ++ l).Perm (acc ++ a :: l) := by
      refine (h1.append_right l).trans ?_
      simpa using (@List.perm_middle _ a acc l).symm
    simpa [ordered_insert_all] using ih.trans h2

theorem ordered_insert_all_sorted : ∀ (l acc : List String),
    acc.Sorted str_le → (ordered_insert_all acc l).Sorted str_le
  | [], acc, h => by simpa [ordered_insert_all] using h
  | a :: l, acc, h => by
    have ih := ordered_insert_all_sorted l (acc.orderedInsert str_le a) (h.orderedInsert a acc)
    simpa [ordered_insert_all] using ih

/-- Sorted lists of strings with the same elements are equal. -/
theorem sorted_perm_unique {l1 l2 : List String} (hp : l1.Perm l2)
    (h1 : l1.Sorted str_le) (h2 : l2.Sorted str_le) : l1 = l2 :=
  List.eq_of_perm_of_sorted hp h1 h2

theorem ordered_insert_all_of_perm {l1 l2 : List String} (hp : l1.Perm l2) :
    ordered_insert_all [] l1 = ordered_insert_all [] l2 := by
  apply sorted_perm_unique
  · have a := ordered_insert_all_perm l1 []
    have b := ordered_insert_all_perm l2 []
    simp only [List.nil_append] at a b
    exact a.trans (hp.trans b.symm)
  · exact ordered_insert_all_sorted l1 [] List.sorted_nil
  · exact ordered_insert_all_sorted l2 [] List.sorted_nil

/-! ## The first loop as three independent parts -/

theorem combine_lists_none_mid (a : Option (List (Option String)))
    (c : Option (List (Option String) × GHashTable DataForm)) :
    combine_lists a none c = none := by
  cases a <;> rfl

theorem combine_lists_none_right (a b : Option (List (Option String))) :
    combine_lists a b none = none := by
  cases a <;> cases b <;> rfl

theorem caps_scan_split (env : Env) : ∀ (cs : List Stanza) (st : CapsLists),
    caps_scan env cs st = combine_lists
      (insert_all_sorted st.identities (identity_data cs))
      (insert_all_sorted st.features (feature_data cs))
      (scan_forms env (cs.filter is_data_form) (st.form_names, st.forms))
  | [], st => by
    simp [caps_scan, identity_data, feature_data, insert_all_sorted, scan_forms, combine_lists]
  | c :: cs, st => by
    have ih := caps_scan_split env cs
    have hif : STANZA_NAME_IDENTITY ≠ STANZA_NAME_FEATURE := by decide
    have hix : STANZA_NAME_IDENTITY ≠ STANZA_NAME_X := by decide
    have hfx : STANZA_NAME_FEATURE ≠ STANZA_NAME_X := by decide
    by_cases h1 : xmpp_stanza_get_name c = some STANZA_NAME_IDENTITY
    · -- an identity child
      have e1 : identity_data (c :: cs) = some (caps_identity_str c) :: identity_data cs := by
        simp [identity_data, h1]
      have e2 : feature_data (c :: cs) = feature_data cs := by
        simp [feature_data, h1, hif]
      have e3 : (c :: cs).filter is_data_form = cs.filter is_data_form := by
        simp [is_data_form, h1, hix]
      rw [e1, e2, e3]
      simp only [caps_scan, caps_scan_child, g_strcmp0_eq_zero, h1, if_true, insert_all_sorted]
      cases hins : g_slist_insert_sorted strcmp st.identities (some (caps_identity_str c)) with
      | none => rfl
      | some l => simp only [ih]
    · by_cases h2 : xmpp_stanza_get_name c = some STANZA_NAME_FEATURE
      · have e1 : identity_data (c :: cs) = identity_data cs := by
          simp [identity_data, h1]
        have e2 : feature_data (c :: cs)
            = xmpp_stanza_get_attribute c "var" :: feature_data cs := by
          simp [feature_data, h2]
        have e3 : (c :: cs).filter is_data_form = cs.filter is_data_form := by
          simp [is_data_form, h2, hfx]
        rw [e1, e2, e3]
        simp only [caps_scan, caps_scan_child, g_strcmp0_eq_zero, h2, Option.some.injEq,
          hif.symm, if_true, if_false, insert_all_sorted]
        cases hins : g_slist_insert_sorted strcmp st.features
            (xmpp_stanza_get_attribute c "var") with
        | none => simp only [combine_lists_none_mid]
        | some l => simp only [ih]
      · have e1 : identity_data (c :: cs) = identity_data cs := by
          simp [identity_data, h1]
        have e2 : feature_data (c :: cs) = feature_data cs := by
          simp [feature_data, h2]
        by_cases h3 : is_data_form c = true
        · have e3 : (c :: cs).filter is_data_form = c :: cs.filter is_data_form := by
            simp [h3]
          have h3a : xmpp_stanza_get_name c = some STANZA_NAME_X := by
            simp [is_data_form] at h3; exact h3.1
          have h3b : xmpp_stanza_get_ns c = some STANZA_NS_DATA := by
            simp [is_data_form] at h3; exact h3.2
          rw [e1, e2, e3]
          simp only [caps_scan, caps_scan_child, g_strcmp0_eq_zero, h3a, h3b, Option.some.injEq,
            hix.symm, hfx.symm, if_true, if_false, scan_forms]
          cases hfc : env.form_create c with
          | none => simp only [combine_lists_none_right]
          | some form =>
            simp only []
            cases hins : g_slist_insert_sorted strcmp st.form_names
                (form_get_form_type_field form) with
            | none => simp only [combine_lists_none_right]
            | some names =>
              simp only []
              cases hft : form_get_form_type_field form with
              | none => simp only [combine_lists_none_right]
              | some key => simp only [ih]
        · have e3 : (c :: cs).filter is_data_form = cs.filter is_data_form := by
            simp [h3]
          rw [e1, e2, e3]
          have h3' : ¬ (xmpp_stanza_get_name c = some STANZA_NAME_X ∧
              xmpp_stanza_get_ns c = some STANZA_NS_DATA) := by
            intro h; apply h3; simp [is_data_form, h.1, h.2]
          simp only [caps_scan, caps_scan_child, g_strcmp0_eq_zero, h1, h2, if_false]
          by_cases h4 : xmpp_stanza_get_name c = some STANZA_NAME_X
          · have h5 : ¬ xmpp_stanza_get_ns c = some STANZA_NS_DATA := fun h => h3' ⟨h4, h⟩
            simp only [h4, h5, if_true, if_false, ih]
          · simp only [h4, if_false, ih]

/-! ## Insertion of a `NULL` string -/

theorem g_slist_insert_sorted_ne_nil {α : Type} (func : α → α → Option Int) (l : List α) (d : α)
    (r : List α) (h : g_slist_insert_sorted func l d = some r) : r ≠ [] := by
  cases l with
  | nil => simp [g_slist_insert_sorted] at h; subst h; simp
  | cons x rest =>
    simp only [g_slist_insert_sorted] at h
    cases hc : func d x with
    | none => simp [hc] at h
    | some cmp =>
      simp only [hc] at h
      by_cases hpos : cmp > 0
      · simp only [hpos, if_true] at h
        cases hr : g_slist_insert_sorted func rest d with
        | none => simp [hr] at h
        | some l' => simp [hr] at h; subst h; simp
      · simp only [hpos, if_false] at h
        cases h; simp

theorem g_slist_insert_sorted_null (l : List (Option String)) (hl : l ≠ []) :
    g_slist_insert_sorted strcmp l none = none := by
  cases l with
  | nil => exact absurd rfl hl
  | cons x rest => simp [g_slist_insert_sorted, strcmp]

theorem g_slist_insert_sorted_after_null (d : Option String) :
    g_slist_insert_sorted strcmp [none] d = none := by
  cases d <;> simp [g_slist_insert_sorted, strcmp]

theorem insert_all_sorted_null : ∀ (l acc : List (Option String)),
    acc ≠ [] → none ∈ l → insert_all_sorted acc l = none
  | [], _, _, h => by simp at h
  | d :: rest, acc, hacc, h => by
    simp only [insert_all_sorted]
    cases hins : g_slist_insert_sorted strcmp acc d with
    | none => rfl
    | some st1 =>
      simp only []
      have hne := g_slist_insert_sorted_ne_nil strcmp acc d st1 hins
      cases d with
      | none => rw [g_slist_insert_sorted_null acc hacc] at hins; cases hins
      | some a =>
        have : none ∈ rest := by simpa using h
        exact insert_all_sorted_null rest st1 hne this

theorem insert_all_sorted_nil_null (l : List (Option String)) (hmem : none ∈ l)
    (hlen : 2 ≤ l.length) : insert_all_sorted [] l = none := by
  cases l with
  | nil => simp at hlen
  | cons d rest =>
    cases rest with
    | nil => simp at hlen
    | cons e rest' =>
      cases d with
      | none =>
        have h1 : g_slist_insert_sorted strcmp [] (none : Option String) = some [none] := rfl
        simp only [insert_all_sorted, h1, g_slist_insert_sorted_after_null]
      | some a =>
        simp only [insert_all_sorted, g_slist_insert_sorted]
        have : none ∈ e :: rest' := by simpa using hmem
        have h2 := insert_all_sorted_null (e :: rest') [some a] (by simp) this
        simpa [insert_all_sorted] using h2

theorem all_some_eq_map : ∀ (l : List (Option String)), none ∉ l →
    l = (l.filterMap id).map some
  | [], _ => rfl
  | none :: _, h => by simp at h
  | some a :: rest, h => by
    have : none ∉ rest := fun hm => h (List.mem_cons_of_mem _ hm)
    have ih := all_some_eq_map rest this
    simp only [List.filterMap_cons, id, List.map_cons]
    rw [← ih]

/-- The outcome of the insertions into one sorted list does not depend on the order in
which the data arrive. -/
theorem insert_all_sorted_of_perm {l1 l2 : List (Option String)} (hp : l1.Perm l2) :
    insert_all_sorted [] l1 = insert_all_sorted [] l2 := by
  by_cases hnull : none ∈ l1
  · have hnull2 : none ∈ l2 := hp.mem_iff.mp hnull
    by_cases hlen : 2 ≤ l1.length
    · rw [insert_all_sorted_nil_null l1 hnull hlen,
        insert_all_sorted_nil_null l2 hnull2 (hp.length_eq ▸ hlen)]
    · have h1 : l1.length = 1 := by
        have : 0 < l1.length := List.length_pos_of_mem hnull
        omega
      obtain ⟨a, ha⟩ := List.length_eq_one.mp h1
      subst ha
      have := hp.symm
      rw [List.perm_singleton] at this
      rw [this]
  · have hnull2 : none ∉ l2 := fun h => hnull (hp.mem_iff.mpr h)
    rw [all_some_eq_map l1 hnull, all_some_eq_map l2 hnull2]
    have e := insert_all_sorted_some (l1.filterMap id) []
    have e2 := insert_all_sorted_some (l2.filterMap id) []
    simp only [List.map_nil] at e e2
    rw [e, e2, ordered_insert_all_of_perm (hp.filterMap id)]

/-! ## The loops that build the string -/

theorem append_empty_str (s : String) : s ++ "" = s := by
  apply String.ext; simp [String.data_append]

theorem caps_append_identities_eq : ∀ (l : List String) (s : String),
    caps_append_identities s (l.map some) = s ++ concat_strings l
  | [], s => by simp [caps_append_identities, concat_strings, append_empty_str]
  | a :: l, s => by
    simp only [List.map_cons, caps_append_identities, g_string_append, concat_strings,
      caps_append_identities_eq l, String.append_assoc]

theorem caps_append_features_eq : ∀ (l : List String) (s : String),
    caps_append_features s (l.map some) = s ++ concat_strings (l.map lt_terminated)
  | [], s => by simp [caps_append_features, concat_strings, append_empty_str]
  | a :: l, s => by
    simp only [List.map_cons, caps_append_features, g_string_append, concat_strings,
      caps_append_features_eq l, String.append_assoc, lt_terminated]

theorem caps_append_values_eq : ∀ (l : List String) (s : String),
    caps_append_values s l = s ++ concat_strings (l.map lt_terminated)
  | [], s => by simp [caps_append_values, concat_strings, append_empty_str]
  | a :: l, s => by
    simp only [List.map_cons, caps_append_values, g_string_append, concat_strings,
      caps_append_values_eq l, String.append_assoc, lt_terminated]

theorem g_string_append_eq (s : String) (v : Option String) :
    g_string_append s v = s ++ v.getD "" := by
  cases v <;> simp [g_string_append, append_empty_str]

theorem caps_append_fields_eq : ∀ (l : List FormField) (s : String),
    caps_append_fields s l = s ++ concat_strings (l.map spec_field_str)
  | [], s => by simp [caps_append_fields, concat_strings, append_empty_str]
  | a :: l, s => by
    simp only [List.map_cons, caps_append_fields, concat_strings, caps_append_fields_eq l,
      caps_append_values_eq, g_string_append_eq, String.append_assoc, lt_terminated,
      spec_field_str, Option.getD_some]

/-- The serialisation of the form stored in the table under a `FORM_TYPE`. -/
theorem caps_append_forms_eq (forms : GHashTable DataForm) : ∀ (names : List String) (s : String),
    (∀ k ∈ names, (g_hash_table_lookup forms k).isSome) →
    caps_append_forms forms s (names.map some) = some (s ++ concat_strings (names.map
      (fun k => match g_hash_table_lookup forms k with
        | none => ""
        | some form => spec_form_str form)))
  | [], s, _ => by simp [caps_append_forms, concat_strings, append_empty_str]
  | k :: names, s, h => by
    have hk := h k (List.mem_cons_self _ _)
    have ih := caps_append_forms_eq forms names
    cases hl : g_hash_table_lookup forms k with
    | none => simp [hl] at hk
    | some form =>
      simp only [List.map_cons, caps_append_forms, hl, concat_strings]
      rw [ih _ (fun k' hk' => h k' (List.mem_cons_of_mem _ hk'))]
      simp only [caps_append_fields_eq, g_string_append_eq, String.append_assoc, lt_terminated,
        spec_form_str, Option.getD_some]

/-! ## The table of forms -/

theorem g_hash_table_lookup_insert_same {V : Type} (t : GHashTable V) (k : String) (v : V) :
    g_hash_table_lookup (g_hash_table_insert t k v) k = some v := by
  simp [g_hash_table_lookup, g_hash_table_insert]

theorem g_hash_table_lookup_insert_other {V : Type} (t : GHashTable V) (k k' : String) (v : V)
    (h : k ≠ k') :
    g_hash_table_lookup (g_hash_table_insert t k v) k' = g_hash_table_lookup t k' := by
  have hf : ∀ (l : List (String × V)),
      (l.filter (fun e => !(e.1 == k))).find? (fun e => e.1 == k')
        = l.find? (fun e => e.1 == k') := by
    intro l
    induction l with
    | nil => rfl
    | cons e l ih =>
      by_cases h1 : e.1 = k
      · have h2 : ¬ e.1 = k' := fun h' => h (h1.symm.trans h')
        have p1 : ¬ ((fun e : String × V => !(e.1 == k)) e = true) := by simp [h1]
        have p2 : ¬ ((fun e : String × V => e.1 == k') e = true) := by simp [h2]
        rw [List.filter_cons_of_neg (p := fun e : String × V => !(e.1 == k)) p1,
          List.find?_cons_of_neg (p := fun e : String × V => e.1 == k') _ p2, ih]
      · have p1 : (fun e : String × V => !(e.1 == k)) e = true := by simp [h1]
        rw [List.filter_cons_of_pos (p := fun e : String × V => !(e.1 == k)) p1]
        by_cases h2 : e.1 = k'
        · have p2 : (fun e : String × V => e.1 == k') e = true := by simp [h2]
          rw [List.find?_cons_of_pos (p := fun e : String × V => e.1 == k') _ p2,
            List.find?_cons_of_pos (p := fun e : String × V => e.1 == k') _ p2]
        · have p2 : ¬ ((fun e : String × V => e.1 == k') e = true) := by simp [h2]
          rw [List.find?_cons_of_neg (p := fun e : String × V => e.1 == k') _ p2,
            List.find?_cons_of_neg (p := fun e : String × V => e.1 == k') _ p2, ih]
  simp only [g_hash_table_lookup, g_hash_table_insert, List.find?_cons]
  have : ((k, v).1 == k') = false := by simpa using h
  rw [this, hf]

theorem g_hash_table_lookup_new {V : Type} (k : String) :
    g_hash_table_lookup (g_hash_table_new : GHashTable V) k = none := rfl

theorem declared_form_type_eq_some {env : Env} {c : Stanza} {k : String}
    (h : declared_form_type env c = some k) :
    ∃ form, env.form_create c = some form ∧ form_get_form_type_field form = some k := by
  unfold declared_form_type at h
  cases hc : env.form_create c with
  | none => simp [hc] at h
  | some form => exact ⟨form, rfl, by simpa [hc] using h⟩

theorem scan_forms_null (env : Env) : ∀ (cs : List Stanza)
    (st : List (Option String) × GHashTable DataForm),
    (∃ c ∈ cs, declared_form_type env c = none) → scan_forms env cs st = none
  | [], _, h => by simp at h
  | c :: cs, st, h => by
    simp only [scan_forms]
    cases hc : env.form_create c with
    | none => rfl
    | some form =>
      simp only []
      cases hins : g_slist_insert_sorted strcmp st.1 (form_get_form_type_field form) with
      | none => rfl
      | some names =>
        simp only []
        cases hft : form_get_form_type_field form with
        | none => rfl
        | some key =>
          simp only []
          apply scan_forms_null env cs
          obtain ⟨c', hmem, hd⟩ := h
          rcases List.mem_cons.mp hmem with rfl | hmem'
          · simp [declared_form_type, hc, hft] at hd
          · exact ⟨c', hmem', hd⟩

theorem scan_forms_some (env : Env) : ∀ (cs : List Stanza) (acc : List String)
    (t : GHashTable DataForm), (∀ c ∈ cs, declared_form_type env c ≠ none) →
    scan_forms env cs (acc.map some, t)
      = some ((ordered_insert_all acc (declared_form_types env cs)).map some,
          table_insert_all env cs t)
  | [], acc, t, _ => by
    simp [scan_forms, ordered_insert_all, declared_form_types, table_insert_all]
  | c :: cs, acc, t, h => by
    have hc := h c (List.mem_cons_self _ _)
    cases hd : declared_form_type env c with
    | none => exact absurd hd hc
    | some key =>
      obtain ⟨form, hf, hk⟩ := declared_form_type_eq_some hd
      have ih := scan_forms_some env cs (acc.orderedInsert str_le key)
        (g_hash_table_insert t key form) (fun c' hc' => h c' (List.mem_cons_of_mem _ hc'))
      simp only [scan_forms, hf, hk, g_slist_insert_sorted_some, ih, table_insert_all,
        declared_form_types, List.filterMap_cons, hd]
      simp [ordered_insert_all, declared_form_types]

theorem table_insert_all_lookup (env : Env) : ∀ (cs : List Stanza) (t : GHashTable DataForm)
    (k : String) (f : DataForm), g_hash_table_lookup (table_insert_all env cs t) k = some f →
    g_hash_table_lookup t k = some f ∨
      ∃ c ∈ cs, declared_form_type env c = some k ∧ env.form_create c = some f
  | [], t, k, f, h => Or.inl h
  | c :: cs, t, k, f, h => by
    simp only [table_insert_all] at h
    cases hc : env.form_create c with
    | none =>
      simp only [hc] at h
      rcases table_insert_all_lookup env cs t k f h with h1 | ⟨c', hm, h2⟩
      · exact Or.inl h1
      · exact Or.inr ⟨c', List.mem_cons_of_mem _ hm, h2⟩
    | some form =>
      simp only [hc] at h
      cases hft : form_get_form_type_field form with
      | none =>
        simp only [hft] at h
        rcases table_insert_all_lookup env cs t k f h with h1 | ⟨c', hm, h2⟩
        · exact Or.inl h1
        · exact Or.inr ⟨c', List.mem_cons_of_mem _ hm, h2⟩
      | some key =>
        simp only [hft] at h
        rcases table_insert_all_lookup env cs _ k f h with h1 | ⟨c', hm, h2⟩
        · by_cases hkk : key = k
          · subst hkk
            rw [g_hash_table_lookup_insert_same] at h1
            cases h1
            exact Or.inr ⟨c, List.mem_cons_self _ _, by simp [declared_form_type, hc, hft], hc⟩
          · rw [g_hash_table_lookup_insert_other _ _ _ _ hkk] at h1
            exact Or.inl h1
        · exact Or.inr ⟨c', List.mem_cons_of_mem _ hm, h2⟩

theorem table_insert_all_isSome (env : Env) : ∀ (cs : List Stanza) (t : GHashTable DataForm)
    (k : String), ((g_hash_table_lookup t k).isSome ∨
      ∃ c ∈ cs, declared_form_type env c = some k) →
    (g_hash_table_lookup (table_insert_all env cs t) k).isSome
  | [], t, k, h => by
    rcases h with h | ⟨c, hm, _⟩
    · exact h
    · simp at hm
  | c :: cs, t, k, h => by
    simp only [table_insert_all]
    have step : ∀ t', ((g_hash_table_lookup t k).isSome → (g_hash_table_lookup t' k).isSome) →
        (declared_form_type env c = some k → (g_hash_table_lookup t' k).isSome) →
        (g_hash_table_lookup (table_insert_all env cs t') k).isSome := by
      intro t' h1 h2
      apply table_insert_all_isSome env cs t' k
      rcases h with h | ⟨c', hm, hd⟩
      · exact Or.inl (h1 h)
      · rcases List.mem_cons.mp hm with rfl | hm'
        · exact Or.inl (h2 hd)
        · exact Or.inr ⟨c', hm', hd⟩
    cases hc : env.form_create c with
    | none =>
      exact step t id (fun hd => by simp [declared_form_type, hc] at hd)
    | some form =>
      simp only []
      cases hft : form_get_form_type_field form with
      | none => exact step t id (fun hd => by simp [declared_form_type, hc, hft] at hd)
      | some key =>
        simp only []
        apply step
        · intro h1
          by_cases hkk : key = k
          · subst hkk; simp [g_hash_table_lookup_insert_same]
          · rw [g_hash_table_lookup_insert_other _ _ _ _ hkk]; exact h1
        · intro hd
          have : key = k := by simpa [declared_form_type, hc, hft] using hd
          subst this; simp [g_hash_table_lookup_insert_same]

/-! ## The forms of a query -/

theorem form_of_type_of_mem {env : Env} {forms : List Stanza}
    (hU : same_type_same_form env forms) {c : Stanza} (hc : c ∈ forms) {k : String}
    (hd : declared_form_type env c = some k) :
    form_of_type env forms k = env.form_create c := by
  unfold form_of_type
  cases hf : forms.find? (fun c => declared_form_type env c == some k) with
  | none =>
    have := List.find?_eq_none.mp hf c hc
    simp [hd] at this
  | some c' =>
    have hm : c' ∈ forms := List.mem_of_find?_eq_some hf
    have hp := List.find?_some hf
    have hd' : declared_form_type env c' = some k := by simpa using hp
    exact hU c' hm c hc (hd'.trans hd.symm)

theorem mem_declared_form_types {env : Env} {forms : List Stanza} {k : String}
    (h : k ∈ declared_form_types env forms) :
    ∃ c ∈ forms, declared_form_type env c = some k := by
  unfold declared_form_types at h
  rw [List.mem_filterMap] at h
  exact h

theorem lookup_eq_form_of_type {env : Env} {forms : List Stanza}
    (hU : same_type_same_form env forms) {k : String}
    (hk : k ∈ declared_form_types env forms) :
    g_hash_table_lookup (table_insert_all env forms g_hash_table_new) k
      = form_of_type env forms k := by
  obtain ⟨c, hc, hd⟩ := mem_declared_form_types hk
  have hs := table_insert_all_isSome env forms g_hash_table_new k (Or.inr ⟨c, hc, hd⟩)
  cases hl : g_hash_table_lookup (table_insert_all env forms g_hash_table_new) k with
  | none => simp [hl] at hs
  | some f =>
    rcases table_insert_all_lookup env forms g_hash_table_new k f hl with h1 | ⟨c', hm, hd', hf⟩
    · simp [g_hash_table_lookup_new] at h1
    · rw [form_of_type_of_mem hU hm hd', hf]

/-- The forms part of the string: with every data form declaring a `FORM_TYPE`, the first
loop leaves the sorted `FORM_TYPE` values and a table from which the last loop appends,
for each of them in order, the serialisation of the form that declares it. -/
theorem forms_part (env : Env) (forms : List Stanza)
    (hall : ∀ c ∈ forms, declared_form_type env c ≠ none)
    (hU : same_type_same_form env forms) :
    ∃ T, scan_forms env forms ([], g_hash_table_new)
        = some ((ordered_insert_all [] (declared_form_types env forms)).map some, T) ∧
      ∀ s, caps_append_forms T s
          ((ordered_insert_all [] (declared_form_types env forms)).map some)
        = some (s ++ concat_strings ((ordered_insert_all [] (declared_form_types env forms)).map
            (spec_form_of_type_str env forms))) := by
  refine ⟨table_insert_all env forms g_hash_table_new, ?_, ?_⟩
  · have := scan_forms_some env forms [] g_hash_table_new hall
    simpa using this
  · intro s
    have hmem : ∀ k ∈ ordered_insert_all [] (declared_form_types env forms),
        k ∈ declared_form_types env forms := by
      intro k hk
      have := (ordered_insert_all_perm (declared_form_types env forms) []).mem_iff.mp hk
      simpa using this
    rw [caps_append_forms_eq]
    · congr 2
      apply congrArg
      apply List.map_congr_left
      intro k hk
      rw [lookup_eq_form_of_type hU (hmem k hk)]
      rfl
    · intro k hk
      rw [lookup_eq_form_of_type hU (hmem k hk)]
      obtain ⟨c, hc, hd⟩ := mem_declared_form_types (hmem k hk)
      rw [form_of_type_of_mem hU hc hd]
      obtain ⟨form, hf, _⟩ := declared_form_type_eq_some hd
      simp [hf]

theorem same_type_same_form_of_perm {env : Env} {f1 f2 : List Stanza} (hp : f1.Perm f2)
    (hU : same_type_same_form env f1) : same_type_same_form env f2 :=
  fun c1 h1 c2 h2 hd => hU c1 (hp.mem_iff.mpr h1) c2 (hp.mem_iff.mpr h2) hd

theorem spec_form_of_type_str_of_perm {env : Env} {f1 f2 : List Stanza} (hp : f1.Perm f2)
    (hU : same_type_same_form env f1) (k : String) :
    spec_form_of_type_str env f1 k = spec_form_of_type_str env f2 k := by
  unfold spec_form_of_type_str
  by_cases h : ∃ c ∈ f1, declared_form_type env c = some k
  · obtain ⟨c, hc, hd⟩ := h
    rw [form_of_type_of_mem hU hc hd,
      form_of_type_of_mem (same_type_same_form_of_perm hp hU) (hp.mem_iff.mp hc) hd]
  · have n1 : form_of_type env f1 k = none := by
      unfold form_of_type
      have : f1.find? (fun c => declared_form_type env c == some k) = none := by
        rw [List.find?_eq_none]
        intro c hc hd
        exact h ⟨c, hc, by simpa using hd⟩
      rw [this]
    have n2 : form_of_type env f2 k = none := by
      unfold form_of_type
      have : f2.find? (fun c => declared_form_type env c == some k) = none := by
        rw [List.find?_eq_none]
        intro c hc hd
        exact h ⟨c, hp.mem_iff.mpr hc, by simpa using hd⟩
      rw [this]
    rw [n1, n2]

/-! ## The canonical string -/

/-- The strings of the identity children, in document order. -/
theorem identity_data_eq (cs : List Stanza) :
    identity_data cs = ((cs.filter
      (fun c => xmpp_stanza_get_name c == some STANZA_NAME_IDENTITY)).map caps_identity_str).map
        some := by
  simp [identity_data, List.map_map, Function.comp_def]

theorem caps_sha1_input_split (env : Env) (query : Stanza) :
    caps_sha1_input env query =
      match combine_lists
        (insert_all_sorted [] (identity_data (xmpp_stanza_get_children query)))
        (insert_all_sorted [] (feature_data (xmpp_stanza_get_children query)))
        (scan_forms env ((xmpp_stanza_get_children query).filter is_data_form)
          ([], g_hash_table_new)) with
      | none => none
      | some st =>
        caps_append_forms st.forms
          (caps_append_features (caps_append_identities "" st.identities) st.features)
          st.form_names := by
  unfold caps_sha1_input
  rw [caps_scan_split]

/-! ## C1: the order of the children -/

/-- C1 (as amended): for every query in which data-form children that declare the same
`FORM_TYPE` parse to the same form, every permutation of the children gives the same
outcome of the canonicalisation: the same canonical string, or in both orders none. -/
theorem caps_sha1_input_of_perm (env : Env) (name : String)
    (attributes : List (String × String)) (cs1 cs2 : List Stanza) (hp : cs1.Perm cs2)
    (hU : same_type_same_form env (cs1.filter is_data_form)) :
    caps_sha1_input env (.tag name attributes cs1)
      = caps_sha1_input env (.tag name attributes cs2) := by
  rw [caps_sha1_input_split, caps_sha1_input_split]
  simp only [xmpp_stanza_get_children]
  have hi : insert_all_sorted [] (identity_data cs1) = insert_all_sorted [] (identity_data cs2) :=
    insert_all_sorted_of_perm ((hp.filter _).map _)
  have hf : insert_all_sorted [] (feature_data cs1) = insert_all_sorted [] (feature_data cs2) :=
    insert_all_sorted_of_perm ((hp.filter _).map _)
  have hpf : (cs1.filter is_data_form).Perm (cs2.filter is_data_form) := hp.filter _
  rw [hi, hf]
  by_cases hnull : ∃ c ∈ cs1.filter is_data_form, declared_form_type env c = none
  · have hnull2 : ∃ c ∈ cs2.filter is_data_form, declared_form_type env c = none := by
      obtain ⟨c, hc, hd⟩ := hnull
      exact ⟨c, hpf.mem_iff.mp hc, hd⟩
    rw [scan_forms_null env _ _ hnull, scan_forms_null env _ _ hnull2]
  · have hall1 : ∀ c ∈ cs1.filter is_data_form, declared_form_type env c ≠ none :=
      fun c hc hd => hnull ⟨c, hc, hd⟩
    have hall2 : ∀ c ∈ cs2.filter is_data_form, declared_form_type env c ≠ none :=
      fun c hc hd => hnull ⟨c, hpf.mem_iff.mpr hc, hd⟩
    obtain ⟨T1, hs1, ha1⟩ := forms_part env _ hall1 hU
    obtain ⟨T2, hs2, ha2⟩ := forms_part env _ hall2 (same_type_same_form_of_perm hpf hU)
    have hn : ordered_insert_all [] (declared_form_types env (cs1.filter is_data_form))
        = ordered_insert_all [] (declared_form_types env (cs2.filter is_data_form)) :=
      ordered_insert_all_of_perm (hpf.filterMap _)
    rw [hs1, hs2]
    cases insert_all_sorted [] (identity_data cs2) with
    | none => rfl
    | some ids =>
      cases insert_all_sorted [] (feature_data cs2) with
      | none => rfl
      | some feats =>
        simp only [combine_lists]
        rw [ha1, ha2, hn]
        congr 2
        apply congrArg
        apply List.map_congr_left
        intro k _
        exact spec_form_of_type_str_of_perm hpf hU k

/-- C1, witness: two data forms with different `FORM_TYPE` values, in both orders. -/
theorem caps_sha1_input_of_perm_witness :
    caps_sha1_input (model_env none []) (.tag "query" [] [form_t_a, form_u, feature_stanza "f"])
      = caps_sha1_input (model_env none []) (.tag "query" [] [form_u, feature_stanza "f", form_t_a]) :=
  caps_sha1_input_of_perm (model_env none []) "query" []
    [form_t_a, form_u, feature_stanza "f"] [form_u, feature_stanza "f", form_t_a]
    (@List.perm_append_comm _ [form_t_a] [form_u, feature_stanza "f"])
    (by
      intro c1 h1 c2 h2 hd
      have e : [form_t_a, form_u, feature_stanza "f"].filter is_data_form = [form_t_a, form_u] :=
        rfl
      rw [e] at h1 h2
      simp only [List.mem_cons, List.mem_singleton, List.not_mem_nil, or_false] at h1 h2
      rcases h1 with rfl | rfl <;> rcases h2 with rfl | rfl
      · rfl
      · exact absurd hd (by decide)
      · exact absurd hd (by decide)
      · rfl)

/-- C1, counterexample: two data forms that declare the same `FORM_TYPE` with different
fields; the canonical string depends on which of them comes last. -/
theorem caps_sha1_input_perm_counterexample :
    [form_t_a, form_t_b].Perm [form_t_b, form_t_a] ∧
    caps_sha1_input (model_env none []) (.tag "query" [] [form_t_a, form_t_b])
      = some "t<b<2<t<b<2<" ∧
    caps_sha1_input (model_env none []) (.tag "query" [] [form_t_b, form_t_a])
      = some "t<a<1<t<a<1<" ∧
    caps_sha1_input (model_env none []) (.tag "query" [] [form_t_a, form_t_b])
      ≠ caps_sha1_input (model_env none []) (.tag "query" [] [form_t_b, form_t_a]) := by
  refine ⟨List.Perm.swap _ _ _, by decide, by decide, by decide⟩

theorem empty_append_str (s : String) : "" ++ s = s := by
  apply String.ext; simp [String.data_append]

theorem caps_identity_str_eq_spec (c : Stanza) : caps_identity_str c = spec_identity_str c := by
  unfold caps_identity_str spec_identity_str
  cases xmpp_stanza_get_attribute c "category" <;> cases xmpp_stanza_get_attribute c "type" <;>
    cases xmpp_stanza_get_attribute c "xml:lang" <;> cases xmpp_stanza_get_attribute c "name" <;>
    simp [append_empty_str, empty_append_str]

/-- The var attributes of the feature children, in document order. -/
theorem feature_data_filterMap (cs : List Stanza) :
    (feature_data cs).filterMap id
      = (cs.filter (fun c => xmpp_stanza_get_name c == some STANZA_NAME_FEATURE)).filterMap
          (fun c => xmpp_stanza_get_attribute c "var") := by
  simp [feature_data, List.filterMap_map, Function.comp_def]

/-- The canonical string of a query whose feature children all have a `var` and whose
data forms all declare a `FORM_TYPE`, forms with the same `FORM_TYPE` being the same. -/
theorem caps_sha1_input_eq (env : Env) (query : Stanza)
    (hvar : none ∉ feature_data (xmpp_stanza_get_children query))
    (hall : ∀ c ∈ query_forms query, declared_form_type env c ≠ none)
    (hU : same_type_same_form env (query_forms query)) :
    caps_sha1_input env query = some (
      concat_strings (ordered_insert_all [] ((query_identities query).map spec_identity_str)) ++
      concat_strings ((ordered_insert_all []
        ((query_features query).filterMap (fun c => xmpp_stanza_get_attribute c "var"))).map
          lt_terminated) ++
      concat_strings ((ordered_insert_all [] (declared_form_types env (query_forms query))).map
        (spec_form_of_type_str env (query_forms query)))) := by
  rw [caps_sha1_input_split]
  obtain ⟨T, hs, ha⟩ := forms_part env (query_forms query) hall hU
  have hs' : scan_forms env ((xmpp_stanza_get_children query).filter is_data_form)
      ([], g_hash_table_new) = _ := hs
  rw [hs']
  have hi := insert_all_sorted_some
    (((xmpp_stanza_get_children query).filter
      (fun c => xmpp_stanza_get_name c == some STANZA_NAME_IDENTITY)).map caps_identity_str) []
  rw [← identity_data_eq] at hi
  have hf := insert_all_sorted_some ((feature_data (xmpp_stanza_get_children query)).filterMap id) []
  rw [← all_some_eq_map _ hvar] at hf
  simp only [List.map_nil] at hi hf
  rw [hi, hf]
  simp only [combine_lists, caps_append_identities_eq, caps_append_features_eq, ha,
    empty_append_str, feature_data_filterMap]
  have e : (fun c => caps_identity_str c) = spec_identity_str := funext caps_identity_str_eq_spec
  simp only [query_identities, query_features, ← e]

/-! ## C2: identities and features -/

/-- C2: for every query without data-form children whose feature children all have a `var`,
the canonical string is the concatenation of the identity strings
`category/type/xml:lang/name<` (a missing attribute giving the empty string) in ascending
order, duplicates retained, followed by the feature `var` strings in ascending order,
duplicates retained, each followed by `<`. For the identity (client, bot, no lang, B) with
the feature `urn:x` it is `client/bot//B<urn:x<`, for the empty query the empty string. -/
theorem caps_sha1_input_identities_features (env : Env) :
    (∀ query : Stanza, query_forms query = [] →
      (∀ c ∈ query_features query, xmpp_stanza_get_attribute c "var" ≠ none) →
      ∃ ids feats : List String,
        ids.Perm ((query_identities query).map spec_identity_str) ∧ ids.Sorted str_le ∧
        feats.Perm ((query_features query).filterMap
          (fun c => xmpp_stanza_get_attribute c "var")) ∧ feats.Sorted str_le ∧
        caps_sha1_input env query
          = some (concat_strings ids ++ concat_strings (feats.map lt_terminated))) ∧
    caps_sha1_input env (.tag "query" [] [identity_client_bot, feature_stanza "urn:x"])
      = some "client/bot//B<urn:x<" ∧
    caps_sha1_input env (.tag "query" [] []) = some "" := by
  refine ⟨?_, rfl, rfl⟩
  intro query hforms hvar
  refine ⟨ordered_insert_all [] ((query_identities query).map spec_identity_str),
    ordered_insert_all [] ((query_features query).filterMap
      (fun c => xmpp_stanza_get_attribute c "var")), ?_, ?_, ?_, ?_, ?_⟩
  · simpa using ordered_insert_all_perm ((query_identities query).map spec_identity_str) []
  · exact ordered_insert_all_sorted _ [] List.sorted_nil
  · simpa using ordered_insert_all_perm ((query_features query).filterMap
      (fun c => xmpp_stanza_get_attribute c "var")) []
  · exact ordered_insert_all_sorted _ [] List.sorted_nil
  · have hv : none ∉ feature_data (xmpp_stanza_get_children query) := by
      intro hm
      simp only [feature_data, List.mem_map] at hm
      obtain ⟨c, hc, hn⟩ := hm
      exact hvar c hc hn
    have := caps_sha1_input_eq env query hv (by simp [hforms])
      (by intro c1 h1; simp [hforms] at h1)
    rw [this, hforms]
    simp [declared_form_types, ordered_insert_all, concat_strings, append_empty_str]

/-- C2, witness: two identities and three features, one of them twice. -/
theorem caps_sha1_input_identities_features_witness :
    query_forms query_two_identities = [] ∧
    (∀ c ∈ query_features query_two_identities, xmpp_stanza_get_attribute c "var" ≠ none) ∧
    ∃ ids feats : List String,
      ids.Perm ["client/pc//Z<", "client/bot/en/A<"] ∧ ids.Sorted str_le ∧
      feats.Perm ["urn:b", "urn:a", "urn:b"] ∧ feats.Sorted str_le ∧
      caps_sha1_input (model_env none []) query_two_identities
        = some (concat_strings ids ++ concat_strings (feats.map lt_terminated)) := by
  have hvar : ∀ c ∈ query_features query_two_identities,
      xmpp_stanza_get_attribute c "var" ≠ none := by
    intro c hc
    have e : query_features query_two_identities
        = [feature_stanza "urn:b", feature_stanza "urn:a", feature_stanza "urn:b"] := rfl
    rw [e] at hc
    simp only [List.mem_cons, List.mem_singleton, List.not_mem_nil, or_false] at hc
    rcases hc with rfl | rfl | rfl <;> decide
  exact ⟨rfl, hvar,
    (caps_sha1_input_identities_features (model_env none [])).1 query_two_identities rfl hvar⟩

/-! ## C3: the data forms -/

theorem g_strcmp0_total (a b : Option String) : g_strcmp0 a b ≤ 0 ∨ g_strcmp0 b a ≤ 0 := by
  cases a <;> cases b <;> simp [g_strcmp0]
  exact str_le_total.total _ _

theorem g_strcmp0_trans (a b c : Option String) :
    g_strcmp0 a b ≤ 0 → g_strcmp0 b c ≤ 0 → g_strcmp0 a c ≤ 0 := by
  cases a <;> cases b <;> cases c <;> simp [g_strcmp0]
  exact str_le_trans.trans _ _ _

/-- Ascending order of fields by their identifier. -/
instance field_le_total : IsTotal FormField (fun a b => g_strcmp0 a.var b.var ≤ 0) where
  total a b := g_strcmp0_total a.var b.var

instance field_le_trans : IsTrans FormField (fun a b => g_strcmp0 a.var b.var ≤ 0) where
  trans a b c := g_strcmp0_trans a.var b.var c.var

theorem identity_data_without_forms (cs : List Stanza) :
    identity_data (cs.filter (fun c => !is_data_form c)) = identity_data cs := by
  unfold identity_data
  rw [List.filter_filter]
  congr 1
  apply List.filter_congr
  intro c _
  by_cases h : xmpp_stanza_get_name c = some STANZA_NAME_IDENTITY
  · have hix : STANZA_NAME_IDENTITY ≠ STANZA_NAME_X := by decide
    simp [is_data_form, h, hix]
  · simp [h]

theorem feature_data_without_forms (cs : List Stanza) :
    feature_data (cs.filter (fun c => !is_data_form c)) = feature_data cs := by
  unfold feature_data
  rw [List.filter_filter]
  congr 1
  apply List.filter_congr
  intro c _
  by_cases h : xmpp_stanza_get_name c = some STANZA_NAME_FEATURE
  · have hfx : STANZA_NAME_FEATURE ≠ STANZA_NAME_X := by decide
    simp [is_data_form, h, hfx]
  · simp [h]

theorem forms_without_forms (cs : List Stanza) :
    (cs.filter (fun c => !is_data_form c)).filter is_data_form = [] := by
  rw [List.filter_filter]
  simp

theorem same_type_same_form_of_nodup {env : Env} {forms : List Stanza}
    (h : (forms.map (declared_form_type env)).Nodup) : same_type_same_form env forms := by
  intro c1 h1 c2 h2 hd
  rw [List.inj_on_of_nodup_map h h1 h2 hd]

/-- C3: for every query whose data forms all parse and carry pairwise distinct `FORM_TYPE`
values, the canonical string is the canonical string of the query without its data forms
(identities, then features) followed, for each `FORM_TYPE` value in ascending order, by the
serialisation of the form that declares it: the `FORM_TYPE` value and `<`, then for every
other field in ascending order of its `var` the `var` and `<`, then the values of the field
in ascending order, each followed by `<`. -/
theorem caps_sha1_input_forms (env : Env) (query : Stanza)
    (hparse : ∀ c ∈ query_forms query, declared_form_type env c ≠ none)
    (hdistinct : ((query_forms query).map (declared_form_type env)).Nodup) :
    (∃ types : List String,
      types.Perm (declared_form_types env (query_forms query)) ∧ types.Sorted str_le ∧
      caps_sha1_input env query = (caps_sha1_input env (query_without_forms query)).map
        (fun s => s ++ concat_strings (types.map (spec_form_of_type_str env (query_forms query))))) ∧
    (∀ c ∈ query_forms query, ∀ form k, env.form_create c = some form →
      form_get_form_type_field form = some k →
      spec_form_of_type_str env (query_forms query) k
        = lt_terminated k ++
          concat_strings ((form_get_non_form_type_fields_sorted form).map
            (fun field => lt_terminated (field.var.getD "") ++
              concat_strings ((form_get_field_values_sorted field).map lt_terminated)))) ∧
    (∀ form : DataForm,
      (form_get_non_form_type_fields_sorted form).Perm
        (form.fields.filter (fun f => !(f.var == some "FORM_TYPE"))) ∧
      (form_get_non_form_type_fields_sorted form).Sorted (fun a b => g_strcmp0 a.var b.var ≤ 0)) ∧
    (∀ field : FormField,
      (form_get_field_values_sorted field).Perm field.values ∧
      (form_get_field_values_sorted field).Sorted str_le) := by
  have hU := same_type_same_form_of_nodup hdistinct
  refine ⟨⟨ordered_insert_all [] (declared_form_types env (query_forms query)), ?_, ?_, ?_⟩,
    ?_, ?_, ?_⟩
  · simpa using ordered_insert_all_perm (declared_form_types env (query_forms query)) []
  · exact ordered_insert_all_sorted _ [] List.sorted_nil
  · obtain ⟨T, hs, ha⟩ := forms_part env (query_forms query) hparse hU
    have hs' : scan_forms env ((xmpp_stanza_get_children query).filter is_data_form)
        ([], g_hash_table_new) = _ := hs
    have hc : xmpp_stanza_get_children (query_without_forms query)
        = (xmpp_stanza_get_children query).filter (fun c => !is_data_form c) := by
      cases query <;> rfl
    rw [caps_sha1_input_split, caps_sha1_input_split, hs', hc, identity_data_without_forms,
      feature_data_without_forms, forms_without_forms]
    cases insert_all_sorted [] (identity_data (xmpp_stanza_get_children query)) with
    | none => rfl
    | some ids =>
      cases insert_all_sorted [] (feature_data (xmpp_stanza_get_children query)) with
      | none => rfl
      | some feats => simp [combine_lists, scan_forms, caps_append_forms, ha]
  · intro c hc form k hf hk
    have hd : declared_form_type env c = some k := by simp [declared_form_type, hf, hk]
    unfold spec_form_of_type_str
    rw [form_of_type_of_mem hU hc hd, hf]
    simp only [spec_form_str, hk, Option.getD_some]
    rfl
  · intro form
    exact ⟨List.perm_insertionSort _ _, List.sorted_insertionSort _ _⟩
  · intro field
    exact ⟨List.perm_insertionSort _ _, List.sorted_insertionSort str_le _⟩

/-- C3, witness: a query with a feature and the two data forms `u` and `t`. -/
theorem caps_sha1_input_forms_witness :
    (∀ c ∈ query_forms (.tag "query" [] [form_u, feature_stanza "f", form_t_a]),
      declared_form_type (model_env none []) c ≠ none) ∧
    ((query_forms (.tag "query" [] [form_u, feature_stanza "f", form_t_a])).map
      (declared_form_type (model_env none []))).Nodup ∧
    (∃ types : List String, types.Perm ["u", "t"] ∧ types.Sorted str_le ∧
      caps_sha1_input (model_env none []) (.tag "query" [] [form_u, feature_stanza "f", form_t_a])
        = (some "f<").map (fun s => s ++ concat_strings (types.map
            (spec_form_of_type_str (model_env none []) [form_u, form_t_a])))) ∧
    caps_sha1_input (model_env none []) (.tag "query" [] [form_u, feature_stanza "f", form_t_a])
      = some "f<t<a<1<u<c<x<y<z<" := by
  have hparse : ∀ c ∈ query_forms (.tag "query" [] [form_u, feature_stanza "f", form_t_a]),
      declared_form_type (model_env none []) c ≠ none := by
    intro c hc
    have e : query_forms (.tag "query" [] [form_u, feature_stanza "f", form_t_a])
        = [form_u, form_t_a] := rfl
    rw [e] at hc
    simp only [List.mem_cons, List.mem_singleton, List.not_mem_nil, or_false] at hc
    rcases hc with rfl | rfl <;> decide
  have hdistinct : ((query_forms (.tag "query" [] [form_u, feature_stanza "f", form_t_a])).map
      (declared_form_type (model_env none []))).Nodup := by decide
  exact ⟨hparse, hdistinct,
    (caps_sha1_input_forms (model_env none []) _ hparse hdistinct).1, by decide⟩

/-! ## C4: what the canonical string determines -/

theorem split_at_sep (sep : Char) : ∀ (x y r r' : List Char), sep ∉ x → sep ∉ y →
    x ++ sep :: r = y ++ sep :: r' → x = y ∧ r = r'
  | [], [], r, r', _, _, h => by simpa using h
  | [], b :: y, r, r', _, hy, h => by
    simp only [List.nil_append, List.cons_append, List.cons.injEq] at h
    exact absurd (h.1 ▸ List.mem_cons_self _ _) hy
  | a :: x, [], r, r', hx, _, h => by
    simp only [List.nil_append, List.cons_append, List.cons.injEq] at h
    exact absurd (h.1 ▸ List.mem_cons_self _ _) hx
  | a :: x, b :: y, r, r', hx, hy, h => by
    simp only [List.cons_append, List.cons.injEq] at h
    have hx' : sep ∉ x := fun hm => hx (List.mem_cons_of_mem _ hm)
    have hy' : sep ∉ y := fun hm => hy (List.mem_cons_of_mem _ hm)
    obtain ⟨e1, e2⟩ := split_at_sep sep x y r r' hx' hy' h.2
    exact ⟨by rw [h.1, e1], e2⟩

theorem concat_strings_append (l1 l2 : List String) :
    concat_strings (l1 ++ l2) = concat_strings l1 ++ concat_strings l2 := by
  induction l1 with
  | nil => simp [concat_strings, empty_append_str]
  | cons a l ih => simp [concat_strings, ih, String.append_assoc]

/-- A concatenation of segments determines the segments. -/
theorem segments_unique : ∀ (l1 l2 : List String), (∀ s ∈ l1, is_segment s) →
    (∀ s ∈ l2, is_segment s) → concat_strings l1 = concat_strings l2 → l1 = l2
  | [], [], _, _, _ => rfl
  | [], s :: l2, _, h2, h => by
    obtain ⟨b, hb, _⟩ := h2 s (List.mem_cons_self _ _)
    have := congrArg String.data h
    simp [concat_strings, hb, lt_terminated, String.data_append] at this
  | s :: l1, [], h1, _, h => by
    obtain ⟨b, hb, _⟩ := h1 s (List.mem_cons_self _ _)
    have := congrArg String.data h
    simp [concat_strings, hb, lt_terminated, String.data_append] at this
  | s1 :: l1, s2 :: l2, h1, h2, h => by
    obtain ⟨b1, hb1, hf1⟩ := h1 s1 (List.mem_cons_self _ _)
    obtain ⟨b2, hb2, hf2⟩ := h2 s2 (List.mem_cons_self _ _)
    have hd := congrArg String.data h
    simp only [concat_strings, hb1, hb2, lt_terminated, String.data_append] at hd
    have hd' : b1.data ++ '<' :: (concat_strings l1).data
        = b2.data ++ '<' :: (concat_strings l2).data := by
      simpa using hd
    obtain ⟨e1, e2⟩ := split_at_sep '<' _ _ _ _ hf1 hf2 hd'
    have eb : b1 = b2 := String.ext e1
    have ih := segments_unique l1 l2 (fun s hs => h1 s (List.mem_cons_of_mem _ hs))
      (fun s hs => h2 s (List.mem_cons_of_mem _ hs)) (String.ext e2)
    rw [hb1, hb2, eb, ih]

theorem lt_terminated_injective : Function.Injective lt_terminated := by
  intro a b h
  have hd := congrArg String.data h
  simp only [lt_terminated, String.data_append] at hd
  exact String.ext (List.append_cancel_right hd)

theorem free_of_append {ch : Char} {a b : String} (ha : free_of ch a) (hb : free_of ch b) :
    free_of ch (a ++ b) := by
  unfold free_of at *
  simp [String.data_append, ha, hb]

theorem identity_tuple_str_segment (t : String × String × String × String)
    (h : delimiter_free t) : is_segment (identity_tuple_str t) := by
  obtain ⟨h1, h2, h3, h4, _, _, _⟩ := h
  refine ⟨t.1 ++ "/" ++ t.2.1 ++ "/" ++ t.2.2.1 ++ "/" ++ t.2.2.2, rfl, ?_⟩
  have hs : free_of '<' "/" := by decide
  exact free_of_append (free_of_append (free_of_append (free_of_append (free_of_append
    (free_of_append h1 hs) h2) hs) h3) hs) h4

theorem identity_tuple_str_injective (t u : String × String × String × String)
    (ht : delimiter_free t) (hu : delimiter_free u)
    (h : identity_tuple_str t = identity_tuple_str u) : t = u := by
  obtain ⟨t1, t2, t3, t4⟩ := t
  obtain ⟨u1, u2, u3, u4⟩ := u
  obtain ⟨_, _, _, _, a1, a2, a3⟩ := ht
  obtain ⟨_, _, _, _, b1, b2, b3⟩ := hu
  have hd := congrArg String.data h
  simp only [identity_tuple_str, String.data_append, List.append_assoc] at hd
  have s : "/".data = ['/'] := rfl
  have l : "<".data = ['<'] := rfl
  simp only [s, l, List.singleton_append] at hd
  obtain ⟨e1, r1⟩ := split_at_sep '/' _ _ _ _ a1 b1 hd
  obtain ⟨e2, r2⟩ := split_at_sep '/' _ _ _ _ a2 b2 r1
  obtain ⟨e3, r3⟩ := split_at_sep '/' _ _ _ _ a3 b3 r2
  have e4 : t4.data = u4.data := List.append_cancel_right r3
  simp only at e1 e2 e3 e4
  rw [String.ext e1, String.ext e2, String.ext e3, String.ext e4]

/-- Lists whose images under a map that is injective on their elements are permutations of
each other are permutations of each other. -/
theorem perm_of_map_perm {α β : Type} [DecidableEq α] (f : α → β) :
    ∀ (l1 l2 : List α), (∀ x ∈ l1, ∀ y ∈ l2, f x = f y → x = y) →
    (l1.map f).Perm (l2.map f) → l1.Perm l2
  | [], l2, _, h => by
    have : l2.map f = [] := List.Perm.nil_eq h ▸ rfl
    have : l2 = [] := by simpa using this
    rw [this]
  | a :: l1, l2, hinj, h => by
    have hmem : f a ∈ l2.map f := h.mem_iff.mp (by simp)
    obtain ⟨b, hb, hfb⟩ := List.mem_map.mp hmem
    have hab : a = b := hinj a (List.mem_cons_self _ _) b hb hfb.symm
    subst hab
    have hp2 : l2.Perm (a :: l2.erase a) := List.perm_cons_erase hb
    have h3 : (f a :: l1.map f).Perm (f a :: (l2.erase a).map f) := by
      have := h.trans (hp2.map f)
      simpa using this
    have h4 : (l1.map f).Perm ((l2.erase a).map f) := h3.cons_inv
    have ih := perm_of_map_perm f l1 (l2.erase a)
      (fun x hx y hy => hinj x (List.mem_cons_of_mem _ hx) y (List.mem_of_mem_erase hy)) h4
    exact (ih.cons a).trans hp2.symm

theorem spec_identity_str_eq_tuple (c : Stanza) :
    spec_identity_str c = identity_tuple_str (identity_tuple c) := rfl

/-! ## C4: what the canonical string determines -/

/-- The canonical string of a query without data forms whose features all have a `var`. -/
theorem caps_sha1_input_no_forms (env : Env) (query : Stanza) (hforms : query_forms query = [])
    (hvar : ∀ c ∈ query_features query, xmpp_stanza_get_attribute c "var" ≠ none) :
    caps_sha1_input env query = some (
      concat_strings ((ordered_insert_all [] ((query_identities query).map spec_identity_str)) ++
        (ordered_insert_all [] (query_feature_vars query)).map lt_terminated)) := by
  have hv : none ∉ feature_data (xmpp_stanza_get_children query) := by
    intro hm
    simp only [feature_data, List.mem_map] at hm
    obtain ⟨c, hc, hn⟩ := hm
    exact hvar c hc hn
  have := caps_sha1_input_eq env query hv (by simp [hforms])
    (by intro c1 h1; simp [hforms] at h1)
  rw [this, hforms, concat_strings_append]
  simp [declared_form_types, ordered_insert_all, concat_strings, append_empty_str,
    query_feature_vars]

theorem mem_query_feature_vars {query : Stanza} {v : String} (h : v ∈ query_feature_vars query) :
    ∃ c ∈ query_features query, xmpp_stanza_get_attribute c "var" = some v := by
  simpa [query_feature_vars, List.mem_filterMap] using h

/-- C4 (as amended): for two queries without data forms that have the same number of
identity children, whose feature children all have a `var` without the terminator `<`, and
whose identities have no `<` in category, type, xml:lang and name and no `/` in category,
type and xml:lang: when `caps_create_sha1_str` builds the same canonical string for both,
the two queries have the same identities (as collections of category, type, xml:lang and
name, ignoring order) and the same feature `var` values (as collections, ignoring order). -/
theorem caps_sha1_input_injective (env : Env) (q1 q2 : Stanza)
    (hf1 : query_forms q1 = []) (hf2 : query_forms q2 = [])
    (hv1 : ∀ c ∈ query_features q1, xmpp_stanza_get_attribute c "var" ≠ none)
    (hv2 : ∀ c ∈ query_features q2, xmpp_stanza_get_attribute c "var" ≠ none)
    (hc1 : ∀ v ∈ query_feature_vars q1, free_of '<' v)
    (hc2 : ∀ v ∈ query_feature_vars q2, free_of '<' v)
    (hi1 : ∀ c ∈ query_identities q1, delimiter_free (identity_tuple c))
    (hi2 : ∀ c ∈ query_identities q2, delimiter_free (identity_tuple c))
    (hlen : (query_identities q1).length = (query_identities q2).length)
    (h : caps_sha1_input env q1 = caps_sha1_input env q2) :
    ((query_identities q1).map identity_tuple).Perm ((query_identities q2).map identity_tuple) ∧
    (query_feature_vars q1).Perm (query_feature_vars q2) := by
  rw [caps_sha1_input_no_forms env q1 hf1 hv1, caps_sha1_input_no_forms env q2 hf2 hv2] at h
  have h := Option.some.inj h
  have pI1 := ordered_insert_all_perm ((query_identities q1).map spec_identity_str) []
  have pI2 := ordered_insert_all_perm ((query_identities q2).map spec_identity_str) []
  have pF1 := ordered_insert_all_perm (query_feature_vars q1) []
  have pF2 := ordered_insert_all_perm (query_feature_vars q2) []
  simp only [List.nil_append] at pI1 pI2 pF1 pF2
  have seg : ∀ (q : Stanza), (∀ v ∈ query_feature_vars q, free_of '<' v) →
      (∀ c ∈ query_identities q, delimiter_free (identity_tuple c)) →
      ∀ s ∈ (ordered_insert_all [] ((query_identities q).map spec_identity_str)) ++
        (ordered_insert_all [] (query_feature_vars q)).map lt_terminated, is_segment s := by
    intro q hc hi s hs
    rcases List.mem_append.mp hs with hs | hs
    · have hs' := (ordered_insert_all_perm ((query_identities q).map spec_identity_str) []).mem_iff.mp hs
      simp only [List.nil_append, List.mem_map] at hs'
      obtain ⟨c, hcm, rfl⟩ := hs'
      rw [spec_identity_str_eq_tuple]
      exact identity_tuple_str_segment _ (hi c hcm)
    · obtain ⟨v, hvm, rfl⟩ := List.mem_map.mp hs
      have hv' := (ordered_insert_all_perm (query_feature_vars q) []).mem_iff.mp hvm
      simp only [List.nil_append] at hv'
      exact ⟨v, rfl, hc v hv'⟩
  have e := segments_unique _ _ (seg q1 hc1 hi1) (seg q2 hc2 hi2) h
  have hl : (ordered_insert_all [] ((query_identities q1).map spec_identity_str)).length
      = (ordered_insert_all [] ((query_identities q2).map spec_identity_str)).length := by
    rw [pI1.length_eq, pI2.length_eq, List.length_map, List.length_map, hlen]
  obtain ⟨eI, eF⟩ := List.append_inj e hl
  constructor
  · have p : ((query_identities q1).map spec_identity_str).Perm
        ((query_identities q2).map spec_identity_str) := pI1.symm.trans (eI ▸ pI2)
    have e1 : ∀ l : List Stanza, l.map spec_identity_str
        = (l.map identity_tuple).map identity_tuple_str := by
      intro l; simp [List.map_map, Function.comp_def, spec_identity_str_eq_tuple]
    rw [e1, e1] at p
    refine perm_of_map_perm identity_tuple_str _ _ ?_ p
    intro x hx y hy hxy
    obtain ⟨c, hcm, rfl⟩ := List.mem_map.mp hx
    obtain ⟨d, hdm, rfl⟩ := List.mem_map.mp hy
    exact identity_tuple_str_injective _ _ (hi1 c hcm) (hi2 d hdm) hxy
  · have eF' := List.map_injective_iff.mpr lt_terminated_injective eF
    exact pF1.symm.trans (eF' ▸ pF2)

/-- C4, witness: `query_two_identities` and the same children in another order. -/
theorem caps_sha1_input_injective_witness :
    caps_sha1_input (model_env none []) query_two_identities
      = caps_sha1_input (model_env none []) query_two_identities_reordered ∧
    ((query_identities query_two_identities).map identity_tuple).Perm
      ((query_identities query_two_identities_reordered).map identity_tuple) ∧
    (query_feature_vars query_two_identities).Perm
      (query_feature_vars query_two_identities_reordered) :=
  ⟨by decide,
   caps_sha1_input_injective (model_env none []) query_two_identities
    query_two_identities_reordered rfl rfl
    (by
      intro c hc
      have e : query_features query_two_identities
          = [feature_stanza "urn:b", feature_stanza "urn:a", feature_stanza "urn:b"] := rfl
      rw [e] at hc
      simp only [List.mem_cons, List.mem_singleton, List.not_mem_nil, or_false] at hc
      rcases hc with rfl | rfl | rfl <;> decide)
    (by
      intro c hc
      have e : query_features query_two_identities_reordered
          = [feature_stanza "urn:a", feature_stanza "urn:b", feature_stanza "urn:b"] := rfl
      rw [e] at hc
      simp only [List.mem_cons, List.mem_singleton, List.not_mem_nil, or_false] at hc
      rcases hc with rfl | rfl | rfl <;> decide)
    (by decide) (by decide)
    (by
      intro c hc
      have e : query_identities query_two_identities
          = [.tag "identity" [("category", "client"), ("type", "pc"), ("name", "Z")] [],
             .tag "identity" [("category", "client"), ("type", "bot"), ("xml:lang", "en"),
               ("name", "A")] []] := rfl
      rw [e] at hc
      simp only [List.mem_cons, List.mem_singleton, List.not_mem_nil, or_false] at hc
      rcases hc with rfl | rfl <;> decide)
    (by
      intro c hc
      have e : query_identities query_two_identities_reordered
          = [.tag "identity" [("category", "client"), ("type", "bot"), ("xml:lang", "en"),
               ("name", "A")] [],
             .tag "identity" [("category", "client"), ("type", "pc"), ("name", "Z")] []] := rfl
      rw [e] at hc
      simp only [List.mem_cons, List.mem_singleton, List.not_mem_nil, or_false] at hc
      rcases hc with rfl | rfl <;> decide)
    rfl (by decide)⟩

/-- C4, counterexample: an identity (a, b, c, d) and a feature `a/b/c/d` give the same
canonical string `a/b/c/d<`, and so do the feature `a<b` and the two features `a`, `b`
(`a<b<`), although the identities and the features of the queries differ. -/
theorem caps_sha1_input_collision_counterexample :
    caps_sha1_input (model_env none []) query_identity_abcd = some "a/b/c/d<" ∧
    caps_sha1_input (model_env none []) query_feature_abcd = some "a/b/c/d<" ∧
    (query_identities query_identity_abcd).length = 1 ∧
    (query_identities query_feature_abcd).length = 0 ∧
    query_feature_vars query_identity_abcd = [] ∧
    query_feature_vars query_feature_abcd = ["a/b/c/d"] ∧
    caps_sha1_input (model_env none []) (.tag "query" [] [feature_stanza "a<b"]) = some "a<b<" ∧
    caps_sha1_input (model_env none []) (.tag "query" [] [feature_stanza "a", feature_stanza "b"])
      = some "a<b<" ∧
    query_feature_vars (.tag "query" [] [feature_stanza "a<b"]) = ["a<b"] ∧
    query_feature_vars (.tag "query" [] [feature_stanza "a", feature_stanza "b"]) = ["a", "b"] ∧
    ¬ (["a<b"] : List String).Perm ["a", "b"] :=
  ⟨by decide, by decide, rfl, rfl, by decide, by decide, by decide, by decide, by decide,
    by decide, by decide⟩

/-! ## C5: lookup by peer -/

/-- C5: for every cache state and every peer address `p`, `_caps_lookup` returns `NULL`
(not found) when `p` has no fingerprint mapping, returns `NULL` when `p` maps to a
fingerprint without a stored record, and returns a record exactly when `p` maps to a
fingerprint under which that record is stored; the function is total, its only outcomes
are a record or `NULL`. -/
theorem caps_lookup_by_peer (cache : CapsCache) (p : String) :
    (g_hash_table_lookup cache.jid_lookup p = none → _caps_lookup cache p = none) ∧
    (∀ v, g_hash_table_lookup cache.jid_lookup p = some v →
      g_hash_table_lookup cache.capabilities v = none → _caps_lookup cache p = none) ∧
    (∀ c, _caps_lookup cache p = some c ↔
      ∃ v, g_hash_table_lookup cache.jid_lookup p = some v ∧
        g_hash_table_lookup cache.capabilities v = some c) := by
  refine ⟨?_, ?_, ?_⟩
  · intro h
    simp [_caps_lookup, h]
  · intro v h1 h2
    simp [_caps_lookup, h1, h2]
  · intro c
    unfold _caps_lookup
    cases h1 : g_hash_table_lookup cache.jid_lookup p with
    | none => simp
    | some v =>
      cases h2 : g_hash_table_lookup cache.capabilities v with
      | none => simp [h2]
      | some c' => simp [h2]

/-! ## `_chat_handler` -/

/-- With the type `chat` or no type, `_chat_handler` passes its type check. -/
theorem chat_handler_of_type (env : Env) (stanza : Stanza)
    (htype : xmpp_stanza_get_type stanza = some "chat" ∨ xmpp_stanza_get_type stanza = none) :
    _chat_handler env stanza =
      match xmpp_stanza_get_child_by_ns stanza STANZA_NS_CARBONS with
      | some carbons =>
        if g_strcmp0 (xmpp_stanza_get_name carbons) (some "received") = 0 ||
            g_strcmp0 (xmpp_stanza_get_name carbons) (some "sent") = 0 then
          chat_handler_carbon env carbons
        else chat_handler_direct env stanza
      | none => chat_handler_direct env stanza := by
  unfold _chat_handler
  have h : (!(decide (g_strcmp0 (xmpp_stanza_get_type stanza) (some "chat") = 0) ||
      (xmpp_stanza_get_type stanza).isNone)) = false := by
    rcases htype with h | h <;> rw [h] <;> decide
  simp only [h, Bool.false_eq_true, if_false]

/-- C6 (as amended): for every message stanza of type chat or without a type that has a
child in the muc#user, legacy-conference or captcha namespace and whose first child in the
carbons namespace, if there is one, is named neither `received` nor `sent`,
`_chat_handler` declines it: it returns 1 and makes no call at all, so it emits no
incoming, delayed or private message event, no carbon event, no chat-state event and
sends no receipt. -/
theorem chat_handler_declines (env : Env) (stanza : Stanza)
    (htype : xmpp_stanza_get_type stanza = some "chat" ∨ xmpp_stanza_get_type stanza = none)
    (hns : (xmpp_stanza_get_child_by_ns stanza STANZA_NS_MUC_USER).isSome = true ∨
      (xmpp_stanza_get_child_by_ns stanza STANZA_NS_CONFERENCE).isSome = true ∨
      (xmpp_stanza_get_child_by_ns stanza STANZA_NS_CAPTCHA).isSome = true)
    (hcarbon : ∀ carbons, xmpp_stanza_get_child_by_ns stanza STANZA_NS_CARBONS = some carbons →
      xmpp_stanza_get_name carbons ≠ some "received" ∧
      xmpp_stanza_get_name carbons ≠ some "sent") :
    _chat_handler env stanza = some ⟨[], 1⟩ := by
  have hd : chat_handler_direct env stanza = some ⟨[], 1⟩ := by
    unfold chat_handler_direct
    have : ((xmpp_stanza_get_child_by_ns stanza STANZA_NS_CONFERENCE).isSome ||
        (xmpp_stanza_get_child_by_ns stanza STANZA_NS_MUC_USER).isSome ||
        (xmpp_stanza_get_child_by_ns stanza STANZA_NS_CAPTCHA).isSome) = true := by
      rcases hns with h | h | h <;> simp [h]
    simp only [this, if_true]
  rw [chat_handler_of_type env stanza htype]
  cases hc : xmpp_stanza_get_child_by_ns stanza STANZA_NS_CARBONS with
  | none => exact hd
  | some carbons =>
    obtain ⟨h1, h2⟩ := hcarbon carbons hc
    have e1 : ¬ g_strcmp0 (xmpp_stanza_get_name carbons) (some "received") = 0 :=
      fun h => h1 ((g_strcmp0_eq_zero _ _).mp h)
    have e2 : ¬ g_strcmp0 (xmpp_stanza_get_name carbons) (some "sent") = 0 :=
      fun h => h2 ((g_strcmp0_eq_zero _ _).mp h)
    simp only [e1, e2, decide_False, Bool.or_self, Bool.false_eq_true, if_false]
    exact hd

/-- C6, witness: a mediated invite without a type, with a body. -/
theorem chat_handler_declines_witness :
    xmpp_stanza_get_type mediated_invite_message = none ∧
    (xmpp_stanza_get_child_by_ns mediated_invite_message STANZA_NS_MUC_USER).isSome = true ∧
    xmpp_stanza_get_child_by_ns mediated_invite_message STANZA_NS_CARBONS = none ∧
    _chat_handler (model_env (some "a@x/res") []) mediated_invite_message = some ⟨[], 1⟩ :=
  ⟨rfl, rfl, rfl,
   chat_handler_declines (model_env (some "a@x/res") []) mediated_invite_message
    (Or.inr rfl) (Or.inl rfl)
    (by
      intro carbons hc
      have e : xmpp_stanza_get_child_by_ns mediated_invite_message STANZA_NS_CARBONS = none :=
        rfl
      rw [e] at hc
      cases hc)⟩

/-- C6, counterexample: a stanza of type chat with a child in the muc#user namespace that
also carries a `received` carbon is not declined: the handler emits an incoming-message
event for the forwarded message. -/
theorem chat_handler_declines_counterexample :
    xmpp_stanza_get_type carbon_with_muc_user = some "chat" ∧
    (xmpp_stanza_get_child_by_ns carbon_with_muc_user STANZA_NS_MUC_USER).isSome = true ∧
    _chat_handler (model_env (some "a@x/res") []) carbon_with_muc_user
      = some ⟨[Event.sv_ev_incoming_message "b@y" (some "r") "hi"], 1⟩ :=
  ⟨rfl, rfl, rfl⟩

/-- C7 (as amended): for every direct one-to-one chat stanza (type chat or none, no child in
the carbons namespace, no child in a claimed namespace, a sender address that parses, has
a resource part and a full address and is not a joined room) that carries no delay stamp
and contains both a composing child and a paused child and no gone child, `_chat_handler`
returns and emits exactly one chat-state event, the typing (composing) event for the bare
address and the resource of the sender. -/
theorem chat_handler_composing_and_paused (env : Env) (stanza : Stanza) (jid : Jid)
    (resource : String)
    (htype : xmpp_stanza_get_type stanza = some "chat" ∨ xmpp_stanza_get_type stanza = none)
    (hcarbon : xmpp_stanza_get_child_by_ns stanza STANZA_NS_CARBONS = none)
    (hconf : xmpp_stanza_get_child_by_ns stanza STANZA_NS_CONFERENCE = none)
    (hmuc : xmpp_stanza_get_child_by_ns stanza STANZA_NS_MUC_USER = none)
    (hcaptcha : xmpp_stanza_get_child_by_ns stanza STANZA_NS_CAPTCHA = none)
    (hjid : env.jid_create (xmpp_stanza_get_attribute stanza STANZA_ATTR_FROM) = some jid)
    (hroom : env.muc_active jid.barejid = false)
    (hdelay : env.stanza_get_delay stanza = none)
    (hres : jid.resourcepart = some resource)
    (hfull : jid.fulljid ≠ none)
    (hcomposing : xmpp_stanza_get_child_by_name stanza STANZA_NAME_COMPOSING ≠ none)
    (_hpaused : xmpp_stanza_get_child_by_name stanza STANZA_NAME_PAUSED ≠ none)
    (hgone : xmpp_stanza_get_child_by_name stanza STANZA_NAME_GONE = none) :
    ∃ out, _chat_handler env stanza = some out ∧ out.result = 1 ∧
      out.events.filter is_chat_state_event
        = [Event.sv_ev_typing jid.barejid (some resource)] := by
  have hstates : chat_handler_states env stanza jid none
      = [Event.sv_ev_typing jid.barejid (some resource)] := by
    obtain ⟨c, hc⟩ := Option.ne_none_iff_exists'.mp hcomposing
    simp [chat_handler_states, hres, hgone, hc]
  have hreceipt : ∃ sent, _receipt_request_handler env stanza = some sent ∧
      sent.filter is_chat_state_event = [] := by
    unfold _receipt_request_handler
    by_cases hp : env.prefs_receipts_send = true
    swap
    · exact ⟨[], by simp [hp], rfl⟩
    cases hid : xmpp_stanza_get_id stanza with
    | none => exact ⟨[], by simp [hp], rfl⟩
    | some id =>
      dsimp only
      cases hr : xmpp_stanza_get_child_by_ns stanza STANZA_NS_RECEIPTS with
      | none => exact ⟨[], by simp [hp], rfl⟩
      | some receipts =>
        by_cases hn : g_strcmp0 (xmpp_stanza_get_name receipts) (some "request") = 0
        swap
        · exact ⟨[], by simp [hp, hn], rfl⟩
        obtain ⟨full, hf⟩ := Option.ne_none_iff_exists'.mp hfull
        refine ⟨_, by simp only [hp, hn, hjid, hf, _message_send_receipt]; simp; rfl, ?_⟩
        simp [is_chat_state_event]
  have hbody : ∃ evs, chat_handler_body env stanza jid none = some evs ∧
      evs.filter is_chat_state_event = [] := by
    unfold chat_handler_body
    cases hb : xmpp_stanza_get_child_by_name stanza STANZA_NAME_BODY with
    | none => exact ⟨[], rfl, rfl⟩
    | some body =>
      dsimp only
      cases ht : xmpp_stanza_get_text body with
      | none => exact ⟨[], rfl, rfl⟩
      | some message =>
        obtain ⟨sent, hs, hsf⟩ := hreceipt
        simp only [hs]
        refine ⟨_, rfl, ?_⟩
        rw [List.filter_append, hsf, List.append_nil]
        split
        · split
          · split <;> rfl
          · rfl
        · rfl
  obtain ⟨evs, he, hef⟩ := hbody
  refine ⟨⟨evs ++ chat_handler_states env stanza jid none, 1⟩, ?_, rfl, ?_⟩
  · rw [chat_handler_of_type env stanza htype, hcarbon]
    simp only [chat_handler_direct, hconf, hmuc, hcaptcha, hjid, hroom, hdelay, he,
      Option.isSome_none, Bool.or_self, Bool.false_eq_true, if_false]
  · simp only [List.filter_append, hef, List.nil_append, hstates]
    rfl

/-- C7, witness: a chat message from `b@y/r` with a composing and a paused child. -/
theorem chat_handler_composing_and_paused_witness :
    xmpp_stanza_get_child_by_name (composing_paused_message "b@y/r") STANZA_NAME_COMPOSING
      ≠ none ∧
    xmpp_stanza_get_child_by_name (composing_paused_message "b@y/r") STANZA_NAME_PAUSED
      ≠ none ∧
    ∃ out, _chat_handler (model_env (some "a@x/res") []) (composing_paused_message "b@y/r")
        = some out ∧ out.result = 1 ∧
      out.events.filter is_chat_state_event = [Event.sv_ev_typing "b@y" (some "r")] :=
  ⟨by simp [composing_paused_message, xmpp_stanza_get_child_by_name, xmpp_stanza_get_children,
      xmpp_stanza_get_name, STANZA_NAME_COMPOSING],
   by simp [composing_paused_message, xmpp_stanza_get_child_by_name, xmpp_stanza_get_children,
      xmpp_stanza_get_name, STANZA_NAME_PAUSED],
   chat_handler_composing_and_paused (model_env (some "a@x/res") [])
    (composing_paused_message "b@y/r") ⟨"b@y/r", "b@y", some "r", some "b@y/r"⟩ "r"
    (Or.inl rfl) rfl rfl rfl rfl rfl rfl rfl rfl (by simp)
    (by simp [composing_paused_message, xmpp_stanza_get_child_by_name, xmpp_stanza_get_children,
      xmpp_stanza_get_name, STANZA_NAME_COMPOSING])
    (by simp [composing_paused_message, xmpp_stanza_get_child_by_name, xmpp_stanza_get_children,
      xmpp_stanza_get_name, STANZA_NAME_PAUSED])
    rfl⟩

/-- C7, counterexample: the same stanza from the bare address `b@y` (no resource part) is a
direct one-to-one chat stanza with a composing and a paused child and no gone child, and
`_chat_handler` emits no event at all for it. -/
theorem chat_handler_composing_and_paused_counterexample :
    xmpp_stanza_get_type (composing_paused_message "b@y") = some "chat" ∧
    xmpp_stanza_get_child_by_ns (composing_paused_message "b@y") STANZA_NS_CARBONS = none ∧
    (xmpp_stanza_get_child_by_name (composing_paused_message "b@y") STANZA_NAME_COMPOSING).isSome
      = true ∧
    (xmpp_stanza_get_child_by_name (composing_paused_message "b@y") STANZA_NAME_PAUSED).isSome
      = true ∧
    (xmpp_stanza_get_child_by_name (composing_paused_message "b@y") STANZA_NAME_GONE).isSome
      = false ∧
    _chat_handler (model_env (some "a@x/res") []) (composing_paused_message "b@y")
      = some ⟨[], 1⟩ :=
  ⟨rfl, rfl, rfl, rfl, rfl, rfl⟩

/-- The carbon branch of `_chat_handler` for a forwarded message with a non-empty body, when
the three addresses parse. -/
theorem chat_handler_carbon_eq (env : Env) (stanza carbons forwarded message body : Stanza)
    (text : String) (jid_from jid_to my_jid : Jid)
    (htype : xmpp_stanza_get_type stanza = some "chat" ∨ xmpp_stanza_get_type stanza = none)
    (hcarbons : xmpp_stanza_get_child_by_ns stanza STANZA_NS_CARBONS = some carbons)
    (hname : xmpp_stanza_get_name carbons = some "received" ∨
      xmpp_stanza_get_name carbons = some "sent")
    (hforwarded : xmpp_stanza_get_child_by_ns carbons STANZA_NS_FORWARD = some forwarded)
    (hmessage : xmpp_stanza_get_child_by_name forwarded STANZA_NAME_MESSAGE = some message)
    (hbody : xmpp_stanza_get_child_by_name message STANZA_NAME_BODY = some body)
    (htext : xmpp_stanza_get_text body = some text)
    (hfrom : env.jid_create (xmpp_stanza_get_attribute message STANZA_ATTR_FROM) = some jid_from)
    (hto : env.jid_create (carbon_resolved_to message) = some jid_to)
    (hme : env.jid_create env.jabber_get_fulljid = some my_jid) :
    _chat_handler env stanza = some ⟨[
      if my_jid.barejid = jid_to.barejid then
        Event.sv_ev_incoming_message jid_from.barejid jid_from.resourcepart text
      else Event.sv_ev_carbon jid_to.barejid text], 1⟩ := by
  rw [chat_handler_of_type env stanza htype, hcarbons]
  have hn : (decide (g_strcmp0 (xmpp_stanza_get_name carbons) (some "received") = 0) ||
      decide (g_strcmp0 (xmpp_stanza_get_name carbons) (some "sent") = 0)) = true := by
    rcases hname with h | h <;> rw [h] <;> decide
  have hz : g_strcmp0 (some my_jid.barejid) (some jid_to.barejid) = 0
      ↔ my_jid.barejid = jid_to.barejid := by
    rw [g_strcmp0_eq_zero]
    exact ⟨fun h => Option.some.inj h, fun h => congrArg some h⟩
  unfold carbon_resolved_to at hto
  simp only [hn, if_true, chat_handler_carbon, hforwarded, hmessage, hbody, htext, hfrom, hme]
  cases hA : xmpp_stanza_get_attribute message STANZA_ATTR_TO with
  | none =>
    rw [hA] at hto
    have hto' : env.jid_create (xmpp_stanza_get_attribute message STANZA_ATTR_FROM)
        = some jid_to := hto
    rw [hfrom] at hto'
    have e : jid_from = jid_to := Option.some.inj hto'
    subst e
    simp only [hfrom]
    by_cases h : my_jid.barejid = jid_from.barejid
    · rw [if_pos (hz.mpr h), if_pos h]
    · have h' : ¬ g_strcmp0 (some my_jid.barejid) (some jid_from.barejid) = 0 :=
        fun e => h (hz.mp e)
      rw [if_neg h', if_neg h]
  | some t =>
    rw [hA] at hto
    have hto' : env.jid_create (some t) = some jid_to := hto
    simp only [hto']
    by_cases h : my_jid.barejid = jid_to.barejid
    · rw [if_pos (hz.mpr h), if_pos h]
    · have h' : ¬ g_strcmp0 (some my_jid.barejid) (some jid_to.barejid) = 0 :=
        fun e => h (hz.mp e)
      rw [if_neg h', if_neg h]

/-- C8: for every carbon-wrapped (`received` or `sent`) forwarded message with a non-empty
body and no `to` attribute whose `from` is the full address of the local account (an
address that `jid_create` parses), `_chat_handler` resolves `to` to `from` and emits
exactly one event, the incoming-message event whose sender is the bare address and the
resource of `from`, and no carbon event. -/
theorem chat_handler_self_carbon (env : Env) (stanza carbons forwarded message body : Stanza)
    (text from_ : String) (jid : Jid)
    (htype : xmpp_stanza_get_type stanza = some "chat" ∨ xmpp_stanza_get_type stanza = none)
    (hcarbons : xmpp_stanza_get_child_by_ns stanza STANZA_NS_CARBONS = some carbons)
    (hname : xmpp_stanza_get_name carbons = some "received" ∨
      xmpp_stanza_get_name carbons = some "sent")
    (hforwarded : xmpp_stanza_get_child_by_ns carbons STANZA_NS_FORWARD = some forwarded)
    (hmessage : xmpp_stanza_get_child_by_name forwarded STANZA_NAME_MESSAGE = some message)
    (hbody : xmpp_stanza_get_child_by_name message STANZA_NAME_BODY = some body)
    (htext : xmpp_stanza_get_text body = some text)
    (hto : xmpp_stanza_get_attribute message STANZA_ATTR_TO = none)
    (hfrom : xmpp_stanza_get_attribute message STANZA_ATTR_FROM = some from_)
    (hlocal : env.jabber_get_fulljid = some from_)
    (hjid : env.jid_create (some from_) = some jid) :
    carbon_resolved_to message = some from_ ∧
    _chat_handler env stanza
      = some ⟨[Event.sv_ev_incoming_message jid.barejid jid.resourcepart text], 1⟩ := by
  have hr : carbon_resolved_to message = some from_ := by
    simp only [carbon_resolved_to, hto, hfrom]
  refine ⟨hr, ?_⟩
  rw [chat_handler_carbon_eq env stanza carbons forwarded message body text jid jid jid htype
    hcarbons hname hforwarded hmessage hbody htext (by rw [hfrom, hjid]) (by rw [hr, hjid])
    (by rw [hlocal, hjid])]
  simp only [if_true]

/-- C8, witness: the carbon of a message from `a@x/res` without a `to`, the local account
being `a@x/res`, gives the incoming-message event with sender `a@x`. -/
theorem chat_handler_self_carbon_witness :
    xmpp_stanza_get_attribute (.tag "message" [("from", "a@x/res")] [body_stanza "hi"])
      STANZA_ATTR_TO = none ∧
    carbon_resolved_to (.tag "message" [("from", "a@x/res")] [body_stanza "hi"])
      = some "a@x/res" ∧
    _chat_handler (model_env (some "a@x/res") [])
        (carbon_message "received" [("from", "a@x/res")] "hi")
      = some ⟨[Event.sv_ev_incoming_message "a@x" (some "res") "hi"], 1⟩ :=
  ⟨rfl,
   chat_handler_self_carbon (model_env (some "a@x/res") [])
    (carbon_message "received" [("from", "a@x/res")] "hi")
    (carbon_stanza "received" [("from", "a@x/res")] "hi")
    (.tag "forwarded" [("xmlns", "urn:xmpp:forward:0")]
      [.tag "message" [("from", "a@x/res")] [body_stanza "hi"]])
    (.tag "message" [("from", "a@x/res")] [body_stanza "hi"])
    (body_stanza "hi") "hi" "a@x/res" ⟨"a@x/res", "a@x", some "res", some "a@x/res"⟩
    (Or.inl rfl) rfl (Or.inl rfl) rfl rfl rfl rfl rfl rfl rfl rfl⟩

/-- C9 (as amended): for every carbon-wrapped forwarded message with a non-empty body whose
addresses parse, `_chat_handler` emits exactly one event: the incoming-message event (bare
address and resource taken from the `from` of the forwarded message) exactly when the bare
address of the resolved `to` equals the bare address of the local account, and in every
other case the carbon event keyed by the bare address of the resolved `to`. -/
theorem chat_handler_carbon_dispatch (env : Env)
    (stanza carbons forwarded message body : Stanza)
    (text : String) (jid_from jid_to my_jid : Jid)
    (htype : xmpp_stanza_get_type stanza = some "chat" ∨ xmpp_stanza_get_type stanza = none)
    (hcarbons : xmpp_stanza_get_child_by_ns stanza STANZA_NS_CARBONS = some carbons)
    (hname : xmpp_stanza_get_name carbons = some "received" ∨
      xmpp_stanza_get_name carbons = some "sent")
    (hforwarded : xmpp_stanza_get_child_by_ns carbons STANZA_NS_FORWARD = some forwarded)
    (hmessage : xmpp_stanza_get_child_by_name forwarded STANZA_NAME_MESSAGE = some message)
    (hbody : xmpp_stanza_get_child_by_name message STANZA_NAME_BODY = some body)
    (htext : xmpp_stanza_get_text body = some text)
    (hfrom : env.jid_create (xmpp_stanza_get_attribute message STANZA_ATTR_FROM) = some jid_from)
    (hto : env.jid_create (carbon_resolved_to message) = some jid_to)
    (hme : env.jid_create env.jabber_get_fulljid = some my_jid) :
    (my_jid.barejid = jid_to.barejid →
      _chat_handler env stanza = some
        ⟨[Event.sv_ev_incoming_message jid_from.barejid jid_from.resourcepart text], 1⟩) ∧
    (my_jid.barejid ≠ jid_to.barejid →
      _chat_handler env stanza = some ⟨[Event.sv_ev_carbon jid_to.barejid text], 1⟩) := by
  have h := chat_handler_carbon_eq env stanza carbons forwarded message body text jid_from
    jid_to my_jid htype hcarbons hname hforwarded hmessage hbody htext hfrom hto hme
  constructor
  · intro e
    rw [h]
    simp only [e, if_true]
  · intro e
    rw [h]
    simp only [e, if_false]

/-- C9, witness: the carbon of a message that the local account `a@x/res` sent from another
client to `b@y/r` gives the carbon event keyed by `b@y`. -/
theorem chat_handler_carbon_dispatch_witness :
    carbon_resolved_to (.tag "message" [("from", "a@x/other"), ("to", "b@y/r")]
      [body_stanza "hi"]) = some "b@y/r" ∧
    _chat_handler (model_env (some "a@x/res") [])
        (carbon_message "sent" [("from", "a@x/other"), ("to", "b@y/r")] "hi")
      = some ⟨[Event.sv_ev_carbon "b@y" "hi"], 1⟩ :=
  ⟨rfl,
   (chat_handler_carbon_dispatch (model_env (some "a@x/res") [])
    (carbon_message "sent" [("from", "a@x/other"), ("to", "b@y/r")] "hi")
    (carbon_stanza "sent" [("from", "a@x/other"), ("to", "b@y/r")] "hi")
    (.tag "forwarded" [("xmlns", "urn:xmpp:forward:0")]
      [.tag "message" [("from", "a@x/other"), ("to", "b@y/r")] [body_stanza "hi"]])
    (.tag "message" [("from", "a@x/other"), ("to", "b@y/r")] [body_stanza "hi"])
    (body_stanza "hi") "hi" ⟨"a@x/other", "a@x", some "other", some "a@x/other"⟩
    ⟨"b@y/r", "b@y", some "r", some "b@y/r"⟩ ⟨"a@x/res", "a@x", some "res", some "a@x/res"⟩
    (Or.inl rfl) rfl (Or.inr rfl) rfl rfl rfl rfl rfl rfl rfl).2 (by decide)⟩

/-- C9, counterexample: a carbon of a message from `b@y/r` to `a@x/other`, the local account
being `a@x/res`: the resolved `to` differs from the full address of the local account, and
the handler emits the incoming-message event, not a carbon event. -/
theorem chat_handler_carbon_dispatch_counterexample :
    carbon_resolved_to (.tag "message" [("from", "b@y/r"), ("to", "a@x/other")]
      [body_stanza "hi"]) = some "a@x/other" ∧
    (model_env (some "a@x/res") []).jabber_get_fulljid = some "a@x/res" ∧
    (some "a@x/other" : Option String) ≠ some "a@x/res" ∧
    _chat_handler (model_env (some "a@x/res") [])
        (carbon_message "received" [("from", "b@y/r"), ("to", "a@x/other")] "hi")
      = some ⟨[Event.sv_ev_incoming_message "b@y" (some "r") "hi"], 1⟩ :=
  ⟨rfl, rfl, by decide, rfl⟩

/-! ## `_groupchat_handler` -/

/-- C10: for every group-chat stanza with a `from` attribute (an address that `jid_create`
parses) that has a subject child, `_groupchat_handler` emits exactly one event, the
room-subject event for the bare room address, the nickname (resource part) and the text of
the subject, and so no room-message, room-history or room-broadcast event, whether or not
a body is present. -/
theorem groupchat_handler_subject (env : Env) (stanza subject : Stanza) (from_ : String)
    (jid : Jid)
    (hfrom : xmpp_stanza_get_attribute stanza STANZA_ATTR_FROM = some from_)
    (hsubject : xmpp_stanza_get_child_by_name stanza STANZA_NAME_SUBJECT = some subject)
    (hjid : env.jid_create (some from_) = some jid) :
    _groupchat_handler env stanza = some
      ⟨[Event.sv_ev_room_subject jid.barejid jid.resourcepart (xmpp_stanza_get_text subject)],
        1⟩ := by
  simp only [_groupchat_handler, hfrom, hsubject, hjid]

/-- C10, witness: a stanza from `room@conf/nick` with a subject and a body gives the one
subject event for (`room@conf`, `nick`). -/
theorem groupchat_handler_subject_witness :
    (xmpp_stanza_get_child_by_name subject_message STANZA_NAME_BODY).isSome = true ∧
    _groupchat_handler (model_env (some "a@x/res") ["room@conf"]) subject_message = some
      ⟨[Event.sv_ev_room_subject "room@conf" (some "nick") (some "new topic")], 1⟩ :=
  ⟨rfl,
   groupchat_handler_subject (model_env (some "a@x/res") ["room@conf"]) subject_message
    (.tag "subject" [] [.text "new topic"]) "room@conf/nick"
    ⟨"room@conf/nick", "room@conf", some "nick", some "room@conf/nick"⟩ rfl rfl rfl⟩

/-! ## `_message_error_handler` -/

/-- C13: for every cache state, fingerprint `v` and record `c`, after `caps_add (v, c)` the
fingerprint is contained and its lookup returns `c`, whatever was stored under `v` before,
while the lookup result and the containment of every other fingerprint, and the whole
peer-to-fingerprint map, are unchanged. -/
theorem caps_add_lookup (cache : CapsCache) (v : String) (c : Capabilities) :
    caps_contains (caps_add cache v c) v = true ∧
    _caps_get (caps_add cache v c) v = some c ∧
    (∀ c0, _caps_get (caps_add (caps_add cache v c0) v c) v = some c) ∧
    (∀ v0, v0 ≠ v →
      _caps_get (caps_add cache v c) v0 = _caps_get cache v0 ∧
      caps_contains (caps_add cache v c) v0 = caps_contains cache v0) ∧
    (∀ j, g_hash_table_lookup (caps_add cache v c).jid_lookup j
      = g_hash_table_lookup cache.jid_lookup j) := by
  refine ⟨?_, ?_, ?_, ?_, ?_⟩
  · simp [caps_contains, caps_add, g_hash_table_lookup_insert_same]
  · simp [_caps_get, caps_add, g_hash_table_lookup_insert_same]
  · intro c0
    simp [_caps_get, caps_add, g_hash_table_lookup_insert_same]
  · intro v0 h
    have e := g_hash_table_lookup_insert_other cache.capabilities v v0 c (Ne.symm h)
    exact ⟨by simpa [_caps_get, caps_add] using e, by simp [caps_contains, caps_add, e]⟩
  · intro j
    rfl

/-- C14: for every cache state, peer address `j` and fingerprint `v`, after
`caps_map (j, v)` the peer `j` resolves to `v`, whatever it resolved to before; the mapping
of every other peer and the lookup of every fingerprint in the fingerprint-to-record map
are unchanged, and the lookup by peer of `j` gives the record stored under `v`. -/
theorem caps_map_lookup (cache : CapsCache) (j v : String) :
    g_hash_table_lookup (caps_map cache j v).jid_lookup j = some v ∧
    (∀ v0, g_hash_table_lookup (caps_map (caps_map cache j v0) j v).jid_lookup j = some v) ∧
    (∀ j0, j0 ≠ j → g_hash_table_lookup (caps_map cache j v).jid_lookup j0
      = g_hash_table_lookup cache.jid_lookup j0) ∧
    (caps_map cache j v).capabilities.entries = cache.capabilities.entries ∧
    (∀ v0, _caps_get (caps_map cache j v) v0 = _caps_get cache v0) ∧
    _caps_lookup (caps_map cache j v) j = _caps_get cache v := by
  refine ⟨?_, ?_, ?_, rfl, fun _ => rfl, ?_⟩
  · simp [caps_map, g_hash_table_lookup_insert_same]
  · intro v0
    simp [caps_map, g_hash_table_lookup_insert_same]
  · intro j0 h
    exact g_hash_table_lookup_insert_other cache.jid_lookup j j0 v (Ne.symm h)
  · have e : g_hash_table_lookup (caps_map cache j v).jid_lookup j = some v := by
      simp [caps_map, g_hash_table_lookup_insert_same]
    unfold _caps_lookup
    rw [e]
    simp only [_caps_get, caps_map]
    cases g_hash_table_lookup cache.capabilities v <;> rfl

/-- One call removes no entry. -/
theorem caps_apply_keeps (cache : CapsCache) (op : CapsOp) :
    (∀ v, caps_contains cache v = true → caps_contains (caps_apply cache op) v = true) ∧
    (∀ j, caps_mapped cache j = true → caps_mapped (caps_apply cache op) j = true) := by
  cases op with
  | add ver caps =>
    refine ⟨?_, fun j h => h⟩
    intro v h
    by_cases e : ver = v
    · subst e
      simp [caps_apply, caps_contains, caps_add, g_hash_table_lookup_insert_same]
    · have := g_hash_table_lookup_insert_other cache.capabilities ver v caps e
      simpa [caps_apply, caps_contains, caps_add, this] using h
  | map jid ver =>
    refine ⟨fun v h => h, ?_⟩
    intro j h
    by_cases e : jid = j
    · subst e
      simp [caps_apply, caps_mapped, caps_map, g_hash_table_lookup_insert_same]
    · have := g_hash_table_lookup_insert_other cache.jid_lookup jid j ver e
      simpa [caps_apply, caps_mapped, caps_map, this] using h

/-- A sequence of calls removes no entry. -/
theorem caps_run_keeps : ∀ (ops : List CapsOp) (cache : CapsCache),
    (∀ v, caps_contains cache v = true → caps_contains (caps_run cache ops) v = true) ∧
    (∀ j, caps_mapped cache j = true → caps_mapped (caps_run cache ops) j = true)
  | [], cache => ⟨fun _ h => h, fun _ h => h⟩
  | op :: ops, cache => by
    have h1 := caps_apply_keeps cache op
    have h2 := caps_run_keeps ops (caps_apply cache op)
    exact ⟨fun v h => h2.1 v (h1.1 v h), fun j h => h2.2 j (h1.2 j h)⟩

/-- C15: for every sequence of `caps_add` and `caps_map` calls after `caps_init` and every
continuation of it by further such calls, no entry is removed: a fingerprint that has a
stored record after the first sequence still has one after the continuation, and a peer
address that has a fingerprint mapping after the first sequence still has one after the
continuation. -/
theorem caps_entries_persist (ops later : List CapsOp) :
    (∀ v, caps_contains (caps_run caps_init ops) v = true →
      caps_contains (caps_run caps_init (ops ++ later)) v = true) ∧
    (∀ j, caps_mapped (caps_run caps_init ops) j = true →
      caps_mapped (caps_run caps_init (ops ++ later)) j = true) := by
  have e : caps_run caps_init (ops ++ later) = caps_run (caps_run caps_init ops) later := by
    simp [caps_run, List.foldl_append]
  rw [e]
  exact caps_run_keeps later (caps_run caps_init ops)

/-- C15, witness: a fingerprint and a peer stay in the cache when the same fingerprint is
stored again, the peer is mapped again and other entries are added. -/
theorem caps_entries_persist_witness :
    caps_contains (caps_run caps_init
      [.add "v1" ⟨none, none, none, none, none, none, none, []⟩, .map "j1" "v1"]) "v1" = true ∧
    caps_contains (caps_run caps_init
      ([.add "v1" ⟨none, none, none, none, none, none, none, []⟩, .map "j1" "v1"] ++
       [.add "v2" ⟨none, none, none, none, none, none, none, ["f"]⟩, .map "j1" "v2",
        .add "v1" ⟨some "client", none, none, none, none, none, none, []⟩])) "v1" = true ∧
    caps_mapped (caps_run caps_init
      ([.add "v1" ⟨none, none, none, none, none, none, none, []⟩, .map "j1" "v1"] ++
       [.add "v2" ⟨none, none, none, none, none, none, none, ["f"]⟩, .map "j1" "v2",
        .add "v1" ⟨some "client", none, none, none, none, none, none, []⟩])) "j1" = true :=
  ⟨by decide,
   (caps_entries_persist
      [.add "v1" ⟨none, none, none, none, none, none, none, []⟩, .map "j1" "v1"]
      [.add "v2" ⟨none, none, none, none, none, none, none, ["f"]⟩, .map "j1" "v2",
       .add "v1" ⟨some "client", none, none, none, none, none, none, []⟩]).1 "v1" (by decide),
   (caps_entries_persist
      [.add "v1" ⟨none, none, none, none, none, none, none, []⟩, .map "j1" "v1"]
      [.add "v2" ⟨none, none, none, none, none, none, none, ["f"]⟩, .map "j1" "v2",
       .add "v1" ⟨some "client", none, none, none, none, none, none, []⟩]).2 "j1" (by decide)⟩

/-! ## `caps_create` -/

/-- The first element that passes a filter is the first element found. -/
theorem head_filter_eq_find {α : Type} (p : α → Bool) : ∀ l : List α,
    (l.filter p).head? = l.find? p
  | [] => rfl
  | a :: l => by
    cases h : p a
    · rw [List.filter_cons_of_neg (by simp [h]), List.find?_cons_of_neg _ (by simp [h])]
      exact head_filter_eq_find p l
    · rw [List.filter_cons_of_pos h, List.find?_cons_of_pos _ h]
      rfl

/-- `xmpp_stanza_get_child_by_name (query, "identity")` is the first identity child. -/
theorem child_by_name_identity (query : Stanza) :
    xmpp_stanza_get_child_by_name query "identity" = first_identity query := by
  simp [xmpp_stanza_get_child_by_name, first_identity, query_identities, head_filter_eq_find,
    STANZA_NAME_IDENTITY]

/-- `xmpp_stanza_get_child_by_ns (query, STANZA_NS_DATA)` is the first data-forms child. -/
theorem child_by_ns_data (query : Stanza) :
    xmpp_stanza_get_child_by_ns query STANZA_NS_DATA = first_data_child query := by
  simp [xmpp_stanza_get_child_by_ns, first_data_child, head_filter_eq_find]

/-- `strdup` of a local that is `NULL` or points into the released form. -/
theorem caps_create_strdup_destroy (value : Option String) :
    caps_create_strdup (value.map form_destroy) = if value = none then some none else none := by
  cases value <;> rfl

/-- When the software-info block is left, every local is `NULL` or points into the
released form. -/
theorem caps_create_softwareinfo_released (env : Env) (query : Stanza)
    (locals : SoftwareLocals) (h : caps_create_softwareinfo env query = some locals) :
    ∃ info : SoftwareInfo, locals =
      ⟨info.software.map form_destroy, info.software_version.map form_destroy,
        info.os.map form_destroy, info.os_version.map form_destroy⟩ := by
  unfold caps_create_softwareinfo at h
  cases hx : xmpp_stanza_get_child_by_ns query STANZA_NS_DATA with
  | none =>
    simp only [hx] at h
    exact ⟨⟨none, none, none, none⟩, (Option.some.inj h).symm⟩
  | some softwareinfo =>
    cases hform : env.form_create softwareinfo with
    | none => simp only [hx, hform] at h; cases h
    | some form =>
      simp only [hx, hform] at h
      split at h
      · cases h
      · rename_i info _
        exact ⟨info, (Option.some.inj h).symm⟩

/-- The record of `caps_create` when the software-info block leaves the four locals `NULL`
and the feature loop returns. -/
theorem caps_create_eq (env : Env) (query : Stanza) (features : List String)
    (hi : caps_create_softwareinfo env query = some ⟨none, none, none, none⟩)
    (hf : caps_create_features (xmpp_stanza_get_children query) [] = some features) :
    caps_create env query = some
      ⟨(first_identity query).bind (fun i => xmpp_stanza_get_attribute i "category"),
       (first_identity query).bind (fun i => xmpp_stanza_get_attribute i "type"),
       (first_identity query).bind (fun i => xmpp_stanza_get_attribute i "name"),
       none, none, none, none, features⟩ := by
  unfold caps_create
  rw [child_by_name_identity]
  simp only [hi, hf, caps_create_strdup]
  cases first_identity query <;> rfl

/-- `caps_create` returns no record when a local points into the released form. -/
theorem caps_create_released (env : Env) (query : Stanza) (info : SoftwareInfo)
    (hi : caps_create_softwareinfo env query = some
      ⟨info.software.map form_destroy, info.software_version.map form_destroy,
        info.os.map form_destroy, info.os_version.map form_destroy⟩)
    (h : info ≠ ⟨none, none, none, none⟩) : caps_create env query = none := by
  unfold caps_create
  simp only [hi]
  obtain ⟨a, b, c, d⟩ := info
  cases caps_create_features (xmpp_stanza_get_children query) [] with
  | none => rfl
  | some features =>
    cases a <;> cases b <;> cases c <;> cases d <;> first | exact absurd rfl h | rfl

/-- A record of `caps_create` comes from a software-info block that leaves the four locals
`NULL` and from the feature loop. -/
theorem caps_create_some (env : Env) (query : Stanza) (caps : Capabilities)
    (h : caps_create env query = some caps) :
    ∃ features, caps_create_softwareinfo env query = some ⟨none, none, none, none⟩ ∧
      caps_create_features (xmpp_stanza_get_children query) [] = some features ∧
      caps = ⟨(first_identity query).bind (fun i => xmpp_stanza_get_attribute i "category"),
       (first_identity query).bind (fun i => xmpp_stanza_get_attribute i "type"),
       (first_identity query).bind (fun i => xmpp_stanza_get_attribute i "name"),
       none, none, none, none, features⟩ := by
  cases hi : caps_create_softwareinfo env query with
  | none => simp [caps_create, hi] at h
  | some locals =>
    obtain ⟨info, rfl⟩ := caps_create_softwareinfo_released env query locals hi
    by_cases hn : info = ⟨none, none, none, none⟩
    · subst hn
      cases hf : caps_create_features (xmpp_stanza_get_children query) [] with
      | none => simp [caps_create, hi, hf] at h
      | some features =>
        rw [caps_create_eq env query features hi hf] at h
        exact ⟨features, rfl, rfl, (Option.some.inj h).symm⟩
    · rw [caps_create_released env query info hi hn] at h
      cases h

/-- The feature loop of `caps_create` appends the `var` values in document order. -/
theorem caps_create_features_eq : ∀ (cs : List Stanza) (acc : List String),
    (∀ c ∈ cs.filter (fun c => xmpp_stanza_get_name c == some STANZA_NAME_FEATURE),
      xmpp_stanza_get_attribute c "var" ≠ none) →
    caps_create_features cs acc = some (acc ++
      (cs.filter (fun c => xmpp_stanza_get_name c == some STANZA_NAME_FEATURE)).filterMap
        (fun c => xmpp_stanza_get_attribute c "var"))
  | [], acc, _ => by simp [caps_create_features]
  | c :: cs, acc, h => by
    by_cases hn : xmpp_stanza_get_name c = some STANZA_NAME_FEATURE
    · have hz : g_strcmp0 (xmpp_stanza_get_name c) (some "feature") = 0 :=
        (g_strcmp0_eq_zero _ _).mpr hn
      have hmem : c ∈ (c :: cs).filter
          (fun c => xmpp_stanza_get_name c == some STANZA_NAME_FEATURE) := by
        simp [hn]
      obtain ⟨var, hv⟩ := Option.ne_none_iff_exists'.mp (h c hmem)
      have ih := caps_create_features_eq cs (acc ++ [var]) (by
        intro d hd
        apply h d
        simp only [List.filter_cons, hn, beq_self_eq_true, if_true]
        exact List.mem_cons_of_mem _ hd)
      simp only [caps_create_features, hz, if_true, hv, ih]
      simp [hn, hv]
    · have hz : ¬ g_strcmp0 (xmpp_stanza_get_name c) (some "feature") = 0 :=
        fun e => hn ((g_strcmp0_eq_zero _ _).mp e)
      have ih := caps_create_features_eq cs acc (by
        intro d hd
        apply h d
        simpa [List.filter_cons, hn] using hd)
      simp only [caps_create_features, hz, if_false, ih]
      simp [hn]

/-- The feature loop of `caps_create` is undefined when a feature child has no `var`. -/
theorem caps_create_features_null : ∀ (cs : List Stanza) (acc : List String),
    (∃ c ∈ cs.filter (fun c => xmpp_stanza_get_name c == some STANZA_NAME_FEATURE),
      xmpp_stanza_get_attribute c "var" = none) →
    caps_create_features cs acc = none
  | [], acc, h => by simp at h
  | c :: cs, acc, h => by
    by_cases hn : xmpp_stanza_get_name c = some STANZA_NAME_FEATURE
    · have hz : g_strcmp0 (xmpp_stanza_get_name c) (some "feature") = 0 :=
        (g_strcmp0_eq_zero _ _).mpr hn
      cases hv : xmpp_stanza_get_attribute c "var" with
      | none => simp only [caps_create_features, hz, if_true, hv]
      | some var =>
        have ih := caps_create_features_null cs (acc ++ [var]) (by
          obtain ⟨d, hd, hdv⟩ := h
          simp only [List.filter_cons, hn, beq_self_eq_true, if_true, List.mem_cons] at hd
          rcases hd with rfl | hd
          · rw [hv] at hdv; cases hdv
          · exact ⟨d, hd, hdv⟩)
        simp only [caps_create_features, hz, if_true, hv, ih]
    · have hz : ¬ g_strcmp0 (xmpp_stanza_get_name c) (some "feature") = 0 :=
        fun e => hn ((g_strcmp0_eq_zero _ _).mp e)
      have ih := caps_create_features_null cs acc (by
        obtain ⟨d, hd, hdv⟩ := h
        exact ⟨d, by simpa [List.filter_cons, hn] using hd, hdv⟩)
      simp only [caps_create_features, hz, if_false, ih]

/-- C16: for every query, the category, type and name of the record that `caps_create`
builds are the `category`, `type` and `name` attributes of the first identity child in
document order (empty where that child lacks the attribute), whatever other identity
children follow, and with no identity child the three fields are empty; `caps_create`
builds that record whenever its software-info block leaves the four locals `NULL` and its
feature loop returns. -/
theorem caps_create_identity (env : Env) (query : Stanza) :
    (∀ caps, caps_create env query = some caps →
      caps.category
        = (first_identity query).bind (fun i => xmpp_stanza_get_attribute i "category") ∧
      caps.type = (first_identity query).bind (fun i => xmpp_stanza_get_attribute i "type") ∧
      caps.name = (first_identity query).bind (fun i => xmpp_stanza_get_attribute i "name") ∧
      (query_identities query = [] →
        caps.category = none ∧ caps.type = none ∧ caps.name = none)) ∧
    (∀ features, caps_create_softwareinfo env query = some ⟨none, none, none, none⟩ →
      caps_create_features (xmpp_stanza_get_children query) [] = some features →
      ∃ caps, caps_create env query = some caps ∧
        caps.category
          = (first_identity query).bind (fun i => xmpp_stanza_get_attribute i "category") ∧
        caps.type = (first_identity query).bind (fun i => xmpp_stanza_get_attribute i "type") ∧
        caps.name
          = (first_identity query).bind (fun i => xmpp_stanza_get_attribute i "name")) := by
  constructor
  · intro caps h
    obtain ⟨features, _, _, rfl⟩ := caps_create_some env query caps h
    refine ⟨rfl, rfl, rfl, ?_⟩
    intro he
    simp [first_identity, he]
  · intro features hi hf
    exact ⟨_, caps_create_eq env query features hi hf, rfl, rfl, rfl⟩

/-- C16, witness: of the two identities (client, pc, P) and (client, bot, Q) of
`query_software_second` the record takes the first. -/
theorem caps_create_identity_witness :
    (query_identities query_software_second).length = 2 ∧
    first_identity query_software_second
      = some (.tag "identity" [("category", "client"), ("type", "pc"), ("name", "P")] []) ∧
    ∃ caps, caps_create (model_env none []) query_software_second = some caps ∧
      caps.category = some "client" ∧ caps.type = some "pc" ∧ caps.name = some "P" :=
  ⟨rfl, rfl,
   (caps_create_identity (model_env none []) query_software_second).2
    ["urn:b", "urn:a", "urn:b"] rfl rfl⟩

/-- C18: for every query whose feature children all have a `var` attribute, the feature
loop of `caps_create` returns the `var` values of the feature children in document order,
unsorted and with duplicates retained, and, when the software-info block leaves the four
locals `NULL`, so does `caps_create`, with exactly that list as the features of its
record. -/
theorem caps_create_feature_list (env : Env) (query : Stanza)
    (hvar : ∀ c ∈ query_features query, xmpp_stanza_get_attribute c "var" ≠ none) :
    caps_create_features (xmpp_stanza_get_children query) [] = some (query_feature_vars query) ∧
    (caps_create_softwareinfo env query = some ⟨none, none, none, none⟩ →
      ∃ caps, caps_create env query = some caps ∧ caps.features = query_feature_vars query) ∧
    (∀ caps, caps_create env query = some caps → caps.features = query_feature_vars query) := by
  have hf : caps_create_features (xmpp_stanza_get_children query) []
      = some (query_feature_vars query) := by
    rw [caps_create_features_eq _ [] hvar]
    rfl
  refine ⟨hf, ?_, ?_⟩
  · intro hi
    exact ⟨_, caps_create_eq env query _ hi hf, rfl⟩
  · intro caps h
    obtain ⟨features, _, hf', rfl⟩ := caps_create_some env query caps h
    rw [hf] at hf'
    exact (Option.some.inj hf').symm

/-- C18, witness: the features `urn:b`, `urn:a`, `urn:b` of `query_software_second` stay in
this order. -/
theorem caps_create_feature_list_witness :
    query_feature_vars query_software_second = ["urn:b", "urn:a", "urn:b"] ∧
    ∃ caps, caps_create (model_env none []) query_software_second = some caps ∧
      caps.features = query_feature_vars query_software_second :=
  ⟨by decide,
   (caps_create_feature_list (model_env none []) query_software_second (by
      intro c hc
      have e : query_features query_software_second
          = [feature_stanza "urn:b", feature_stanza "urn:a", feature_stanza "urn:b"] := rfl
      rw [e] at hc
      simp only [List.mem_cons, List.mem_singleton, List.not_mem_nil, or_false] at hc
      rcases hc with rfl | rfl | rfl <;> decide)).2.1 rfl⟩


/-- The field loop of `caps_create`: each of the four locals ends as the first value of the
last field that has its identifier and a value, or as it started. -/
theorem caps_create_fields_eq : ∀ (fields : List FormField) (info : SoftwareInfo),
    (∀ f ∈ fields, f.values ≠ [] → f.var ≠ none) →
    caps_create_fields fields info = some
      ⟨(last_valued "software" fields).or info.software,
       (last_valued "software_version" fields).or info.software_version,
       (last_valued "os" fields).or info.os,
       (last_valued "os_version" fields).or info.os_version⟩
  | [], info, _ => by simp [caps_create_fields, last_valued]
  | f :: rest, info, h => by
    have hrest : ∀ g ∈ rest, g.values ≠ [] → g.var ≠ none :=
      fun g hg => h g (List.mem_cons_of_mem _ hg)
    cases hv : f.values with
    | nil =>
      simp only [caps_create_fields, hv]
      rw [caps_create_fields_eq rest info hrest]
      simp only [last_valued, hv, List.head?_nil, ite_self]
      cases last_valued "software" rest <;> cases last_valued "software_version" rest <;>
        cases last_valued "os" rest <;> cases last_valued "os_version" rest <;> rfl
    | cons data more =>
      obtain ⟨var, hvar⟩ := Option.ne_none_iff_exists'.mp
        (h f (List.mem_cons_self _ _) (by rw [hv]; exact List.cons_ne_nil _ _))
      simp only [caps_create_fields, hv, hvar, strcmp_str_eq_zero]
      by_cases h1 : var = "software"
      · subst h1
        rw [if_pos rfl, caps_create_fields_eq rest _ hrest]
        simp only [last_valued, hv, hvar, List.head?_cons]
        cases last_valued "software" rest <;> cases last_valued "software_version" rest <;>
          cases last_valued "os" rest <;> cases last_valued "os_version" rest <;>
          simp +decide
      · rw [if_neg h1]
        by_cases h2 : var = "software_version"
        · subst h2
          rw [if_pos rfl, caps_create_fields_eq rest _ hrest]
          simp only [last_valued, hv, hvar, List.head?_cons]
          cases last_valued "software" rest <;> cases last_valued "software_version" rest <;>
            cases last_valued "os" rest <;> cases last_valued "os_version" rest <;>
            simp +decide
        · rw [if_neg h2]
          by_cases h3 : var = "os"
          · subst h3
            rw [if_pos rfl, caps_create_fields_eq rest _ hrest]
            simp only [last_valued, hv, hvar, List.head?_cons]
            cases last_valued "software" rest <;> cases last_valued "software_version" rest <;>
              cases last_valued "os" rest <;> cases last_valued "os_version" rest <;>
              simp +decide
          · rw [if_neg h3]
            by_cases h4 : var = "os_version"
            · subst h4
              rw [if_pos rfl, caps_create_fields_eq rest _ hrest]
              simp only [last_valued, hv, hvar, List.head?_cons]
              cases last_valued "software" rest <;> cases last_valued "software_version" rest <;>
                cases last_valued "os" rest <;> cases last_valued "os_version" rest <;>
                simp +decide
            · rw [if_neg h4, caps_create_fields_eq rest _ hrest]
              simp only [last_valued, hv, hvar, List.head?_cons, Option.some.injEq, h1, h2, h3,
                h4, if_false]
              cases last_valued "software" rest <;> cases last_valued "software_version" rest <;>
                cases last_valued "os" rest <;> cases last_valued "os_version" rest <;> rfl

/-- The field loop of `caps_create` is undefined when a field has a value and no `var`. -/
theorem caps_create_fields_null : ∀ (fields : List FormField) (info : SoftwareInfo),
    (∃ f ∈ fields, f.values ≠ [] ∧ f.var = none) → caps_create_fields fields info = none
  | [], _, h => by simp at h
  | f :: rest, info, h => by
    cases hv : f.values with
    | nil =>
      simp only [caps_create_fields, hv]
      apply caps_create_fields_null rest info
      obtain ⟨g, hg, hgv, hgn⟩ := h
      rcases List.mem_cons.mp hg with rfl | hg
      · exact absurd hv hgv
      · exact ⟨g, hg, hgv, hgn⟩
    | cons data more =>
      cases hvar : f.var with
      | none => simp only [caps_create_fields, hv, hvar]
      | some var =>
        have hrest : ∃ g ∈ rest, g.values ≠ [] ∧ g.var = none := by
          obtain ⟨g, hg, hgv, hgn⟩ := h
          rcases List.mem_cons.mp hg with rfl | hg
          · rw [hvar] at hgn; cases hgn
          · exact ⟨g, hg, hgv, hgn⟩
        simp only [caps_create_fields, hv, hvar]
        split
        · exact caps_create_fields_null rest _ hrest
        · split
          · exact caps_create_fields_null rest _ hrest
          · split
            · exact caps_create_fields_null rest _ hrest
            · split
              · exact caps_create_fields_null rest _ hrest
              · exact caps_create_fields_null rest _ hrest

/-- Without a field that has the identifier there is no value for it. -/
theorem last_valued_none (var : String) : ∀ fields : List FormField,
    (∀ f ∈ fields, f.var ≠ some var) → last_valued var fields = none
  | [], _ => rfl
  | f :: rest, h => by
    have h1 := last_valued_none var rest (fun g hg => h g (List.mem_cons_of_mem _ hg))
    have h2 : f.var ≠ some var := h f (List.mem_cons_self _ _)
    simp only [last_valued, h1, h2, if_false]

/-- When at most one field has the identifier, the value that `caps_create` takes is the
first value of that field. -/
theorem last_valued_eq_spec (var : String) : ∀ fields : List FormField,
    (fields.filter (fun f => f.var == some var)).length ≤ 1 →
    last_valued var fields =
      match fields.find? (fun f => f.var == some var) with
      | none => none
      | some f => f.values.head?
  | [], _ => rfl
  | f :: rest, h => by
    by_cases hf : f.var = some var
    · have hb : (f.var == some var) = true := by simp [hf]
      simp only [List.filter_cons, hb, if_true, List.length_cons] at h
      have hlen : (rest.filter (fun f => f.var == some var)).length = 0 := by omega
      have hnone : ∀ g ∈ rest, g.var ≠ some var := by
        intro g hg hgv
        have : g ∈ rest.filter (fun f => f.var == some var) := by
          simp [List.mem_filter, hg, hgv]
        rw [List.length_eq_zero.mp hlen] at this
        cases this
      simp only [List.find?_cons, hb]
      simp only [last_valued, last_valued_none var rest hnone, hf, if_true]
    · have hb : (f.var == some var) = false := by simp [hf]
      simp only [List.filter_cons, hb, Bool.false_eq_true, if_false] at h
      simp only [List.find?_cons, hb, ← last_valued_eq_spec var rest h]
      simp only [last_valued, hf, if_false]
      cases last_valued var rest <;> rfl

/-- A field that has the identifier and a value gives the loop a value for it. -/
theorem last_valued_some (var : String) : ∀ fields : List FormField,
    (∃ f ∈ fields, f.var = some var ∧ f.values ≠ []) → last_valued var fields ≠ none
  | [], h => by simp at h
  | f :: rest, h => by
    cases hr : last_valued var rest with
    | some data => simp [last_valued, hr]
    | none =>
      obtain ⟨g, hg, hgv, hgn⟩ := h
      rcases List.mem_cons.mp hg with rfl | hg
      · simp only [last_valued, hr, hgv, if_true]
        cases hv : g.values with
        | nil => exact absurd hv hgn
        | cons a l => simp
      · exact absurd hr (last_valued_some var rest ⟨g, hg, hgv, hgn⟩)

/-- C17, the failing branch: the software-info block of `caps_create` looks only at the
first child in the data-forms namespace. Without such a child, or when its form declares
another `FORM_TYPE` than the software-info schema name, the four locals stay `NULL`, and
every record that `caps_create` returns has software, software_version, os and os_version
empty. When the form declares the software-info schema name, the loop sets each local to
the first value of the last field with the same identifier that has a value (which is the
first value of the form field with that identifier when at most one field has it), and
`form_destroy` then releases the form before the record is filled: for every such form with
a field that has a value and one of the four identifiers, `caps_create` copies a string of
the released form and returns no record. -/
theorem caps_create_software_released (env : Env) (query : Stanza) :
    (first_data_child query = none →
      caps_create_softwareinfo env query = some ⟨none, none, none, none⟩) ∧
    (∀ x form, first_data_child query = some x → env.form_create x = some form →
      form_get_form_type_field form ≠ some STANZA_DATAFORM_SOFTWARE →
      caps_create_softwareinfo env query = some ⟨none, none, none, none⟩) ∧
    (∀ x form, first_data_child query = some x → env.form_create x = some form →
      form_get_form_type_field form = some STANZA_DATAFORM_SOFTWARE →
      valued_fields_have_var form →
      caps_create_fields form.fields ⟨none, none, none, none⟩ = some
        ⟨last_value_of form "software", last_value_of form "software_version",
         last_value_of form "os", last_value_of form "os_version"⟩ ∧
      caps_create_softwareinfo env query = some
        ⟨(last_value_of form "software").map form_destroy,
         (last_value_of form "software_version").map form_destroy,
         (last_value_of form "os").map form_destroy,
         (last_value_of form "os_version").map form_destroy⟩) ∧
    (∀ form var, at_most_one_field form var →
      last_value_of form var = spec_field_value form var) ∧
    (∀ x form, first_data_child query = some x → env.form_create x = some form →
      form_get_form_type_field form = some STANZA_DATAFORM_SOFTWARE →
      (∃ f ∈ form.fields, f.values ≠ [] ∧ ∃ var ∈ software_vars, f.var = some var) →
      caps_create env query = none) ∧
    (∀ caps, caps_create env query = some caps →
      caps_create_softwareinfo env query = some ⟨none, none, none, none⟩ ∧
      caps.software = none ∧ caps.software_version = none ∧ caps.os = none ∧
      caps.os_version = none) ∧
    (∀ features, caps_create_softwareinfo env query = some ⟨none, none, none, none⟩ →
      caps_create_features (xmpp_stanza_get_children query) [] = some features →
      ∃ caps, caps_create env query = some caps ∧
        caps.software = none ∧ caps.software_version = none ∧ caps.os = none ∧
        caps.os_version = none) := by
  have main : ∀ x form, first_data_child query = some x → env.form_create x = some form →
      form_get_form_type_field form = some STANZA_DATAFORM_SOFTWARE →
      valued_fields_have_var form →
      caps_create_fields form.fields ⟨none, none, none, none⟩ = some
        ⟨last_value_of form "software", last_value_of form "software_version",
         last_value_of form "os", last_value_of form "os_version"⟩ ∧
      caps_create_softwareinfo env query = some
        ⟨(last_value_of form "software").map form_destroy,
         (last_value_of form "software_version").map form_destroy,
         (last_value_of form "os").map form_destroy,
         (last_value_of form "os_version").map form_destroy⟩ := by
    intro x form hx hform htype hvar
    have hz : g_strcmp0 (form_get_form_type_field form) (some STANZA_DATAFORM_SOFTWARE) = 0 :=
      (g_strcmp0_eq_zero _ _).mpr htype
    have hloop : caps_create_fields form.fields ⟨none, none, none, none⟩ = some
        ⟨last_value_of form "software", last_value_of form "software_version",
         last_value_of form "os", last_value_of form "os_version"⟩ := by
      rw [caps_create_fields_eq form.fields _ hvar]
      simp only [Option.or_none, last_value_of]
    refine ⟨hloop, ?_⟩
    simp only [caps_create_softwareinfo, child_by_ns_data, hx, hform, hz, if_true, hloop]
  refine ⟨?_, ?_, main, ?_, ?_, ?_, ?_⟩
  · intro h
    simp only [caps_create_softwareinfo, child_by_ns_data, h]
  · intro x form hx hform htype
    have hz : ¬ g_strcmp0 (form_get_form_type_field form) (some STANZA_DATAFORM_SOFTWARE) = 0 :=
      fun e => htype ((g_strcmp0_eq_zero _ _).mp e)
    simp only [caps_create_softwareinfo, child_by_ns_data, hx, hform, hz, if_false]
    rfl
  · intro form var h
    exact last_valued_eq_spec var form.fields h
  · intro x form hx hform htype hfield
    by_cases hvar : valued_fields_have_var form
    · apply caps_create_released env query
        ⟨last_value_of form "software", last_value_of form "software_version",
         last_value_of form "os", last_value_of form "os_version"⟩
        (main x form hx hform htype hvar).2
      intro heq
      obtain ⟨f, hf, hv, var, hmem, hfv⟩ := hfield
      have hsome : last_value_of form var ≠ none :=
        last_valued_some var form.fields ⟨f, hf, hfv, hv⟩
      have h1 := congrArg SoftwareInfo.software heq
      have h2 := congrArg SoftwareInfo.software_version heq
      have h3 := congrArg SoftwareInfo.os heq
      have h4 := congrArg SoftwareInfo.os_version heq
      simp only [software_vars, List.mem_cons, List.mem_singleton, List.not_mem_nil,
        or_false] at hmem
      rcases hmem with rfl | rfl | rfl | rfl
      · exact hsome h1
      · exact hsome h2
      · exact hsome h3
      · exact hsome h4
    · have hnull : ∃ f ∈ form.fields, f.values ≠ [] ∧ f.var = none := by
        unfold valued_fields_have_var at hvar
        push_neg at hvar
        exact hvar
      have hz : g_strcmp0 (form_get_form_type_field form) (some STANZA_DATAFORM_SOFTWARE) = 0 :=
        (g_strcmp0_eq_zero _ _).mpr htype
      have hi : caps_create_softwareinfo env query = none := by
        simp only [caps_create_softwareinfo, child_by_ns_data, hx, hform, hz, if_true,
          caps_create_fields_null form.fields _ hnull]
      unfold caps_create
      simp only [hi]
  · intro caps h
    obtain ⟨features, hi, _, rfl⟩ := caps_create_some env query caps h
    exact ⟨hi, rfl, rfl, rfl, rfl⟩
  · intro features hi hf
    exact ⟨_, caps_create_eq env query features hi hf, rfl, rfl, rfl, rfl⟩

/-- C17, the failing inputs: the query whose only child is a software-info form with the
field software (Prof), and `query_with_software`, whose software-info form has the fields
os (Linux, BSD), software (Prof) and os_version (no value): the loop sets the locals and
`caps_create` returns no record. For `query_software_second`, where the software-info form
is not the first data form, the record has the four fields empty. In the form with the
fields os (no value) and os (B) the loop takes B, while the first field with the
identifier has no value. -/
theorem caps_create_software_released_witness :
    caps_create (model_env none []) query_software_only = none ∧
    caps_create_fields
        [⟨some "FORM_TYPE", ["urn:xmpp:dataforms:softwareinfo"]⟩, ⟨some "os", ["Linux", "BSD"]⟩,
          ⟨some "software", ["Prof"]⟩, ⟨some "os_version", []⟩] ⟨none, none, none, none⟩
      = some ⟨some "Prof", none, some "Linux", none⟩ ∧
    caps_create (model_env none []) query_with_software = none ∧
    (∃ caps, caps_create (model_env none []) query_software_second = some caps ∧
      caps.software = none ∧ caps.software_version = none ∧ caps.os = none ∧
      caps.os_version = none) ∧
    caps_create_fields form_os_twice.fields ⟨none, none, none, none⟩
      = some ⟨none, none, some "B", none⟩ ∧
    spec_field_value form_os_twice "os" = none :=
  ⟨(caps_create_software_released (model_env none []) query_software_only).2.2.2.2.1
    (software_form [field_stanza "software" ["Prof"]])
    ⟨[⟨some "FORM_TYPE", ["urn:xmpp:dataforms:softwareinfo"]⟩, ⟨some "software", ["Prof"]⟩]⟩
    rfl rfl rfl ⟨⟨some "software", ["Prof"]⟩, by simp, by simp, "software", by decide, rfl⟩,
   rfl,
   (caps_create_software_released (model_env none []) query_with_software).2.2.2.2.1
    (software_form [field_stanza "os" ["Linux", "BSD"], field_stanza "software" ["Prof"],
       field_stanza "os_version" []])
    ⟨[⟨some "FORM_TYPE", ["urn:xmpp:dataforms:softwareinfo"]⟩, ⟨some "os", ["Linux", "BSD"]⟩,
      ⟨some "software", ["Prof"]⟩, ⟨some "os_version", []⟩]⟩
    rfl rfl rfl ⟨⟨some "os", ["Linux", "BSD"]⟩, by simp, by simp, "os", by decide, rfl⟩,
   (caps_create_software_released (model_env none []) query_software_second).2.2.2.2.2.2
    ["urn:b", "urn:a", "urn:b"] rfl rfl,
   rfl, rfl⟩

/-- C19, the failing branches: for every query that has a feature child without a `var`
attribute `caps_create` reaches `strdup (NULL)`, and for every query whose first data-forms
child is a software-info form with a field that has a value and no identifier it reaches
`strcmp (NULL, "software")`; in both cases no record is returned. -/
theorem caps_create_undefined (env : Env) (query : Stanza) :
    ((∃ c ∈ query_features query, xmpp_stanza_get_attribute c "var" = none) →
      caps_create_features (xmpp_stanza_get_children query) [] = none ∧
      caps_create env query = none) ∧
    (∀ x form, first_data_child query = some x → env.form_create x = some form →
      form_get_form_type_field form = some STANZA_DATAFORM_SOFTWARE →
      (∃ f ∈ form.fields, f.values ≠ [] ∧ f.var = none) →
      caps_create_softwareinfo env query = none ∧ caps_create env query = none) := by
  constructor
  · intro h
    have hf := caps_create_features_null (xmpp_stanza_get_children query) [] h
    refine ⟨hf, ?_⟩
    unfold caps_create
    simp only [hf]
    cases caps_create_softwareinfo env query <;> rfl
  · intro x form hx hform htype hnull
    have hz : g_strcmp0 (form_get_form_type_field form) (some STANZA_DATAFORM_SOFTWARE) = 0 :=
      (g_strcmp0_eq_zero _ _).mpr htype
    have hi : caps_create_softwareinfo env query = none := by
      simp only [caps_create_softwareinfo, child_by_ns_data, hx, hform, hz, if_true,
        caps_create_fields_null form.fields _ hnull]
    refine ⟨hi, ?_⟩
    unfold caps_create
    simp only [hi]

/-- C19, the failing inputs: the query whose only child is `<feature/>`, in every
environment, and the query whose only child is a software-info form with a field without
`var` that has a value. -/
theorem caps_create_undefined_witness :
    (∀ env : Env, caps_create env query_feature_without_var = none) ∧
    caps_create (model_env none []) query_field_without_var = none :=
  ⟨fun env => ((caps_create_undefined env query_feature_without_var).1
      ⟨.tag "feature" [] [], by
        simp [query_features, query_feature_without_var, xmpp_stanza_get_children,
          xmpp_stanza_get_name, STANZA_NAME_FEATURE], rfl⟩).2,
   ((caps_create_undefined (model_env none []) query_field_without_var).2
      (software_form [.tag "field" [] [.tag "value" [] [.text "1"]]])
      ⟨[⟨some "FORM_TYPE", ["urn:xmpp:dataforms:softwareinfo"]⟩, ⟨none, ["1"]⟩]⟩
      rfl rfl rfl ⟨⟨none, ["1"]⟩, by simp, by simp, rfl⟩).2⟩

/-! ## C20: data forms without a `FORM_TYPE` -/

/-- C20, the failing branch: for every query that contains a data-forms child which
`form_create` does not parse or whose form declares no `FORM_TYPE`,
`caps_create_sha1_str` builds no canonical string: it hands the `NULL` form to
`form_get_form_type_field`, or the `NULL` form type to `g_str_hash` through
`g_hash_table_insert`. The same query without its data-form children has a canonical
string whenever its features all have a `var`. -/
theorem caps_create_sha1_str_form_without_type (env : Env) (query : Stanza) :
    ((∃ c ∈ query_forms query, declared_form_type env c = none) →
      caps_sha1_input env query = none ∧ caps_create_sha1_str env query = none) ∧
    ((∀ c ∈ query_features query, xmpp_stanza_get_attribute c "var" ≠ none) →
      ∃ s, caps_sha1_input env (query_without_forms query) = some s) := by
  constructor
  · intro h
    have hs := scan_forms_null env ((xmpp_stanza_get_children query).filter is_data_form)
      ([], g_hash_table_new) h
    have hi : caps_sha1_input env query = none := by
      rw [caps_sha1_input_split, hs, combine_lists_none_right]
    exact ⟨hi, by simp only [caps_create_sha1_str, hi]⟩
  · intro hvar
    have hf : query_forms (query_without_forms query) = [] := by
      cases query with
      | text data => rfl
      | tag name attributes children =>
        simp [query_forms, query_without_forms, xmpp_stanza_get_children, List.filter_filter]
    have hq : query_features (query_without_forms query)
        = (query_features query).filter (fun c => !is_data_form c) := by
      cases query with
      | text data => rfl
      | tag name attributes children =>
        simp [query_features, query_without_forms, xmpp_stanza_get_children,
          List.filter_filter, Bool.and_comm]
    refine ⟨_, caps_sha1_input_no_forms env (query_without_forms query) hf ?_⟩
    intro c hc
    rw [hq] at hc
    exact hvar c (List.mem_of_mem_filter hc)

/-- C20, the failing input: the query whose only child is a data form without a
`FORM_TYPE` field has no canonical string, and the query without that child has the empty
one. -/
theorem caps_create_sha1_str_form_without_type_witness :
    caps_create_sha1_str (model_env none []) query_form_without_type = none ∧
    caps_create_sha1_str (model_env none []) (query_without_forms query_form_without_type)
      = some "" :=
  ⟨((caps_create_sha1_str_form_without_type (model_env none []) query_form_without_type).1
      ⟨.tag "x" [("xmlns", "jabber:x:data")] [field_stanza "a" ["1"]], by
        simp [query_forms, query_form_without_type, xmpp_stanza_get_children, is_data_form,
          xmpp_stanza_get_name, xmpp_stanza_get_ns, xmpp_stanza_get_attribute, STANZA_NAME_X,
          STANZA_NS_DATA], rfl⟩).2,
   rfl⟩

/-! ## Stanzas without a sender -/

/-- C21, the failing branches: for a stanza without a `from` attribute `jid_create` gets
`NULL` and returns `NULL`; `_groupchat_handler` then dereferences it (`jid->barejid` or
`jid->resourcepart`) for every such stanza, and `_chat_handler` dereferences it
(`jid->barejid`) for every such stanza of type chat or without a type that has no carbon
wrapper and no child in a claimed namespace. `_muc_user_handler`, `_conference_handler`,
`_captcha_handler` and, for a stanza with a child in the receipts namespace,
`_receipt_received_handler` do drop the stanza: no event, nothing sent, result 1. -/
theorem handlers_without_from (env : Env) (stanza : Stanza)
    (hfrom : xmpp_stanza_get_attribute stanza STANZA_ATTR_FROM = none)
    (hnull : env.jid_create none = none) :
    _groupchat_handler env stanza = none ∧
    ((xmpp_stanza_get_type stanza = some "chat" ∨ xmpp_stanza_get_type stanza = none) →
      xmpp_stanza_get_child_by_ns stanza STANZA_NS_CARBONS = none →
      xmpp_stanza_get_child_by_ns stanza STANZA_NS_CONFERENCE = none →
      xmpp_stanza_get_child_by_ns stanza STANZA_NS_MUC_USER = none →
      xmpp_stanza_get_child_by_ns stanza STANZA_NS_CAPTCHA = none →
      _chat_handler env stanza = none) ∧
    _muc_user_handler env stanza = some ⟨[], 1⟩ ∧
    _conference_handler env stanza = some ⟨[], 1⟩ ∧
    _captcha_handler stanza = some ⟨[], 1⟩ ∧
    (xmpp_stanza_get_child_by_ns stanza STANZA_NS_RECEIPTS ≠ none →
      _receipt_received_handler env stanza = some ⟨[], 1⟩) := by
  refine ⟨?_, ?_, ?_, ?_, ?_, ?_⟩
  · unfold _groupchat_handler
    simp only [hfrom, hnull]
    cases xmpp_stanza_get_child_by_name stanza STANZA_NAME_SUBJECT <;> rfl
  · intro htype hcarbon hconf hmuc hcaptcha
    rw [chat_handler_of_type env stanza htype, hcarbon]
    simp only [chat_handler_direct, hconf, hmuc, hcaptcha, hfrom, hnull, Option.isSome_none,
      Bool.or_self, Bool.false_eq_true, if_false]
  · simp only [_muc_user_handler, hfrom]
  · simp only [_conference_handler, hfrom]
  · simp only [_captcha_handler, hfrom]
  · intro hr
    obtain ⟨receipt, hr⟩ := Option.ne_none_iff_exists'.mp hr
    unfold _receipt_received_handler
    simp only [hr, hfrom]
    split
    · rfl
    · cases xmpp_stanza_get_attribute receipt STANZA_ATTR_ID <;> rfl

/-- C21, the failing inputs: the messages `<message type='groupchat'><body>hi</body>
</message>` and `<message type='chat'><body>hi</body></message>`, which have no `from`. -/
theorem handlers_without_from_witness :
    xmpp_stanza_get_attribute (message_without_from "groupchat") STANZA_ATTR_FROM = none ∧
    _groupchat_handler (model_env (some "a@x/res") []) (message_without_from "groupchat")
      = none ∧
    _chat_handler (model_env (some "a@x/res") []) (message_without_from "chat") = none :=
  ⟨rfl,
   (handlers_without_from (model_env (some "a@x/res") []) (message_without_from "groupchat")
      rfl rfl).1,
   (handlers_without_from (model_env (some "a@x/res") []) (message_without_from "chat")
      rfl rfl).2.1 (Or.inl rfl) rfl rfl rfl rfl⟩

/-! ## Invites -/

/-- C22: for every stanza delivered to `_muc_user_handler` (a stanza with a child in the
muc#user namespace), the handler returns 1 and emits one event, the mediated invite with
the bare address of the invite's `from` as inviter, the stanza's `from` as room, the text
of the invite's reason child if any and the text of the extension's password child if any,
when the stanza has a `from` attribute and the extension has an invite child with a `from`
attribute that `jid_create` parses; in every other case it emits no event. -/
theorem muc_user_handler_invite (env : Env) (stanza xns_muc_user : Stanza)
    (hx : xmpp_stanza_get_child_by_ns stanza STANZA_NS_MUC_USER = some xns_muc_user) :
    (∀ room invite invitor_jid jidp,
      xmpp_stanza_get_attribute stanza STANZA_ATTR_FROM = some room →
      xmpp_stanza_get_child_by_name xns_muc_user STANZA_NAME_INVITE = some invite →
      xmpp_stanza_get_attribute invite STANZA_ATTR_FROM = some invitor_jid →
      env.jid_create (some invitor_jid) = some jidp →
      _muc_user_handler env stanza = some
        ⟨[Event.sv_ev_room_invite true jidp.barejid (some room)
          ((xmpp_stanza_get_child_by_name invite STANZA_NAME_REASON).bind xmpp_stanza_get_text)
          ((xmpp_stanza_get_child_by_name xns_muc_user STANZA_NAME_PASSWORD).bind
            xmpp_stanza_get_text)], 1⟩) ∧
    (xmpp_stanza_get_attribute stanza STANZA_ATTR_FROM = none →
      _muc_user_handler env stanza = some ⟨[], 1⟩) ∧
    (xmpp_stanza_get_child_by_name xns_muc_user STANZA_NAME_INVITE = none →
      _muc_user_handler env stanza = some ⟨[], 1⟩) ∧
    (∀ invite, xmpp_stanza_get_child_by_name xns_muc_user STANZA_NAME_INVITE = some invite →
      xmpp_stanza_get_attribute invite STANZA_ATTR_FROM = none →
      _muc_user_handler env stanza = some ⟨[], 1⟩) ∧
    (∀ invite invitor_jid,
      xmpp_stanza_get_child_by_name xns_muc_user STANZA_NAME_INVITE = some invite →
      xmpp_stanza_get_attribute invite STANZA_ATTR_FROM = some invitor_jid →
      env.jid_create (some invitor_jid) = none →
      _muc_user_handler env stanza = some ⟨[], 1⟩) := by
  refine ⟨?_, ?_, ?_, ?_, ?_⟩
  · intro room invite invitor_jid jidp hroom hinvite hfrom hjid
    simp only [_muc_user_handler, hx, hroom, hinvite, hfrom, hjid]
    cases xmpp_stanza_get_child_by_name invite STANZA_NAME_REASON <;>
      cases xmpp_stanza_get_child_by_name xns_muc_user STANZA_NAME_PASSWORD <;> rfl
  · intro hroom
    simp only [_muc_user_handler, hroom]
  · intro hinvite
    unfold _muc_user_handler
    simp only [hx, hinvite]
    cases xmpp_stanza_get_attribute stanza STANZA_ATTR_FROM <;> rfl
  · intro invite hinvite hfrom
    unfold _muc_user_handler
    simp only [hx, hinvite, hfrom]
    cases xmpp_stanza_get_attribute stanza STANZA_ATTR_FROM <;> rfl
  · intro invite invitor_jid hinvite hfrom hjid
    unfold _muc_user_handler
    simp only [hx, hinvite, hfrom, hjid]
    cases xmpp_stanza_get_attribute stanza STANZA_ATTR_FROM <;> rfl

/-- C22, witness: the mediated invite from the room `room@conf` with the inviter `b@y/r`,
the reason `join us` and the password `pw`. -/
theorem muc_user_handler_invite_witness :
    _muc_user_handler (model_env none []) mediated_invite = some
      ⟨[Event.sv_ev_room_invite true "b@y" (some "room@conf") (some "join us") (some "pw")],
        1⟩ :=
  (muc_user_handler_invite (model_env none []) mediated_invite
    (.tag "x" [("xmlns", "http://jabber.org/protocol/muc#user")]
      [.tag "invite" [("from", "b@y/r")] [.tag "reason" [] [.text "join us"]],
       .tag "password" [] [.text "pw"]]) rfl).1
    "room@conf" (.tag "invite" [("from", "b@y/r")] [.tag "reason" [] [.text "join us"]])
    "b@y/r" ⟨"b@y/r", "b@y", some "r", some "b@y/r"⟩ rfl rfl rfl rfl

/-- C23: for every stanza delivered to `_conference_handler` (a stanza with a child in the
legacy-conference namespace), the handler returns 1 and emits one event, the direct invite
with the bare address of the stanza's `from` as inviter, the `jid` attribute of the
extension as room and the `reason` and `password` attributes of the extension if any, when
the stanza has a `from` attribute that `jid_create` parses and the extension has a `jid`
attribute; in every other case it emits no event. -/
theorem conference_handler_invite (env : Env) (stanza xns_conference : Stanza)
    (hx : xmpp_stanza_get_child_by_ns stanza STANZA_NS_CONFERENCE = some xns_conference) :
    (∀ from_ jidp room,
      xmpp_stanza_get_attribute stanza STANZA_ATTR_FROM = some from_ →
      env.jid_create (some from_) = some jidp →
      xmpp_stanza_get_attribute xns_conference STANZA_ATTR_JID = some room →
      _conference_handler env stanza = some
        ⟨[Event.sv_ev_room_invite false jidp.barejid (some room)
          (xmpp_stanza_get_attribute xns_conference STANZA_ATTR_REASON)
          (xmpp_stanza_get_attribute xns_conference STANZA_ATTR_PASSWORD)], 1⟩) ∧
    (xmpp_stanza_get_attribute stanza STANZA_ATTR_FROM = none →
      _conference_handler env stanza = some ⟨[], 1⟩) ∧
    (∀ from_, xmpp_stanza_get_attribute stanza STANZA_ATTR_FROM = some from_ →
      env.jid_create (some from_) = none →
      _conference_handler env stanza = some ⟨[], 1⟩) ∧
    (xmpp_stanza_get_attribute xns_conference STANZA_ATTR_JID = none →
      _conference_handler env stanza = some ⟨[], 1⟩) := by
  refine ⟨?_, ?_, ?_, ?_⟩
  · intro from_ jidp room hfrom hjid hroom
    simp only [_conference_handler, hx, hfrom, hjid, hroom]
  · intro hfrom
    simp only [_conference_handler, hfrom]
  · intro from_ hfrom hjid
    simp only [_conference_handler, hfrom, hjid]
  · intro hroom
    unfold _conference_handler
    simp only [hx, hroom]
    cases xmpp_stanza_get_attribute stanza STANZA_ATTR_FROM with
    | none => rfl
    | some from_ =>
      dsimp only
      cases env.jid_create (some from_) <;> rfl

/-- C23, witness: the direct invite from `b@y/r` to `room@conf` with a reason and no
password. -/
theorem conference_handler_invite_witness :
    _conference_handler (model_env none []) direct_invite = some
      ⟨[Event.sv_ev_room_invite false "b@y" (some "room@conf") (some "join us") none], 1⟩ :=
  (conference_handler_invite (model_env none []) direct_invite
    (.tag "x" [("xmlns", "jabber:x:conference"), ("jid", "room@conf"), ("reason", "join us")]
      []) rfl).1
    "b@y/r" ⟨"b@y/r", "b@y", some "r", some "b@y/r"⟩ "room@conf" rfl rfl rfl

/-! ## Receipts -/

/-- C24: for every stanza delivered to `_receipt_received_handler` (a stanza with a child in
the receipts namespace), the handler returns 1 and emits one event, the delivery receipt
for the bare address of `from` and the id of the receipts child, when that child is named
`received`, has an `id` attribute and the stanza has a `from` attribute (an address that
`jid_create` parses); when the child has another name, or no `id`, or the stanza has no
`from`, it emits no event. -/
theorem receipt_received_handler_event (env : Env) (stanza receipt : Stanza)
    (hr : xmpp_stanza_get_child_by_ns stanza STANZA_NS_RECEIPTS = some receipt) :
    (∀ id fulljid jidp, xmpp_stanza_get_name receipt = some "received" →
      xmpp_stanza_get_attribute receipt STANZA_ATTR_ID = some id →
      xmpp_stanza_get_attribute stanza STANZA_ATTR_FROM = some fulljid →
      env.jid_create (some fulljid) = some jidp →
      _receipt_received_handler env stanza
        = some ⟨[Event.sv_ev_message_receipt jidp.barejid id], 1⟩) ∧
    (xmpp_stanza_get_name receipt ≠ some "received" →
      _receipt_received_handler env stanza = some ⟨[], 1⟩) ∧
    (xmpp_stanza_get_attribute receipt STANZA_ATTR_ID = none →
      _receipt_received_handler env stanza = some ⟨[], 1⟩) ∧
    (xmpp_stanza_get_attribute stanza STANZA_ATTR_FROM = none →
      _receipt_received_handler env stanza = some ⟨[], 1⟩) := by
  refine ⟨?_, ?_, ?_, ?_⟩
  · intro id fulljid jidp hname hid hfrom hjid
    have hz : ¬ g_strcmp0 (xmpp_stanza_get_name receipt) (some "received") ≠ 0 := by
      rw [hname]; decide
    simp only [_receipt_received_handler, hr]
    rw [if_neg hz]
    simp only [hid, hfrom, hjid]
  · intro hname
    have hz : g_strcmp0 (xmpp_stanza_get_name receipt) (some "received") ≠ 0 :=
      fun e => hname ((g_strcmp0_eq_zero _ _).mp e)
    simp only [_receipt_received_handler, hr]
    rw [if_pos hz]
  · intro hid
    unfold _receipt_received_handler
    simp only [hr, hid]
    split <;> rfl
  · intro hfrom
    unfold _receipt_received_handler
    simp only [hr, hfrom]
    split
    · rfl
    · cases xmpp_stanza_get_attribute receipt STANZA_ATTR_ID <;> rfl

/-- C24, witness: the receipt from `b@y/r` for the message `m1`. -/
theorem receipt_received_handler_event_witness :
    _receipt_received_handler (model_env none []) receipt_message
      = some ⟨[Event.sv_ev_message_receipt "b@y" "m1"], 1⟩ :=
  (receipt_received_handler_event (model_env none []) receipt_message
    (.tag "received" [("xmlns", "urn:xmpp:receipts"), ("id", "m1")] []) rfl).1
    "m1" "b@y/r" ⟨"b@y/r", "b@y", some "r", some "b@y/r"⟩ rfl rfl rfl rfl

/-- What `_receipt_request_handler` sends: nothing, or one stanza. -/
theorem receipt_request_handler_sent (env : Env) (stanza : Stanza) (sent : List Event)
    (h : _receipt_request_handler env stanza = some sent) :
    sent = [] ∨ ∃ reply, sent = [Event.xmpp_send reply] := by
  unfold _receipt_request_handler at h
  by_cases hp : (!env.prefs_receipts_send) = true
  · rw [if_pos hp] at h
    exact Or.inl (Option.some.inj h).symm
  · rw [if_neg hp] at h
    cases hid : xmpp_stanza_get_id stanza with
    | none =>
      simp only [hid] at h
      exact Or.inl (Option.some.inj h).symm
    | some id =>
      cases hr : xmpp_stanza_get_child_by_ns stanza STANZA_NS_RECEIPTS with
      | none =>
        simp only [hid, hr] at h
        exact Or.inl (Option.some.inj h).symm
      | some receipts =>
        simp only [hid, hr] at h
        by_cases hn : g_strcmp0 (xmpp_stanza_get_name receipts) (some "request") ≠ 0
        · rw [if_pos hn] at h
          exact Or.inl (Option.some.inj h).symm
        · rw [if_neg hn] at h
          cases hj : env.jid_create (xmpp_stanza_get_attribute stanza STANZA_ATTR_FROM) with
          | none => simp only [hj] at h; cases h
          | some jid =>
            simp only [hj] at h
            cases hf : jid.fulljid with
            | none => simp only [_message_send_receipt, hf] at h; cases h
            | some fulljid =>
              simp only [_message_send_receipt, hf] at h
              exact Or.inr ⟨_, (Option.some.inj h).symm⟩

/-- The chat-state block of `_chat_handler` emits the event of the priority order when the
stanza is not delayed and the sender has a resource part, and nothing otherwise. -/
theorem chat_handler_states_eq (env : Env) (stanza : Stanza) (jid : Jid)
    (delayed : Option GTimeVal) :
    chat_handler_states env stanza jid delayed
      = if delayed.isNone && jid.resourcepart.isSome then [spec_chat_state env stanza jid]
        else [] := by
  unfold chat_handler_states spec_chat_state chat_state_by_priority
  split
  · simp only [List.cons.injEq, and_true]
    cases (xmpp_stanza_get_child_by_name stanza STANZA_NAME_GONE).isSome <;>
      cases (xmpp_stanza_get_child_by_name stanza STANZA_NAME_COMPOSING).isSome <;>
      cases (xmpp_stanza_get_child_by_name stanza STANZA_NAME_PAUSED).isSome <;>
      cases (xmpp_stanza_get_child_by_name stanza STANZA_NAME_INACTIVE).isSome <;>
      cases env.stanza_contains_chat_state stanza <;> rfl
  · rfl

/-- The event of the priority order is a chat-state event. -/
theorem spec_chat_state_is_chat_state (env : Env) (stanza : Stanza) (jid : Jid) :
    is_chat_state_event (spec_chat_state env stanza jid) = true := by
  unfold spec_chat_state chat_state_by_priority
  cases (xmpp_stanza_get_child_by_name stanza STANZA_NAME_GONE).isSome <;>
    cases (xmpp_stanza_get_child_by_name stanza STANZA_NAME_COMPOSING).isSome <;>
    cases (xmpp_stanza_get_child_by_name stanza STANZA_NAME_PAUSED).isSome <;>
    cases (xmpp_stanza_get_child_by_name stanza STANZA_NAME_INACTIVE).isSome <;>
    cases env.stanza_contains_chat_state stanza <;> rfl

/-- The events of the chat-state block are chat-state events and no message events. -/
theorem chat_handler_states_filter (env : Env) (stanza : Stanza) (jid : Jid)
    (delayed : Option GTimeVal) :
    (chat_handler_states env stanza jid delayed).filter is_chat_state_event
      = chat_handler_states env stanza jid delayed ∧
    (chat_handler_states env stanza jid delayed).filter is_message_event = [] := by
  rw [chat_handler_states_eq]
  split
  · constructor
    · simp [spec_chat_state_is_chat_state]
    · have : is_message_event (spec_chat_state env stanza jid) = false := by
        unfold spec_chat_state chat_state_by_priority
        cases (xmpp_stanza_get_child_by_name stanza STANZA_NAME_GONE).isSome <;>
          cases (xmpp_stanza_get_child_by_name stanza STANZA_NAME_COMPOSING).isSome <;>
          cases (xmpp_stanza_get_child_by_name stanza STANZA_NAME_PAUSED).isSome <;>
          cases (xmpp_stanza_get_child_by_name stanza STANZA_NAME_INACTIVE).isSome <;>
          cases env.stanza_contains_chat_state stanza <;> rfl
      simp [this]
  · exact ⟨rfl, rfl⟩

/-- The body dispatch of a direct chat message: one message event, followed by what
`_receipt_request_handler` sends; the event is the delayed-message event with the body for
a delayed stanza, and otherwise the incoming-message event, with the decrypted payload when
the build has PGP support, the stanza has an encrypted payload and decryption succeeds, and
with the body in every other case. -/
theorem chat_handler_body_eq (env : Env) (stanza : Stanza) (jid : Jid)
    (delayed : Option GTimeVal) (body : Stanza) (message : String) (sent : List Event)
    (hbody : xmpp_stanza_get_child_by_name stanza STANZA_NAME_BODY = some body)
    (htext : xmpp_stanza_get_text body = some message)
    (hsent : _receipt_request_handler env stanza = some sent) :
    ∃ e, chat_handler_body env stanza jid delayed = some (e :: sent) ∧
      is_message_event e = true ∧ is_chat_state_event e = false ∧
      (∀ tv_stamp, delayed = some tv_stamp →
        e = Event.sv_ev_delayed_message jid.barejid message tv_stamp) ∧
      (delayed = none → env.have_libgpgme = true →
        ∀ x, xmpp_stanza_get_child_by_ns stanza STANZA_NS_ENCRYPTED = some x →
        e = Event.sv_ev_incoming_message jid.barejid jid.resourcepart
          ((env.p_gpg_decrypt jid.barejid (xmpp_stanza_get_text x)).getD message)) ∧
      (delayed = none →
        (env.have_libgpgme = false ∨
          xmpp_stanza_get_child_by_ns stanza STANZA_NS_ENCRYPTED = none) →
        e = Event.sv_ev_incoming_message jid.barejid jid.resourcepart message) := by
  unfold chat_handler_body
  simp only [hbody, htext, hsent]
  cases delayed with
  | some tv_stamp =>
    refine ⟨_, rfl, rfl, rfl, ?_, ?_, ?_⟩
    · intro tv h; cases h; rfl
    · intro h; cases h
    · intro h; cases h
  | none =>
    cases hpgp : env.have_libgpgme with
    | false =>
      refine ⟨_, rfl, rfl, rfl, ?_, ?_, ?_⟩
      · intro tv h; cases h
      · intro _ h; cases h
      · intro _ _; rfl
    | true =>
      cases hx : xmpp_stanza_get_child_by_ns stanza STANZA_NS_ENCRYPTED with
      | none =>
        refine ⟨_, rfl, rfl, rfl, ?_, ?_, ?_⟩
        · intro tv h; cases h
        · intro _ _ x h; cases h
        · intro _ _; rfl
      | some x =>
        cases hd : env.p_gpg_decrypt jid.barejid (xmpp_stanza_get_text x) with
        | none =>
          refine ⟨Event.sv_ev_incoming_message jid.barejid jid.resourcepart message, ?_, rfl,
            rfl, ?_, ?_, ?_⟩
          · simp only [if_true, hd]
            rfl
          · intro tv h; cases h
          · intro _ _ x' h
            cases h
            rw [hd]
            rfl
          · intro _ h
            rcases h with h | h <;> cases h
        | some decrypted =>
          refine ⟨Event.sv_ev_incoming_message jid.barejid jid.resourcepart decrypted, ?_, rfl,
            rfl, ?_, ?_, ?_⟩
          · simp only [if_true, hd]
            rfl
          · intro tv h; cases h
          · intro _ _ x' h
            cases h
            rw [hd]
            rfl
          · intro _ h
            rcases h with h | h <;> cases h

/-- The events of the body dispatch are no chat-state events. -/
theorem chat_handler_body_filter (env : Env) (stanza : Stanza) (jid : Jid)
    (delayed : Option GTimeVal) (evs : List Event)
    (h : chat_handler_body env stanza jid delayed = some evs) :
    evs.filter is_chat_state_event = [] := by
  cases hbody : xmpp_stanza_get_child_by_name stanza STANZA_NAME_BODY with
  | none =>
    simp only [chat_handler_body, hbody] at h
    rw [← Option.some.inj h]
    rfl
  | some body =>
    cases htext : xmpp_stanza_get_text body with
    | none =>
      simp only [chat_handler_body, hbody, htext] at h
      rw [← Option.some.inj h]
      rfl
    | some message =>
      cases hsent : _receipt_request_handler env stanza with
      | none => simp only [chat_handler_body, hbody, htext, hsent] at h; cases h
      | some sent =>
        obtain ⟨e, he, _, hc, _⟩ :=
          chat_handler_body_eq env stanza jid delayed body message sent hbody htext hsent
        rw [he] at h
        rw [← Option.some.inj h]
        rcases receipt_request_handler_sent env stanza sent hsent with rfl | ⟨reply, rfl⟩
        · simp [hc]
        · have h2 : is_chat_state_event (Event.xmpp_send reply) = false := rfl
          simp [hc, h2]

/-- What `_chat_handler` returns comes from the type check, the carbon branch or the
direct part. -/
theorem chat_handler_cases (env : Env) (stanza : Stanza) (out : Outcome)
    (h : _chat_handler env stanza = some out) :
    out = ⟨[], 1⟩ ∨
    (∃ carbons, xmpp_stanza_get_child_by_ns stanza STANZA_NS_CARBONS = some carbons ∧
      (xmpp_stanza_get_name carbons = some "received" ∨
        xmpp_stanza_get_name carbons = some "sent") ∧
      chat_handler_carbon env carbons = some out) ∨
    ((∀ carbons, xmpp_stanza_get_child_by_ns stanza STANZA_NS_CARBONS = some carbons →
        xmpp_stanza_get_name carbons ≠ some "received" ∧
        xmpp_stanza_get_name carbons ≠ some "sent") ∧
      chat_handler_direct env stanza = some out) := by
  unfold _chat_handler at h
  by_cases ht : (!(decide (g_strcmp0 (xmpp_stanza_get_type stanza) (some "chat") = 0) ||
      (xmpp_stanza_get_type stanza).isNone)) = true
  · simp only [ht, if_true] at h
    exact Or.inl (Option.some.inj h).symm
  · simp only [ht, if_false] at h
    cases hc : xmpp_stanza_get_child_by_ns stanza STANZA_NS_CARBONS with
    | none =>
      simp only [hc] at h
      refine Or.inr (Or.inr ⟨?_, h⟩)
      intro c hc'
      cases hc'
    | some carbons =>
      simp only [hc] at h
      by_cases hn : (decide (g_strcmp0 (xmpp_stanza_get_name carbons) (some "received") = 0) ||
          decide (g_strcmp0 (xmpp_stanza_get_name carbons) (some "sent") = 0)) = true
      · rw [if_pos hn] at h
        refine Or.inr (Or.inl ⟨carbons, rfl, ?_, h⟩)
        simp only [Bool.or_eq_true, decide_eq_true_eq, g_strcmp0_eq_zero] at hn
        exact hn
      · rw [if_neg hn] at h
        refine Or.inr (Or.inr ⟨?_, h⟩)
        intro c hc'
        cases hc'
        simp only [Bool.or_eq_true, decide_eq_true_eq, g_strcmp0_eq_zero, not_or] at hn
        exact hn

/-- The carbon branch returns 1 and emits at most one event, an incoming-message or a
carbon event. -/
theorem chat_handler_carbon_events (env : Env) (carbons : Stanza) (out : Outcome)
    (h : chat_handler_carbon env carbons = some out) :
    out.result = 1 ∧ out.events.length ≤ 1 ∧ out.events.all is_carbon_outcome = true ∧
    out.events.filter is_chat_state_event = [] := by
  unfold chat_handler_carbon at h
  dsimp only at h
  repeat' split at h
  all_goals first
    | (cases h; exact ⟨rfl, by simp, rfl, rfl⟩)
    | cases h

/-- The chat-state events of the direct part of `_chat_handler`. -/
theorem chat_handler_direct_states (env : Env) (stanza : Stanza) (out : Outcome)
    (h : chat_handler_direct env stanza = some out) :
    out.events.filter is_chat_state_event = [] ∨
    ∃ jid, env.jid_create (xmpp_stanza_get_attribute stanza STANZA_ATTR_FROM) = some jid ∧
      out.events.filter is_chat_state_event
        = chat_handler_states env stanza jid (env.stanza_get_delay stanza) := by
  unfold chat_handler_direct at h
  dsimp only at h
  by_cases hns : ((xmpp_stanza_get_child_by_ns stanza STANZA_NS_CONFERENCE).isSome ||
      (xmpp_stanza_get_child_by_ns stanza STANZA_NS_MUC_USER).isSome ||
      (xmpp_stanza_get_child_by_ns stanza STANZA_NS_CAPTCHA).isSome) = true
  · rw [if_pos hns] at h
    cases h
    exact Or.inl rfl
  · rw [if_neg hns] at h
    cases hjid : env.jid_create (xmpp_stanza_get_attribute stanza STANZA_ATTR_FROM) with
    | none => simp only [hjid] at h; cases h
    | some jid =>
      simp only [hjid] at h
      by_cases hroom : env.muc_active jid.barejid = true
      · rw [if_pos hroom] at h
        cases h
        left
        unfold _private_chat_handler
        dsimp only
        repeat' split
        all_goals rfl
      · rw [if_neg hroom] at h
        cases he : chat_handler_body env stanza jid (env.stanza_get_delay stanza) with
        | none => simp only [he] at h; cases h
        | some evs =>
          simp only [he] at h
          cases h
          right
          refine ⟨jid, rfl, ?_⟩
          simp only [List.filter_append, chat_handler_body_filter env stanza jid _ evs he,
            List.nil_append]
          exact (chat_handler_states_filter env stanza jid _).1

/-- The direct part of `_chat_handler` for a direct one-to-one chat stanza. -/
theorem chat_handler_direct_eq (env : Env) (stanza : Stanza) (jid : Jid)
    (hdirect : is_direct_chat env stanza jid) :
    _chat_handler env stanza =
      match chat_handler_body env stanza jid (env.stanza_get_delay stanza) with
      | none => none
      | some evs =>
        some ⟨evs ++ chat_handler_states env stanza jid (env.stanza_get_delay stanza), 1⟩ := by
  obtain ⟨htype, hcarbon, hconf, hmuc, hcaptcha, hjid, hroom⟩ := hdirect
  rw [chat_handler_of_type env stanza htype, hcarbon]
  simp only [chat_handler_direct, hconf, hmuc, hcaptcha, hjid, hroom, Option.isSome_none,
    Bool.or_self, Bool.false_eq_true, if_false]

/-! ## C26 to C29: carbons, chat states, delayed and encrypted messages -/

/-- C26: for every chat stanza whose carbons-namespace child is named `received` or `sent`,
`_chat_handler` does what its carbon branch does with that child, whatever other children
the outer stanza has: when it returns it returns 1 and has emitted at most one event, an
incoming-message or a carbon event, so no delayed, private or chat-state event and no
receipt; it returns with no event when the forwarded message has no body or an empty one. -/
theorem chat_handler_carbon_terminal (env : Env) (stanza carbons : Stanza)
    (htype : xmpp_stanza_get_type stanza = some "chat" ∨ xmpp_stanza_get_type stanza = none)
    (hcarbons : xmpp_stanza_get_child_by_ns stanza STANZA_NS_CARBONS = some carbons)
    (hname : xmpp_stanza_get_name carbons = some "received" ∨
      xmpp_stanza_get_name carbons = some "sent") :
    _chat_handler env stanza = chat_handler_carbon env carbons ∧
    (∀ out, _chat_handler env stanza = some out →
      out.result = 1 ∧ out.events.length ≤ 1 ∧ out.events.all is_carbon_outcome = true ∧
      out.events.filter is_chat_state_event = [] ∧ out.events.filter is_sent = []) ∧
    (∀ forwarded message,
      xmpp_stanza_get_child_by_ns carbons STANZA_NS_FORWARD = some forwarded →
      xmpp_stanza_get_child_by_name forwarded STANZA_NAME_MESSAGE = some message →
      (xmpp_stanza_get_child_by_name message STANZA_NAME_BODY).bind xmpp_stanza_get_text = none →
      _chat_handler env stanza = some ⟨[], 1⟩) := by
  have hn : (decide (g_strcmp0 (xmpp_stanza_get_name carbons) (some "received") = 0) ||
      decide (g_strcmp0 (xmpp_stanza_get_name carbons) (some "sent") = 0)) = true := by
    rcases hname with h | h <;> rw [h] <;> decide
  have heq : _chat_handler env stanza = chat_handler_carbon env carbons := by
    rw [chat_handler_of_type env stanza htype, hcarbons]
    simp only [hn, if_true]
  refine ⟨heq, ?_, ?_⟩
  · intro out h
    rw [heq] at h
    obtain ⟨h1, h2, h3, h4⟩ := chat_handler_carbon_events env carbons out h
    refine ⟨h1, h2, h3, h4, ?_⟩
    rw [List.filter_eq_nil_iff]
    intro e he
    have := List.all_eq_true.mp h3 e he
    cases e <;> simp_all [is_carbon_outcome, is_sent]
  · intro forwarded message hf hm hb
    rw [heq]
    unfold chat_handler_carbon
    simp only [hf, hm]
    cases hbody : xmpp_stanza_get_child_by_name message STANZA_NAME_BODY with
    | none => rfl
    | some body =>
      rw [hbody] at hb
      have ht : xmpp_stanza_get_text body = none := hb
      simp only [ht]

/-- C26, witness: a chat stanza with a `sent` carbon and, next to it, a body, a composing
child, a delay stamp and a receipt request emits the carbon event of the forwarded message
and nothing else. -/
theorem chat_handler_carbon_terminal_witness :
    (xmpp_stanza_get_child_by_name carbon_with_extras STANZA_NAME_BODY).isSome = true ∧
    (xmpp_stanza_get_child_by_name carbon_with_extras STANZA_NAME_COMPOSING).isSome = true ∧
    _chat_handler (model_env (some "a@x/res") []) carbon_with_extras
      = some ⟨[Event.sv_ev_carbon "b@y" "inner"], 1⟩ :=
  ⟨rfl, rfl,
   (chat_handler_carbon_terminal (model_env (some "a@x/res") []) carbon_with_extras
      (carbon_stanza "sent" [("from", "a@x/other"), ("to", "b@y/r")] "inner")
      (Or.inl rfl) rfl (Or.inr rfl)).1.trans rfl⟩

/-- C27: for every stanza handled by `_chat_handler`, at most one chat-state event is
emitted, and it is the event chosen by the first matching rule of: gone child present gives
gone; else composing gives typing; else paused gives paused; else inactive gives inactive;
else another recognised chat state gives generic activity with state; else generic
activity without state. For a direct one-to-one chat stanza that is not delayed and whose
sender has a resource part exactly that event is emitted. -/
theorem chat_handler_chat_state (env : Env) (stanza : Stanza) :
    (∀ out, _chat_handler env stanza = some out →
      out.events.filter is_chat_state_event = [] ∨
      ∃ jid, env.jid_create (xmpp_stanza_get_attribute stanza STANZA_ATTR_FROM) = some jid ∧
        out.events.filter is_chat_state_event = [spec_chat_state env stanza jid]) ∧
    (∀ jid, is_direct_chat env stanza jid → env.stanza_get_delay stanza = none →
      jid.resourcepart ≠ none → _receipt_request_handler env stanza ≠ none →
      ∃ out, _chat_handler env stanza = some out ∧
        out.events.filter is_chat_state_event = [spec_chat_state env stanza jid]) := by
  constructor
  · intro out h
    rcases chat_handler_cases env stanza out h with rfl | ⟨carbons, _, _, hc⟩ | ⟨_, hd⟩
    · exact Or.inl rfl
    · exact Or.inl (chat_handler_carbon_events env carbons out hc).2.2.2
    · rcases chat_handler_direct_states env stanza out hd with h0 | ⟨jid, hjid, hs⟩
      · exact Or.inl h0
      · rw [chat_handler_states_eq] at hs
        split at hs
        · exact Or.inr ⟨jid, hjid, hs⟩
        · exact Or.inl hs
  · intro jid hdirect hdelay hres hreceipt
    rw [chat_handler_direct_eq env stanza jid hdirect]
    obtain ⟨sent, hsent⟩ := Option.ne_none_iff_exists'.mp hreceipt
    have hb : ∃ evs, chat_handler_body env stanza jid (env.stanza_get_delay stanza)
        = some evs := by
      cases hbody : xmpp_stanza_get_child_by_name stanza STANZA_NAME_BODY with
      | none => exact ⟨[], by simp only [chat_handler_body, hbody]⟩
      | some body =>
        cases htext : xmpp_stanza_get_text body with
        | none => exact ⟨[], by simp only [chat_handler_body, hbody, htext]⟩
        | some message =>
          obtain ⟨e, he, _⟩ := chat_handler_body_eq env stanza jid
            (env.stanza_get_delay stanza) body message sent hbody htext hsent
          exact ⟨_, he⟩
    obtain ⟨evs, he⟩ := hb
    refine ⟨⟨evs ++ chat_handler_states env stanza jid (env.stanza_get_delay stanza), 1⟩,
      by rw [he], ?_⟩
    obtain ⟨r, hr⟩ := Option.ne_none_iff_exists'.mp hres
    simp only [List.filter_append, chat_handler_body_filter env stanza jid _ evs he,
      List.nil_append, (chat_handler_states_filter env stanza jid _).1]
    rw [chat_handler_states_eq, hdelay, hr]
    rfl

/-- C27, witness: a chat message from `b@y/r` with a composing and a paused child gives the
typing event and no other chat-state event. -/
theorem chat_handler_chat_state_witness :
    ∃ out, _chat_handler (model_env (some "a@x/res") []) (composing_paused_message "b@y/r")
        = some out ∧
      out.events.filter is_chat_state_event = [Event.sv_ev_typing "b@y" (some "r")] :=
  (chat_handler_chat_state (model_env (some "a@x/res") [])
    (composing_paused_message "b@y/r")).2 ⟨"b@y/r", "b@y", some "r", some "b@y/r"⟩
    ⟨Or.inl rfl, rfl, rfl, rfl, rfl, rfl, rfl⟩ rfl (by simp) (by
      have e : _receipt_request_handler (model_env (some "a@x/res") [])
          (composing_paused_message "b@y/r") = some [] := rfl
      rw [e]
      simp)

/-- C28: for every chat stanza that carries a delay timestamp, `_chat_handler` emits no
chat-state event (no gone, typing, paused, inactive or activity event), whatever chat-state
children the stanza has; a direct one-to-one chat stanza with a delay timestamp and a
non-empty body gives the delayed-message event with that body and timestamp. -/
theorem chat_handler_delayed (env : Env) (stanza : Stanza) (tv_stamp : GTimeVal)
    (hdelay : env.stanza_get_delay stanza = some tv_stamp) :
    (∀ out, _chat_handler env stanza = some out →
      out.events.filter is_chat_state_event = []) ∧
    (∀ jid body message, is_direct_chat env stanza jid →
      xmpp_stanza_get_child_by_name stanza STANZA_NAME_BODY = some body →
      xmpp_stanza_get_text body = some message →
      _receipt_request_handler env stanza ≠ none →
      ∃ out, _chat_handler env stanza = some out ∧
        out.events.filter is_message_event
          = [Event.sv_ev_delayed_message jid.barejid message tv_stamp] ∧
        out.events.filter is_chat_state_event = []) := by
  have hstates : ∀ jid, chat_handler_states env stanza jid (env.stanza_get_delay stanza)
      = [] := by
    intro jid
    rw [chat_handler_states_eq, hdelay]
    rfl
  constructor
  · intro out h
    rcases chat_handler_cases env stanza out h with rfl | ⟨carbons, _, _, hc⟩ | ⟨_, hd⟩
    · rfl
    · exact (chat_handler_carbon_events env carbons out hc).2.2.2
    · rcases chat_handler_direct_states env stanza out hd with h0 | ⟨jid, _, hs⟩
      · exact h0
      · rw [hs, hstates]
  · intro jid body message hdirect hbody htext hreceipt
    obtain ⟨sent, hsent⟩ := Option.ne_none_iff_exists'.mp hreceipt
    obtain ⟨e, he, _, hc, hd, _⟩ := chat_handler_body_eq env stanza jid
      (env.stanza_get_delay stanza) body message sent hbody htext hsent
    have hev := hd tv_stamp hdelay
    subst hev
    rw [chat_handler_direct_eq env stanza jid hdirect, he, hstates]
    refine ⟨_, rfl, ?_, ?_⟩
    · rcases receipt_request_handler_sent env stanza sent hsent with rfl | ⟨reply, rfl⟩ <;> rfl
    · rcases receipt_request_handler_sent env stanza sent hsent with rfl | ⟨reply, rfl⟩ <;> rfl

/-- C28, witness: a delayed chat message from `b@y/r` with a body and a composing child
gives the delayed-message event only. -/
theorem chat_handler_delayed_witness :
    (xmpp_stanza_get_child_by_name
      (.tag "message" [("type", "chat"), ("from", "b@y/r")]
        [body_stanza "hi", .tag "composing" [] [], .tag "delay" [] []])
      STANZA_NAME_COMPOSING).isSome = true ∧
    _chat_handler (model_env (some "a@x/res") [])
      (.tag "message" [("type", "chat"), ("from", "b@y/r")]
        [body_stanza "hi", .tag "composing" [] [], .tag "delay" [] []])
      = some ⟨[Event.sv_ev_delayed_message "b@y" "hi" ⟨0, 0⟩], 1⟩ ∧
    ∀ out, _chat_handler (model_env (some "a@x/res") [])
      (.tag "message" [("type", "chat"), ("from", "b@y/r")]
        [body_stanza "hi", .tag "composing" [] [], .tag "delay" [] []]) = some out →
      out.events.filter is_chat_state_event = [] :=
  ⟨rfl, rfl,
   (chat_handler_delayed (model_env (some "a@x/res") [])
      (.tag "message" [("type", "chat"), ("from", "b@y/r")]
        [body_stanza "hi", .tag "composing" [] [], .tag "delay" [] []]) ⟨0, 0⟩ rfl).1⟩

/-- C30: for every group-chat stanza without a subject child whose sender address has a
resource part and whose room is not currently joined (`muc_active` is false for the bare
address), `_groupchat_handler` drops the stanza: it returns 1 and emits no event. -/
theorem groupchat_handler_inactive_room (env : Env) (stanza : Stanza) (jid : Jid)
    (resource : String)
    (hsubject : xmpp_stanza_get_child_by_name stanza STANZA_NAME_SUBJECT = none)
    (hjid : env.jid_create (xmpp_stanza_get_attribute stanza STANZA_ATTR_FROM) = some jid)
    (hres : jid.resourcepart = some resource)
    (hroom : env.muc_active jid.barejid = false) :
    _groupchat_handler env stanza = some ⟨[], 1⟩ := by
  unfold _groupchat_handler
  simp only [hsubject, hjid, hres, Option.isNone_some, Bool.false_eq_true, if_false, hroom,
    Bool.not_false, if_true]
  split <;> rfl

/-- C30, witness: a message with a body from `room@conf/nick` while no room is joined. -/
theorem groupchat_handler_inactive_room_witness :
    (xmpp_stanza_get_child_by_name groupchat_message STANZA_NAME_BODY).isSome = true ∧
    _groupchat_handler (model_env (some "a@x/res") []) groupchat_message = some ⟨[], 1⟩ :=
  ⟨rfl,
   groupchat_handler_inactive_room (model_env (some "a@x/res") []) groupchat_message
    ⟨"room@conf/nick", "room@conf", some "nick", some "room@conf/nick"⟩ "nick" rfl rfl rfl rfl⟩

/-! ## C31 to C33: room messages, private messages and captcha broadcasts -/

/-- C31: for every group-chat stanza without a subject child, sent from a well-formed
room/nickname address of a joined room and carrying a non-empty body, `_groupchat_handler`
returns 1 and emits exactly one event: the room-history event with the delay timestamp
when a delay is present, and the live room-message event otherwise; both carry the bare
room address, the nickname and the body text. -/
theorem groupchat_handler_room_message (env : Env) (stanza body : Stanza) (jid : Jid)
    (resource message : String)
    (hsubject : xmpp_stanza_get_child_by_name stanza STANZA_NAME_SUBJECT = none)
    (hjid : env.jid_create (xmpp_stanza_get_attribute stanza STANZA_ATTR_FROM) = some jid)
    (hres : jid.resourcepart = some resource)
    (hvalid : env.jid_is_valid_room_form jid = true)
    (hroom : env.muc_active jid.barejid = true)
    (hbody : xmpp_stanza_get_child_by_name stanza STANZA_NAME_BODY = some body)
    (htext : xmpp_stanza_get_text body = some message) :
    (∀ tv_stamp, env.stanza_get_delay stanza = some tv_stamp →
      _groupchat_handler env stanza = some
        ⟨[Event.sv_ev_room_history jid.barejid (some resource) tv_stamp message], 1⟩) ∧
    (env.stanza_get_delay stanza = none →
      _groupchat_handler env stanza = some
        ⟨[Event.sv_ev_room_message jid.barejid (some resource) message], 1⟩) := by
  constructor
  · intro tv_stamp hdelay
    simp only [_groupchat_handler, hsubject, hjid, hres, Option.isNone_some, Bool.false_eq_true,
      if_false, hvalid, hroom, Bool.not_true, hbody, htext, hdelay]
  · intro hdelay
    simp only [_groupchat_handler, hsubject, hjid, hres, Option.isNone_some, Bool.false_eq_true,
      if_false, hvalid, hroom, Bool.not_true, hbody, htext, hdelay]

/-- C31, witness: a message from `room@conf/nick` in the joined room `room@conf`, live and
with a delay stamp. -/
theorem groupchat_handler_room_message_witness :
    _groupchat_handler (model_env (some "a@x/res") ["room@conf"]) groupchat_message
      = some ⟨[Event.sv_ev_room_message "room@conf" (some "nick") "hi"], 1⟩ ∧
    _groupchat_handler (model_env (some "a@x/res") ["room@conf"]) groupchat_history_message
      = some ⟨[Event.sv_ev_room_history "room@conf" (some "nick") ⟨0, 0⟩ "hi"], 1⟩ :=
  ⟨(groupchat_handler_room_message (model_env (some "a@x/res") ["room@conf"])
      groupchat_message (body_stanza "hi")
      ⟨"room@conf/nick", "room@conf", some "nick", some "room@conf/nick"⟩ "nick" "hi"
      rfl rfl rfl rfl rfl rfl rfl).2 rfl,
   (groupchat_handler_room_message (model_env (some "a@x/res") ["room@conf"])
      groupchat_history_message (body_stanza "hi")
      ⟨"room@conf/nick", "room@conf", some "nick", some "room@conf/nick"⟩ "nick" "hi"
      rfl rfl rfl rfl rfl rfl rfl).1 ⟨0, 0⟩ rfl⟩

/-- C32: for every chat stanza without a carbon wrapper or claimed namespace whose sender's
bare address is an active (joined) room, `_chat_handler` returns 1 and emits what
`_private_chat_handler` emits for the full address of the sender: with a non-empty body the
one private-message event for that address (delayed-private with the timestamp when a
delay is present, incoming-private otherwise), and without one no event; so it emits no
direct-message event, no chat-state event and sends no receipt. -/
theorem chat_handler_private (env : Env) (stanza : Stanza) (jid : Jid)
    (htype : xmpp_stanza_get_type stanza = some "chat" ∨ xmpp_stanza_get_type stanza = none)
    (hcarbon : ∀ carbons, xmpp_stanza_get_child_by_ns stanza STANZA_NS_CARBONS = some carbons →
      xmpp_stanza_get_name carbons ≠ some "received" ∧
      xmpp_stanza_get_name carbons ≠ some "sent")
    (hconf : xmpp_stanza_get_child_by_ns stanza STANZA_NS_CONFERENCE = none)
    (hmuc : xmpp_stanza_get_child_by_ns stanza STANZA_NS_MUC_USER = none)
    (hcaptcha : xmpp_stanza_get_child_by_ns stanza STANZA_NS_CAPTCHA = none)
    (hjid : env.jid_create (xmpp_stanza_get_attribute stanza STANZA_ATTR_FROM) = some jid)
    (hroom : env.muc_active jid.barejid = true) :
    _chat_handler env stanza = some ⟨_private_chat_handler env stanza jid.fulljid, 1⟩ ∧
    (∀ body message tv_stamp,
      xmpp_stanza_get_child_by_name stanza STANZA_NAME_BODY = some body →
      xmpp_stanza_get_text body = some message → env.stanza_get_delay stanza = some tv_stamp →
      _chat_handler env stanza = some
        ⟨[Event.sv_ev_delayed_private_message jid.fulljid message tv_stamp], 1⟩) ∧
    (∀ body message, xmpp_stanza_get_child_by_name stanza STANZA_NAME_BODY = some body →
      xmpp_stanza_get_text body = some message → env.stanza_get_delay stanza = none →
      _chat_handler env stanza = some
        ⟨[Event.sv_ev_incoming_private_message jid.fulljid message], 1⟩) ∧
    ((xmpp_stanza_get_child_by_name stanza STANZA_NAME_BODY).bind xmpp_stanza_get_text = none →
      _chat_handler env stanza = some ⟨[], 1⟩) := by
  have hd : chat_handler_direct env stanza
      = some ⟨_private_chat_handler env stanza jid.fulljid, 1⟩ := by
    simp only [chat_handler_direct, hconf, hmuc, hcaptcha, hjid, hroom, Option.isSome_none,
      Bool.or_self, Bool.false_eq_true, if_false, if_true]
  have heq : _chat_handler env stanza
      = some ⟨_private_chat_handler env stanza jid.fulljid, 1⟩ := by
    rw [chat_handler_of_type env stanza htype]
    cases hc : xmpp_stanza_get_child_by_ns stanza STANZA_NS_CARBONS with
    | none => exact hd
    | some carbons =>
      obtain ⟨h1, h2⟩ := hcarbon carbons hc
      have e1 : ¬ g_strcmp0 (xmpp_stanza_get_name carbons) (some "received") = 0 :=
        fun h => h1 ((g_strcmp0_eq_zero _ _).mp h)
      have e2 : ¬ g_strcmp0 (xmpp_stanza_get_name carbons) (some "sent") = 0 :=
        fun h => h2 ((g_strcmp0_eq_zero _ _).mp h)
      simp only [e1, e2, decide_False, Bool.or_self, Bool.false_eq_true, if_false]
      exact hd
  refine ⟨heq, ?_, ?_, ?_⟩
  · intro body message tv_stamp hbody htext hdelay
    rw [heq]
    simp only [_private_chat_handler, hbody, htext, hdelay]
  · intro body message hbody htext hdelay
    rw [heq]
    simp only [_private_chat_handler, hbody, htext, hdelay]
  · intro hb
    rw [heq]
    unfold _private_chat_handler
    cases hbody : xmpp_stanza_get_child_by_name stanza STANZA_NAME_BODY with
    | none => rfl
    | some body =>
      rw [hbody] at hb
      have ht : xmpp_stanza_get_text body = none := hb
      simp only [ht]

/-- C32, witness: a chat message from `room@conf/nick` in the joined room `room@conf` with a
body, a composing child and a receipt request gives the private-message event only, the
delayed one when it has a delay stamp. -/
theorem chat_handler_private_witness :
    _chat_handler (model_env (some "a@x/res") ["room@conf"]) (private_message [])
      = some ⟨[Event.sv_ev_incoming_private_message (some "room@conf/nick") "psst"], 1⟩ ∧
    _chat_handler (model_env (some "a@x/res") ["room@conf"])
        (private_message [.tag "delay" [] []])
      = some ⟨[Event.sv_ev_delayed_private_message (some "room@conf/nick") "psst" ⟨0, 0⟩],
          1⟩ :=
  ⟨(chat_handler_private (model_env (some "a@x/res") ["room@conf"]) (private_message [])
      ⟨"room@conf/nick", "room@conf", some "nick", some "room@conf/nick"⟩ (Or.inl rfl)
      (by
        intro carbons hc
        have e : xmpp_stanza_get_child_by_ns (private_message []) STANZA_NS_CARBONS = none :=
          rfl
        rw [e] at hc
        cases hc)
      rfl rfl rfl rfl rfl).2.2.1 (body_stanza "psst") "psst" rfl rfl rfl,
   (chat_handler_private (model_env (some "a@x/res") ["room@conf"])
      (private_message [.tag "delay" [] []])
      ⟨"room@conf/nick", "room@conf", some "nick", some "room@conf/nick"⟩ (Or.inl rfl)
      (by
        intro carbons hc
        have e : xmpp_stanza_get_child_by_ns (private_message [.tag "delay" [] []])
            STANZA_NS_CARBONS = none := rfl
        rw [e] at hc
        cases hc)
      rfl rfl rfl rfl rfl).2.1 (body_stanza "psst") "psst" ⟨0, 0⟩ rfl rfl rfl⟩

/-- C33: for every stanza delivered to `_captcha_handler`, the handler returns 1 and emits
one event, the room-broadcast event that carries the stanza's `from` and the body text,
when the stanza has a `from` attribute and a body child with non-empty text; without a
`from` attribute, without a body child or with an empty body it emits no event. -/
theorem captcha_handler_broadcast (stanza : Stanza) :
    (∀ from_ body message, xmpp_stanza_get_attribute stanza STANZA_ATTR_FROM = some from_ →
      xmpp_stanza_get_child_by_name stanza STANZA_NAME_BODY = some body →
      xmpp_stanza_get_text body = some message →
      _captcha_handler stanza = some ⟨[Event.sv_ev_room_broadcast (some from_) message], 1⟩) ∧
    (xmpp_stanza_get_attribute stanza STANZA_ATTR_FROM = none →
      _captcha_handler stanza = some ⟨[], 1⟩) ∧
    (xmpp_stanza_get_child_by_name stanza STANZA_NAME_BODY = none →
      _captcha_handler stanza = some ⟨[], 1⟩) ∧
    (∀ body, xmpp_stanza_get_child_by_name stanza STANZA_NAME_BODY = some body →
      xmpp_stanza_get_text body = none → _captcha_handler stanza = some ⟨[], 1⟩) := by
  refine ⟨?_, ?_, ?_, ?_⟩
  · intro from_ body message hfrom hbody htext
    simp only [_captcha_handler, hfrom, hbody, htext]
  · intro hfrom
    simp only [_captcha_handler, hfrom]
  · intro hbody
    unfold _captcha_handler
    simp only [hbody]
    cases xmpp_stanza_get_attribute stanza STANZA_ATTR_FROM <;> rfl
  · intro body hbody htext
    unfold _captcha_handler
    simp only [hbody, htext]
    cases xmpp_stanza_get_attribute stanza STANZA_ATTR_FROM <;> rfl

/-- C33, witness: the captcha challenge from `room@conf` with the body `solve this`. -/
theorem captcha_handler_broadcast_witness :
    _captcha_handler captcha_message
      = some ⟨[Event.sv_ev_room_broadcast (some "room@conf") "solve this"], 1⟩ :=
  (captcha_handler_broadcast captcha_message).1 "room@conf" (body_stanza "solve this")
    "solve this" rfl rfl rfl

/-! ## C34 and C35: what the canonical string depends on -/

/-- C34: for every query, adding or removing a child that is neither an identity, a feature
nor an `x` element in the data-forms namespace (a text node, an element with another name,
an `x` element in another namespace) leaves what `caps_create_sha1_str` builds unchanged:
the same canonical string and the same hash, or the same failure. -/
theorem caps_sha1_input_ignores_child (env : Env) (name : String)
    (attributes : List (String × String)) (before after : List Stanza) (c : Stanza)
    (hc : is_ignored_child c = true) :
    caps_sha1_input env (.tag name attributes (before ++ c :: after))
      = caps_sha1_input env (.tag name attributes (before ++ after)) ∧
    caps_create_sha1_str env (.tag name attributes (before ++ c :: after))
      = caps_create_sha1_str env (.tag name attributes (before ++ after)) := by
  simp only [is_ignored_child, Bool.and_eq_true, Bool.not_eq_true'] at hc
  obtain ⟨⟨h1, h2⟩, h3⟩ := hc
  have hi : identity_data (before ++ c :: after) = identity_data (before ++ after) := by
    simp [identity_data, List.filter_append, List.filter_cons, h1]
  have hf : feature_data (before ++ c :: after) = feature_data (before ++ after) := by
    simp [feature_data, List.filter_append, List.filter_cons, h2]
  have hx : (before ++ c :: after).filter is_data_form = (before ++ after).filter is_data_form := by
    simp [List.filter_append, List.filter_cons, h3]
  have h : caps_sha1_input env (.tag name attributes (before ++ c :: after))
      = caps_sha1_input env (.tag name attributes (before ++ after)) := by
    rw [caps_sha1_input_split, caps_sha1_input_split]
    simp only [xmpp_stanza_get_children, hi, hf, hx]
  exact ⟨h, by simp only [caps_create_sha1_str, h]⟩

/-- C34, witness: `query_with_software` with an `x` element of the legacy-conference
namespace put between its children has the canonical string of `query_with_software`. -/
theorem caps_sha1_input_ignores_child_witness :
    is_ignored_child x_other_namespace = true ∧
    caps_sha1_input (model_env none [])
      (.tag "query" []
        ([.tag "identity" [("category", "client"), ("type", "pc"), ("name", "P")] [],
          feature_stanza "urn:b"] ++ x_other_namespace ::
         [.tag "identity" [("category", "client"), ("type", "bot"), ("name", "Q")] [],
          software_form [field_stanza "os" ["Linux", "BSD"], field_stanza "software" ["Prof"],
            field_stanza "os_version" []],
          form_t_a, feature_stanza "urn:a", feature_stanza "urn:b"]))
      = caps_sha1_input (model_env none []) query_with_software :=
  ⟨rfl,
   (caps_sha1_input_ignores_child (model_env none []) "query" []
      [.tag "identity" [("category", "client"), ("type", "pc"), ("name", "P")] [],
       feature_stanza "urn:b"]
      [.tag "identity" [("category", "client"), ("type", "bot"), ("name", "Q")] [],
       software_form [field_stanza "os" ["Linux", "BSD"], field_stanza "software" ["Prof"],
         field_stanza "os_version" []],
       form_t_a, feature_stanza "urn:a", feature_stanza "urn:b"]
      x_other_namespace rfl).1⟩

/-- Sorting a list of strings is inserting its elements one by one. -/
theorem insertionSort_eq_ordered_insert_all (l : List String) :
    l.insertionSort str_le = ordered_insert_all [] l := by
  apply sorted_perm_unique
  · have h := ordered_insert_all_perm l []
    simp only [List.nil_append] at h
    exact (List.perm_insertionSort str_le l).trans h.symm
  · exact List.sorted_insertionSort str_le l
  · exact ordered_insert_all_sorted l [] List.sorted_nil

/-- The `features` list of a state that the first loop of `caps_create_sha1_str` returns. -/
theorem caps_scan_features (env : Env) (cs : List Stanza) (st : CapsLists)
    (h : caps_scan env cs ⟨[], [], [], g_hash_table_new⟩ = some st) :
    insert_all_sorted [] (feature_data cs) = some st.features := by
  rw [caps_scan_split] at h
  simp only at h
  cases hi : insert_all_sorted [] (identity_data cs) with
  | none => rw [hi] at h; cases h
  | some i =>
    cases hf : insert_all_sorted [] (feature_data cs) with
    | none => rw [hi, hf] at h; cases h
    | some f =>
      cases hx : scan_forms env (cs.filter is_data_form) ([], g_hash_table_new) with
      | none => rw [hi, hf, hx] at h; cases h
      | some nf =>
        rw [hi, hf, hx] at h
        cases h
        rfl

/-- C35: for every query whose feature children all have a `var` attribute, the features
list of the record built by `caps_create` is the list of the `var` values in document
order, and sorting it in ascending byte-wise order gives exactly the list `features` that
the first loop of `caps_create_sha1_str` builds and that its feature segment serialises
(same elements with the same multiplicities, same order): the segment is the
concatenation of the sorted strings, each followed by `<`. -/
theorem caps_create_features_sorted (env : Env) (query : Stanza)
    (hvar : ∀ c ∈ query_features query, xmpp_stanza_get_attribute c "var" ≠ none) :
    caps_create_features (xmpp_stanza_get_children query) [] = some (query_feature_vars query) ∧
    insert_all_sorted [] (feature_data (xmpp_stanza_get_children query))
      = some (((query_feature_vars query).insertionSort str_le).map some) ∧
    (∀ caps st, caps_create env query = some caps →
      caps_scan env (xmpp_stanza_get_children query) ⟨[], [], [], g_hash_table_new⟩ = some st →
      st.features = ((caps.features.insertionSort str_le).map some) ∧
      ∀ s, caps_append_features s st.features
        = s ++ concat_strings ((caps.features.insertionSort str_le).map lt_terminated)) := by
  have hf : caps_create_features (xmpp_stanza_get_children query) []
      = some (query_feature_vars query) := by
    rw [caps_create_features_eq _ [] hvar]
    rfl
  have hv : none ∉ feature_data (xmpp_stanza_get_children query) := by
    intro hm
    simp only [feature_data, List.mem_map] at hm
    obtain ⟨c, hc, hn⟩ := hm
    exact hvar c hc hn
  have hs : insert_all_sorted [] (feature_data (xmpp_stanza_get_children query))
      = some (((query_feature_vars query).insertionSort str_le).map some) := by
    have h := insert_all_sorted_some
      ((feature_data (xmpp_stanza_get_children query)).filterMap id) []
    rw [← all_some_eq_map _ hv] at h
    simp only [List.map_nil] at h
    rw [h, feature_data_filterMap, insertionSort_eq_ordered_insert_all]
    rfl
  refine ⟨hf, hs, ?_⟩
  intro caps st hcaps hst
  obtain ⟨features, _, hf', rfl⟩ := caps_create_some env query caps hcaps
  rw [hf] at hf'
  have e : features = query_feature_vars query := (Option.some.inj hf').symm
  subst e
  have h := caps_scan_features env _ st hst
  rw [hs] at h
  have e2 : st.features = ((query_feature_vars query).insertionSort str_le).map some :=
    (Option.some.inj h).symm
  refine ⟨e2, ?_⟩
  intro s
  rw [e2, caps_append_features_eq]

/-- C35, witness: the record of `query_software_second` has the features `urn:b`, `urn:a`,
`urn:b`; sorted they are `urn:a`, `urn:b`, `urn:b`, the list that the first loop of
`caps_create_sha1_str` builds. -/
theorem caps_create_features_sorted_witness :
    caps_create_features (xmpp_stanza_get_children query_software_second) []
      = some ["urn:b", "urn:a", "urn:b"] ∧
    insert_all_sorted [] (feature_data (xmpp_stanza_get_children query_software_second))
      = some [some "urn:a", some "urn:b", some "urn:b"] ∧
    ∃ caps st, caps_create (model_env none []) query_software_second = some caps ∧
      caps_scan (model_env none []) (xmpp_stanza_get_children query_software_second)
        ⟨[], [], [], g_hash_table_new⟩ = some st ∧
      caps.features = ["urn:b", "urn:a", "urn:b"] ∧
      st.features = (caps.features.insertionSort str_le).map some :=
  have hvar : ∀ c ∈ query_features query_software_second,
      xmpp_stanza_get_attribute c "var" ≠ none := by
    intro c hc
    have e : query_features query_software_second
        = [feature_stanza "urn:b", feature_stanza "urn:a", feature_stanza "urn:b"] := rfl
    rw [e] at hc
    simp only [List.mem_cons, List.mem_singleton, List.not_mem_nil, or_false] at hc
    rcases hc with rfl | rfl | rfl <;> decide
  ⟨rfl,
   (caps_create_features_sorted (model_env none []) query_software_second hvar).2.1.trans
     (by decide),
   _, _, rfl, rfl, rfl,
   ((caps_create_features_sorted (model_env none []) query_software_second hvar).2.2
     _ _ rfl rfl).1⟩

end Profanity
